import Mathlib

/-!
# nbd-client: handshake, export listing, device-table lookup and attach

A shallow embedding of `src/nbd-client.c`.

* Bytes are natural numbers below 256; a byte string is a `List Nat`.  A C
  string is the part of a byte list before its first zero byte (the end of the
  list also terminates it).
* The socket is a pair of byte lists: `inp`, what the server has sent and the
  client has not consumed yet, and `out`, what the client has written.  Writes
  never fail in this model, and a `read` of `n` bytes returns the next `n`
  bytes when that many are left and all that is left otherwise.
* `err(...)` prints a diagnostic and ends the process; `exit(c)` ends it with
  status `c`.  Both are outcomes of the embedded functions.
* `htonl`/`ntohl`/`htonll`/`ntohll` of a value that is then written (or was
  just read) is the big-endian encoding (decoding) of that value.
* The functions that drive the device (`setsizes`, `set_timeout`,
  `finish_sock`, the attach loop of `main`, `mcast_callback`, `openunix`) take
  the list of events that happened before and return the list extended by what
  they do.  The kernel, the dialer and the server are parameters that answer
  from that list, so an answer may depend on all that happened before.
-/

namespace NbdClient

/-! ## Bytes and the wire codec -/

/-- The bytes of a string literal. -/
def bytes (s : String) : List Nat := s.toList.map Char.toNat

/-- Big-endian encoding of `v` on `n` bytes, as `htonl`/`htonll` followed by
`write` put it on the wire (the value is taken modulo `256 ^ n`). -/
def be : Nat → Nat → List Nat
  | 0, _ => []
  | n + 1, v => (v / 256 ^ n) % 256 :: be n v

/-- Big-endian decoding, as `ntohs`/`ntohl`/`ntohll` applied to bytes read
from the wire give it. -/
def ofBE (bs : List Nat) : Nat := bs.foldl (fun acc b => acc * 256 + b) 0

/-- The bytes a host keeps in memory for the `n`-byte integer `v`:
little-endian hosts keep the low byte first. -/
def hostBytes (le : Bool) (n v : Nat) : List Nat :=
  if le then (be n v).reverse else be n v

/-- The C string held in a buffer: the bytes before the first zero byte. -/
def cstr (buf : List Nat) : List Nat := buf.takeWhile (fun b => b != 0)

/-- The function `strlen` of the C library. -/
def strlen (s : List Nat) : Nat := (cstr s).length

/-- The function `strcmp` of the C library: the difference of the first pair of
bytes that differ, zero when the two C strings are equal.  The end of a list
counts as the terminating zero byte. -/
def strcmp : List Nat → List Nat → Int
  | [], [] => 0
  | [], b :: _ => 0 - (b : Int)
  | a :: _, [] => (a : Int)
  | a :: as, b :: bs =>
    if a ≠ b then (a : Int) - (b : Int) else if a = 0 then 0 else strcmp as bs

/-! ## Protocol constants -/

/-- Modelled from the spec: `INIT_PASSWD` of `cliserv.h`, the 8 ASCII bytes
`NBDMAGIC`. -/
def INIT_PASSWD : List Nat := bytes "NBDMAGIC"

/-- Modelled from the spec: `opts_magic` of `cliserv.h`. -/
def opts_magic : Nat := 0x49484156454F5054

/-- Modelled from the spec: `cliserv_magic` of `cliserv.h`. -/
def cliserv_magic : Nat := 0x00420281861253

/-- Modelled from the spec: `rep_magic` of `cliserv.h`. -/
def rep_magic : Nat := 0x3e889045565a9

/-- Modelled from the spec: option code `NBD_OPT_EXPORT_NAME`. -/
def NBD_OPT_EXPORT_NAME : Nat := 1

/-- Modelled from the spec: option code `NBD_OPT_ABORT`. -/
def NBD_OPT_ABORT : Nat := 2

/-- Modelled from the spec: option code `NBD_OPT_LIST`. -/
def NBD_OPT_LIST : Nat := 3

/-- Modelled from the spec: reply type `NBD_REP_ACK`. -/
def NBD_REP_ACK : Nat := 1

/-- Modelled from the spec: reply type `NBD_REP_SERVER`. -/
def NBD_REP_SERVER : Nat := 2

/-- Modelled from the spec: the error bit of a reply type,
`NBD_REP_FLAG_ERROR`. -/
def NBD_REP_FLAG_ERROR : Nat := 0x80000000

/-- Modelled from the spec: reply type `NBD_REP_ERR_POLICY`. -/
def NBD_REP_ERR_POLICY : Nat := 2 ||| NBD_REP_FLAG_ERROR

/-- Modelled from the spec: global flag `NBD_FLAG_NO_ZEROES`. -/
def NBD_FLAG_NO_ZEROES : Nat := 2

/-- Modelled from the spec: client flag `NBD_FLAG_C_NO_ZEROES`. -/
def NBD_FLAG_C_NO_ZEROES : Nat := 2

/-- The option bit `NBDC_DO_LIST` (line 62). -/
def NBDC_DO_LIST : Nat := 1

/-- The status `EXIT_FAILURE` of the C library. -/
def EXIT_FAILURE : Nat := 1

/-- The status `EXIT_SUCCESS` of the C library. -/
def EXIT_SUCCESS : Nat := 0

/-! ## The process and its socket -/

/-- What the process can observe and change: the two directions of the socket
and the two output streams. -/
structure World where
  /-- Bytes sent by the server and not yet read by the client. -/
  inp : List Nat
  /-- Bytes the client has written to the socket, oldest first. -/
  out : List Nat
  /-- Bytes printed on standard output. -/
  stdout : List Nat
  /-- Bytes printed on standard error. -/
  stderr : List Nat
deriving DecidableEq

/-- How a call ends: it returns a value, or the process ends in `err` with a
diagnostic, or in `exit` with a status. -/
inductive Res (α : Type) where
  | ret (a : α)
  | err (msg : String)
  | exit (code : Nat)
deriving DecidableEq

/-- A `write` of the bytes `bs` to the socket. -/
def World.write (w : World) (bs : List Nat) : World := { w with out := w.out ++ bs }

/-- A `printf` of the bytes `bs`. -/
def World.printf (w : World) (bs : List Nat) : World := { w with stdout := w.stdout ++ bs }

/-- A `fprintf(stderr, ...)` of the bytes `bs`. -/
def World.eprintf (w : World) (bs : List Nat) : World := { w with stderr := w.stderr ++ bs }

/-- Modelled from the spec: `readit` of `cliserv.h`, the read-exact primitive.
It yields the next `n` bytes of the stream, or fails when the stream is
shorter than that. -/
def readit (w : World) (n : Nat) : Option (List Nat × World) :=
  if n ≤ w.inp.length then some (w.inp.take n, { w with inp := w.inp.drop n }) else none

/-- A `read(sock, p, n)` into an object of `n` bytes that held `old`: the bytes
that arrive replace the first bytes of the object, the others stay. -/
def readInto (old : List Nat) (n : Nat) (w : World) : List Nat × World :=
  let got := w.inp.take n
  ((got ++ old.drop got.length).take n, { w with inp := w.inp.drop n })

/-- Decimal digits of `n`, most significant first, produced from the low end
with at most `fuel` divisions. -/
def decimalAux : Nat → Nat → List Nat → List Nat
  | 0, _, acc => acc
  | fuel + 1, n, acc =>
    if n / 10 = 0 then (48 + n % 10) :: acc
    else decimalAux fuel (n / 10) ((48 + n % 10) :: acc)

/-- The text `printf` produces for an unsigned integer with `%lu`, `%d` of a
non-negative value, and the like. -/
def decimal (n : Nat) : List Nat := decimalAux (n + 1) n []

/-! ## `ask_list` (lines 409-505) -/

/-- The size `BUF_SIZE` of the name buffer of `ask_list`. -/
def BUF_SIZE : Nat := 1024

/-- The integer variables of `ask_list` that `read` fills, each as the bytes
it occupies in memory. -/
structure ListVars where
  magic : List Nat
  opt_server : List Nat
  reptype : List Nat
  len : List Nat
deriving DecidableEq

/-- One pass through the body of the `do ... while` loop of `ask_list`: one
reply is read and handled.  The value returned is the loop condition
`reptype != NBD_REP_ACK` together with the variables as the pass leaves them.
`le` tells whether the host is little-endian: it decides which bytes a
variable holds after `ntohl`/`ntohll`, which matters only when a later `read`
comes back short. -/
def ask_list_reply (le : Bool) (v : ListVars) (w : World) : Res (Bool × ListVars) × World :=
  let (mg, w1) := readInto v.magic 8 w
  let (os, w2) := readInto v.opt_server 4 w1
  let (rt, w3) := readInto v.reptype 4 w2
  let (ln, w4) := readInto v.len 4 w3
  let magic := ofBE mg
  let len := ofBE ln
  let reptype := ofBE rt
  if magic ≠ rep_magic then
    (.err "Not enough magic from server", w4)
  else if reptype &&& NBD_REP_FLAG_ERROR ≠ 0 then
    let w5 := w4.eprintf
      (if reptype = NBD_REP_ERR_POLICY then bytes "\nE: listing not allowed by server.\n"
       else bytes "\nE: unexpected error from server.\n")
    if 0 < len ∧ len < BUF_SIZE then
      let got := w5.inp.take len
      let buf := (got ++ List.replicate (BUF_SIZE - got.length) 0).set got.length 0
      let w6 := { w5 with inp := w5.inp.drop len }
      (.exit EXIT_FAILURE, w6.eprintf (bytes "Server said: " ++ cstr buf ++ bytes "\n"))
    else (.exit EXIT_FAILURE, w5)
  else if len ≠ 0 then
    if reptype ≠ NBD_REP_SERVER then
      (.err "Server sent us a reply we don't understand!", w4)
    else
      let (ln2, w5) := readInto (hostBytes le 4 len) 4 w4
      let len2 := ofBE ln2
      if len2 ≥ BUF_SIZE then
        (.exit EXIT_FAILURE, w5.eprintf (bytes "\nE: export name on server too long\n"))
      else
        let got := w5.inp.take len2
        let buf := (got ++ List.replicate (BUF_SIZE - got.length) 0).set len2 0
        let w6 := { w5 with inp := w5.inp.drop len2 }
        let w7 := w6.printf (cstr buf ++ bytes "\n")
        (.ret (decide (reptype ≠ NBD_REP_ACK),
          ⟨hostBytes le 8 magic, os, hostBytes le 4 reptype, hostBytes le 4 len2⟩), w7)
  else
    (.ret (decide (reptype ≠ NBD_REP_ACK),
      ⟨hostBytes le 8 magic, os, hostBytes le 4 reptype, hostBytes le 4 len⟩), w4)

/-- The `do ... while(reptype != NBD_REP_ACK)` loop of `ask_list`, run for at
most `fuel` replies; `none` when the fuel runs out. -/
def ask_list_loop (le : Bool) : Nat → ListVars → World → Option (Res Unit × World)
  | 0, _, _ => none
  | fuel + 1, v, w =>
    match ask_list_reply le v w with
    | (.ret (true, v'), w') => ask_list_loop le fuel v' w'
    | (.ret (false, _), w') => some (.ret (), w')
    | (.err msg, w') => some (.err msg, w')
    | (.exit code, w') => some (.exit code, w')

/-- The function `ask_list`: it sends the `LIST` option, prints one line per
`SERVER` reply until the `ACK`, then sends `ABORT`.  `garbage` is what the
uninitialised variables `opt_server` and `reptype` hold on entry (four bytes
each). -/
def ask_list (le : Bool) (garbage : List Nat × List Nat) (fuel : Nat) (w : World) :
    Option (Res Unit × World) :=
  let w := w.write (be 8 opts_magic)
  let w := w.write (be 4 NBD_OPT_LIST)
  let w := w.write (be 4 0)
  let w := w.printf (bytes "\n")
  match ask_list_loop le fuel ⟨be 8 opts_magic, garbage.1, garbage.2, be 4 0⟩ w with
  | none => none
  | some (.ret (), w) =>
    let w := w.write (be 8 opts_magic)
    let w := w.write (be 4 NBD_OPT_ABORT)
    let w := w.write (be 4 0)
    some (.ret (), w)
  | some (r, w) => some (r, w)

/-- A well-formed `SERVER` reply that carries the export name `name`:
`rep_magic`, the echo of the option, the type, the length `4 + |name|`, the
inner name length and the name. -/
def serverReply (name : List Nat) : List Nat :=
  be 8 rep_magic ++ be 4 NBD_OPT_LIST ++ be 4 NBD_REP_SERVER ++ be 4 (4 + name.length)
    ++ be 4 name.length ++ name

/-- The `ACK` reply of length 0 that ends a list. -/
def ackReply : List Nat :=
  be 8 rep_magic ++ be 4 NBD_OPT_LIST ++ be 4 NBD_REP_ACK ++ be 4 0

/-- The replies of a server that lists `names`, one `SERVER` reply each, in
order. -/
def serverReplies : List (List Nat) → List Nat
  | [] => []
  | name :: names => serverReply name ++ serverReplies names

/-- The lines `printf("%s\n", buf)` produces for `names`, in order. -/
def nameLines : List (List Nat) → List Nat
  | [] => []
  | name :: names => name ++ bytes "\n" ++ nameLines names

/-! ## `negotiate` (lines 507-586) -/

/-- The function `negotiate` on a host whose `unsigned long` has `ulong_bits`
bits.  It returns the pair `(*rsize64, *flags)`.  `fuel` bounds the number of
replies `ask_list` may process and is not used otherwise. -/
def negotiate (ulong_bits : Nat) (le : Bool) (garbage : List Nat × List Nat) (fuel : Nat)
    (name : List Nat) (needed_flags client_flags do_opts : Nat) (w : World) :
    Option (Res (Nat × Nat) × World) :=
  let w := w.printf (bytes "Negotiation: ")
  match readit w 8 with
  | none => some (.err "Read failed", w)
  | some (got, w) =>
  let buf := got ++ List.replicate 248 0
  if strcmp buf INIT_PASSWD ≠ 0 then some (.err "INIT_PASSWD bad", w) else
  let w := w.printf (bytes ".")
  match readit w 8 with
  | none => some (.err "Read failed", w)
  | some (mg, w) =>
  let magic := ofBE mg
  if magic ≠ opts_magic ∧ magic = cliserv_magic then
    some (.err ("It looks like you're trying to connect to an oldstyle server. " ++
      "This is no longer supported since nbd 3.10."), w)
  else
  let w := w.printf (bytes ".")
  match readit w 2 with
  | none => some (.err "Read failed", w)
  | some (tmp, w) =>
  let global_flags := ofBE tmp
  if needed_flags &&& global_flags ≠ needed_flags then
    some (.exit EXIT_FAILURE, w.eprintf (bytes "\nE: Server does not support listing exports\n"))
  else
  let client_flags :=
    if global_flags &&& NBD_FLAG_NO_ZEROES ≠ 0 then client_flags ||| NBD_FLAG_C_NO_ZEROES
    else client_flags
  let w := w.write (be 4 client_flags)
  if do_opts &&& NBDC_DO_LIST ≠ 0 then
    match ask_list le garbage fuel w with
    | none => none
    | some (.ret (), w) => some (.exit EXIT_SUCCESS, w)
    | some (.err msg, w) => some (.err msg, w)
    | some (.exit code, w) => some (.exit code, w)
  else
  let w := w.write (be 8 opts_magic)
  let w := w.write (be 4 NBD_OPT_EXPORT_NAME)
  let w := w.write (be 4 (strlen name))
  let w := w.write (cstr name)
  match readit w 8 with
  | none => some (.err "Read failed", w)
  | some (sz, w) =>
  let size64 := ofBE sz
  let w := w.printf (bytes "size = " ++ decimal ((size64 >>> 20) % 2 ^ ulong_bits) ++ bytes "MB")
  if size64 >>> 12 > 2 ^ ulong_bits - 1 then
    some (.err "Exported device is too big for me. Get 64-bit machine :-(\n", w)
  else
  match readit w 2 with
  | none => some (.err "Read failed", w)
  | some (tmp, w) =>
  let flags := ofBE tmp
  match (if global_flags &&& NBD_FLAG_NO_ZEROES = 0 then readit w 124 else some ([], w)) with
  | none => some (.err "Read failed", w)
  | some (_, w) =>
  let w := w.printf (bytes "\n")
  some (.ret (size64, flags), w)

/-! ## C library functions used by `get_from_config` -/

/-- The function `strncmp` of the C library: as `strcmp`, on at most `n`
bytes. -/
def strncmp : List Nat → List Nat → Nat → Int
  | _, _, 0 => 0
  | a, b, n + 1 =>
    if a.headD 0 ≠ b.headD 0 then (a.headD 0 : Int) - (b.headD 0 : Int)
    else if a.headD 0 = 0 then 0
    else strncmp a.tail b.tail n

/-- The function `strstr` of the C library: the part of `hay` that starts at the
first occurrence of the C string `needle`, if there is one. -/
def strstr : List Nat → List Nat → Option (List Nat)
  | [], needle => if (cstr needle).isPrefixOf [] then some [] else none
  | c :: hay, needle =>
    if (cstr needle).isPrefixOf (cstr (c :: hay)) then some (c :: hay)
    else if c = 0 then none
    else strstr hay needle

/-- The function `strcspn` of the C library: the length of the longest initial
part of the C string `s` that has no byte of `reject`. -/
def strcspn (s reject : List Nat) : Nat :=
  (s.takeWhile (fun c => c != 0 && !reject.contains c)).length

/-- The function `strspn` of the C library: the length of the longest initial
part of the C string `s` made of bytes of `accept`. -/
def strspn (s accept : List Nat) : Nat :=
  (s.takeWhile (fun c => c != 0 && accept.contains c)).length

/-- The function `strndup` of the C library: a copy of at most `n` bytes of the
C string `s`. -/
def strndup (s : List Nat) (n : Nat) : List Nat := cstr (s.take n)

/-- The function `isspace` of the C library, in the C locale. -/
def isspace (c : Nat) : Bool := c == 32 || (9 ≤ c && c ≤ 13)

/-- The value of a byte as a digit in `strtol`: `0`-`9`, then letters of either
case from 10 on; 36 for a byte that is no digit in any base. -/
def digitVal (c : Nat) : Nat :=
  if 48 ≤ c ∧ c ≤ 57 then c - 48
  else if 97 ≤ c ∧ c ≤ 122 then c - 87
  else if 65 ≤ c ∧ c ≤ 90 then c - 55
  else 36

/-- The function `strtol(s, &end, 0)` of the C library for a `long` of
`long_bits` bits: white space is skipped, a sign is accepted, a leading `0x`
or `0X` before a hexadecimal digit selects base 16, another leading `0` base 8,
anything else base 10; the value is clamped to the range of `long`; `end` is
where the digits stop, or `s` itself when there is no digit. -/
def strtol (long_bits : Nat) (s : List Nat) : Int × List Nat :=
  let s1 := s.dropWhile isspace
  let neg := s1.headD 0 == 45
  let s2 := if s1.headD 0 = 45 ∨ s1.headD 0 = 43 then s1.tail else s1
  let hex := s2.headD 0 = 48 ∧ ((s2.drop 1).headD 0 = 120 ∨ (s2.drop 1).headD 0 = 88)
    ∧ digitVal ((s2.drop 2).headD 0) < 16
  let base := if hex then 16 else if s2.headD 0 = 48 then 8 else 10
  let s3 := if hex then s2.drop 2 else s2
  let ds := s3.takeWhile (fun c => decide (digitVal c < base))
  if ds = [] then (0, s)
  else
    let mag : Int := ((ds.foldl (fun acc c => acc * base + digitVal c) 0 : Nat) : Int)
    let v : Int := if neg then - mag else mag
    let v := if v > 2 ^ (long_bits - 1) - 1 then 2 ^ (long_bits - 1) - 1
      else if v < - 2 ^ (long_bits - 1) then - 2 ^ (long_bits - 1) else v
    (v, s3.drop ds.length)

/-- The conversion `(int)` of a `long` value: the low 32 bits, read as a signed
number. -/
def toInt32 (v : Int) : Int := (v + 2 ^ 31) % 2 ^ 32 - 2 ^ 31

/-! ## `get_from_config` (lines 588-702) -/

/-- The field separators `fsep` of `get_from_config`: newline, tab, `#` and
space. -/
def fsep : List Nat := bytes "\n\t# "

/-- The line separators `lsep` of `get_from_config`: newline and `#`. -/
def lsep : List Nat := bytes "\n#"

/-- The objects `get_from_config` writes through its pointer arguments, and
what it prints on standard error. -/
structure Config where
  name : List Nat
  dev : List Nat
  hostn : List Nat
  bs : Int
  timeout : Int
  persist : Int
  swap : Int
  sdp : Int
  b_unix : Int
  port : List Nat
  stderr : List Nat
deriving DecidableEq

/-- One pass through the body of the `do ... while` loop over the options
field: the option at `loc` is handled and `loc` is moved, then a comma at
`loc` is skipped. -/
def option_step (long_bits : Nat) (loc : List Nat) (c : Config) : List Nat × Config :=
  let (loc1, c1) : List Nat × Config :=
    if strncmp loc (bytes "bs=") 3 = 0 then
      ((strtol long_bits (loc.drop 3)).2, { c with bs := toInt32 (strtol long_bits (loc.drop 3)).1 })
    else if strncmp loc (bytes "timeout=") 8 = 0 then
      ((strtol long_bits (loc.drop 8)).2,
        { c with timeout := toInt32 (strtol long_bits (loc.drop 8)).1 })
    else if strncmp loc (bytes "port=") 5 = 0 then
      (loc, { c with port := strndup (loc.drop 5) (strcspn (loc.drop 5) (bytes ",")) })
    else if strncmp loc (bytes "persist") 7 = 0 then
      (loc.drop 7, { c with persist := 1 })
    else if strncmp loc (bytes "swap") 4 = 0 then
      (loc.drop 4, { c with swap := 1 })
    else if strncmp loc (bytes "sdp") 3 = 0 then
      (loc.drop 3, { c with sdp := 1 })
    else if strncmp loc (bytes "unix") 4 = 0 then
      (loc.drop 4, { c with b_unix := 1 })
    else
      (loc.drop (strcspn loc (bytes ",")),
        if loc.headD 0 ≠ 95 then
          { c with stderr := c.stderr ++ (bytes "Warning: unknown option '"
            ++ strndup loc (strcspn loc (bytes ",")) ++ bytes "' found in nbdtab file") }
        else c)
  (if loc1.headD 0 = 44 then loc1.drop 1 else loc1, c1)

/-- The `do ... while(strcspn(loc, lsep) > 0)` loop over the options field, run
for at most `fuel` passes; `none` when the fuel runs out. -/
def parse_options (long_bits : Nat) : Nat → List Nat → Config → Option Config
  | 0, _, _ => none
  | fuel + 1, loc, c =>
    if strcspn (option_step long_bits loc c).1 lsep > 0 then
      parse_options long_bits fuel (option_step long_bits loc c).1 (option_step long_bits loc c).2
    else some (option_step long_bits loc c).2

/-- The subtraction `line_len -= field_len + ws_len` on `size_t` values of
`long_bits` bits: it wraps around below zero. -/
def size_sub (long_bits : Nat) (a b : Nat) : Nat :=
  (a + 2 ^ long_bits - b % 2 ^ long_bits) % 2 ^ long_bits

/-- The first part of `get_from_config` (lines 592-643), on a host whose
`long` and `size_t` have `long_bits` bits: the identifier is looked up in the
table and the first three fields are taken from where it is found.  `data` is
the content of the device table as `mmap` shows it, `none` when the file cannot
be opened (the diagnostic printed then, which depends on `SYSCONFDIR` and
`errno`, is left out); `cfgname` is the identifier looked up; `c` holds the
objects behind the pointer arguments on entry.  The result is either the value
the function returns at once, with those objects as they are then, or the
position `loc` of the options field, with which the loop over the options is
entered. -/
def locate_fields (long_bits : Nat) (data : Option (List Nat)) (cfgname : List Nat)
    (c : Config) : (Bool × Config) ⊕ (List Nat × Config) :=
  match data with
  | none => .inl (false, c)
  | some data =>
  let cfgname := if strncmp cfgname (bytes "/dev/") 5 = 0 then cfgname.drop 5 else cfgname
  match strstr data cfgname with
  | none => .inl (false, c)
  | some loc =>
  let c := { c with dev := bytes "/dev/" ++ cstr cfgname }
  let line_len := strcspn loc lsep
  -- first field: the device node name
  let field_len := strcspn loc fsep
  let ws_len := strspn (loc.drop field_len) fsep
  if field_len > line_len ∨ line_len ≤ 0 then .inl (false, c) else
  let line_len := size_sub long_bits line_len (field_len + ws_len)
  let loc := loc.drop (field_len + ws_len)
  -- second field: the host name
  let field_len := strcspn loc fsep
  let ws_len := strspn (loc.drop field_len) fsep
  if field_len > line_len ∨ line_len ≤ 0 then .inl (false, c) else
  let c := { c with hostn := strndup loc field_len }
  let line_len := size_sub long_bits line_len (field_len + ws_len)
  let loc := loc.drop (field_len + ws_len)
  -- third field: the export name
  let field_len := strcspn loc fsep
  let ws_len := strspn (loc.drop field_len) fsep
  if field_len > line_len ∨ line_len ≤ 0 then .inl (false, c) else
  let c := { c with name := strndup loc field_len }
  if ws_len + field_len > line_len then .inl (true, c) else
  let line_len := size_sub long_bits line_len (field_len + ws_len)
  let loc := loc.drop (field_len + ws_len)
  -- fourth field: the options
  let field_len := strcspn loc fsep
  if field_len > line_len ∨ line_len ≤ 0 then .inl (false, c) else
  .inr (loc, c)

/-- The function `get_from_config`: the fields are located, then the options
are parsed.  The result is the value returned and the objects behind the
pointer arguments on return, `none` when `fuel` passes over the options field
were not enough. -/
def get_from_config (long_bits fuel : Nat) (data : Option (List Nat)) (cfgname : List Nat)
    (c : Config) : Option (Bool × Config) :=
  match locate_fields long_bits data cfgname c with
  | .inl r => some r
  | .inr (loc, c) =>
    match parse_options long_bits fuel loc c with
    | none => none
    | some c => some (true, c)

/-- The values `main` gives the variables before it calls `get_from_config`
(lines 828-845), for the identifier `hostname` taken from the command line:
port `10809`, block size 1024, timeout 30, no flag set, an empty export name. -/
def defaults (hostname : List Nat) : Config :=
  { name := [], dev := [], hostn := hostname, bs := 1024, timeout := 30, persist := 0,
    swap := 0, sdp := 0, b_unix := 0, port := bytes "10809", stderr := [] }

/-! ## Records of the device table, as the specification describes them -/

/-- An item of the options field that `get_from_config` recognises, apart from
`port=`: `bs=<int>`, `timeout=<int>`, `persist`, `swap`, `sdp`, `unix`. -/
inductive Opt where
  | bs (n : Int)
  | timeout (n : Int)
  | persist
  | swap
  | sdp
  | unix
deriving DecidableEq

/-- An integer as it is written in the table: decimal digits without leading
zeros, after a minus sign when it is negative. -/
def intText (n : Int) : List Nat :=
  if n < 0 then 45 :: decimal n.natAbs else decimal n.natAbs

/-- The text of an option. -/
def Opt.text : Opt → List Nat
  | .bs n => bytes "bs=" ++ intText n
  | .timeout n => bytes "timeout=" ++ intText n
  | .persist => bytes "persist"
  | .swap => bytes "swap"
  | .sdp => bytes "sdp"
  | .unix => bytes "unix"

/-- The integer of an option fits the type `int`. -/
def Opt.inRange : Opt → Prop
  | .bs n => - 2 ^ 31 ≤ n ∧ n < 2 ^ 31
  | .timeout n => - 2 ^ 31 ≤ n ∧ n < 2 ^ 31
  | _ => True

/-- The options field: the options separated by commas. -/
def optsText : List Opt → List Nat
  | [] => []
  | [o] => o.text
  | o :: os => o.text ++ 44 :: optsText os

instance Opt.decidableInRange : (o : Opt) → Decidable o.inRange
  | .bs n => inferInstanceAs (Decidable (- 2 ^ 31 ≤ n ∧ n < 2 ^ 31))
  | .timeout n => inferInstanceAs (Decidable (- 2 ^ 31 ≤ n ∧ n < 2 ^ 31))
  | .persist => inferInstanceAs (Decidable True)
  | .swap => inferInstanceAs (Decidable True)
  | .sdp => inferInstanceAs (Decidable True)
  | .unix => inferInstanceAs (Decidable True)

/-- What an option says about the record: `bs=` and `timeout=` give the block
size and the timeout, a flag sets its variable to 1. -/
def Opt.apply (o : Opt) (c : Config) : Config :=
  match o with
  | .bs n => { c with bs := n }
  | .timeout n => { c with timeout := n }
  | .persist => { c with persist := 1 }
  | .swap => { c with swap := 1 }
  | .sdp => { c with sdp := 1 }
  | .unix => { c with b_unix := 1 }

/-- What a list of options says about the record, the options taken in
order. -/
def applyOpts : List Opt → Config → Config
  | [], c => c
  | o :: os, c => applyOpts os (o.apply c)

/-- A byte that can stand in a field: not the terminating zero and none of the
field separators. -/
def plain (b : Nat) : Prop := b ≠ 0 ∧ b ≠ 10 ∧ b ≠ 9 ∧ b ≠ 35 ∧ b ≠ 32

instance plain.decidable (b : Nat) : Decidable (plain b) :=
  inferInstanceAs (Decidable (b ≠ 0 ∧ b ≠ 10 ∧ b ≠ 9 ∧ b ≠ 35 ∧ b ≠ 32))

/-- A byte that separates fields on a line: a space or a tab. -/
def blank (b : Nat) : Prop := b = 32 ∨ b = 9

instance blank.decidable (b : Nat) : Decidable (blank b) :=
  inferInstanceAs (Decidable (b = 32 ∨ b = 9))

/-- The line `dev host export opts` of the device table, with the separators
`s1`, `s2`, `s3` between the fields. -/
def recordLine (dev s1 host s2 exp s3 : List Nat) (opts : List Opt) : List Nat :=
  dev ++ (s1 ++ (host ++ (s2 ++ (exp ++ (s3 ++ optsText opts)))))

/-! ## The device, the dialer and the trace of what the process does -/

/-- A request made with `ioctl` on the device node, with its argument. -/
inductive Ioctl where
  | NBD_SET_BLKSIZE (arg : Int)
  | NBD_SET_SIZE_BLOCKS (arg : Nat)
  | NBD_CLEAR_SOCK
  | NBD_SET_FLAGS (arg : Nat)
  | BLKROSET (read_only : Nat)
  | NBD_SET_TIMEOUT (arg : Nat)
  | NBD_SET_SOCK (sock : Nat)
  | NBD_DO_IT
deriving DecidableEq

/-- What the process does to the world outside, in the order it does it. -/
inductive Event where
  /-- An `ioctl` on the device. -/
  | ioctl (req : Ioctl)
  /-- A call of `openunix` or `opennet`. -/
  | dial
  /-- A call of `socket`. -/
  | socket
  /-- A call of `connect` with the address whose path field is `sun_path`. -/
  | connect (sun_path : List Nat)
  | sleep (seconds : Nat)
  | close_sock
  | close_nbd
  /-- The device node is opened. -/
  | open_nbd
  /-- A call of `negotiate` on the socket just dialled. -/
  | negotiate
  | mlockall
  /-- A diagnostic of `err_nonfatal`. -/
  | err_nonfatal (msg : String)
  /-- Text printed on standard error. -/
  | eprint (text : List Nat)
  /-- Text printed on standard output. -/
  | print (text : List Nat)
  /-- The helper process is forked that opens the device once it is attached. -/
  | fork
  /-- A `RECONFIGURE` message for the device `index` with the one socket `sock`
  is sent to the kernel. -/
  | reconfigure (index : Nat) (sock : Nat)
deriving DecidableEq

/-- The answer of the kernel to an `ioctl`, given all that happened before:
`none` for success, the error number otherwise. -/
abbrev Kernel := List Event → Ioctl → Option Nat

/-- The answer to a dial, given all that happened before: the socket, or `none`
when `openunix` or `opennet` returns a negative value. -/
abbrev Dialer := List Event → Option Nat

/-- The error number `EBADR` of Linux. -/
def EBADR : Nat := 53

/-- The error number `EBUSY` of Linux. -/
def EBUSY : Nat := 16

/-- Modelled from the spec: the transport flag `NBD_FLAG_READ_ONLY`. -/
def NBD_FLAG_READ_ONLY : Nat := 2

/-- Modelled from the spec: the client flag `NBD_FLAG_C_FIXED_NEWSTYLE`. -/
def NBD_FLAG_C_FIXED_NEWSTYLE : Nat := 1

/-! ## `openunix` (lines 383-407) -/

/-- The function `strnlen` of the C library. -/
def strnlen (s : List Nat) (n : Nat) : Nat := min (strlen s) n

/-- The function `strncpy` of the C library: the first `n` bytes of `dst` become
the C string `src`, cut after `n` bytes or filled up with zero bytes. -/
def strncpy (dst src : List Nat) (n : Nat) : List Nat :=
  (cstr src).take n ++ List.replicate (n - ((cstr src).take n).length) 0 ++ dst.drop n

/-- The function `openunix`, for a path field `sun_path` of `sun_path_size`
bytes.  `sock` is what `socket` answers (`none` for -1) and `conn` tells whether
`connect` succeeds.  The result is the value returned and what was done. -/
def openunix (sun_path_size : Nat) (sock : Option Nat) (conn : Bool) (path : List Nat) :
    Int × List Event :=
  if strnlen path sun_path_size = sun_path_size then
    (-1, [.err_nonfatal "UNIX socket path too long"])
  else
    let sun_path := strncpy (List.replicate sun_path_size 0) path (sun_path_size - 1)
    match sock with
    | none => (-1, [.socket, .err_nonfatal "SOCKET failed"])
    | some fd =>
      if conn then ((fd : Int), [.socket, .connect sun_path])
      else (-1, [.socket, .connect sun_path, .err_nonfatal "CONNECT failed", .close_sock])

/-! ## `setsizes`, `set_timeout`, `finish_sock` (lines 704-763) -/

/-- The value of `(u64)x` for an `int` or `long` value `x`. -/
def toU64 (x : Int) : Nat := (x % 2 ^ 64).toNat

/-- The block of `setsizes` that sets block size and block count (lines
711-729), on a host whose `unsigned long` has `ulong_bits` bits; `tr` is what
happened before.  The result is `none` when `blocksize` is 0: the division by
zero ends the process. -/
def setsizes_blocks (ulong_bits : Nat) (kernel : Kernel) (tr : List Event) (size64 : Nat)
    (blocksize : Int) : Option (Res Unit × List Event) :=
  if toU64 blocksize = 0 then none else
  let tmp_blocksize : Int := if size64 / toU64 blocksize ≤ 2 ^ ulong_bits - 1 then blocksize else 4096
  match kernel tr (.NBD_SET_BLKSIZE tmp_blocksize) with
  | some _ =>
    some (.err "Ioctl/1.1a failed: %m\n", tr ++ [.ioctl (.NBD_SET_BLKSIZE tmp_blocksize),
      .eprint (bytes "Failed to set blocksize " ++ intText tmp_blocksize ++ bytes "\n")])
  | none =>
  let tr := tr ++ [.ioctl (.NBD_SET_BLKSIZE tmp_blocksize)]
  let size := (size64 / toU64 tmp_blocksize) % 2 ^ ulong_bits
  match kernel tr (.NBD_SET_SIZE_BLOCKS size) with
  | some _ => some (.err "Ioctl/1.1b failed: %m\n", tr ++ [.ioctl (.NBD_SET_SIZE_BLOCKS size)])
  | none =>
  let tr := tr ++ [.ioctl (.NBD_SET_SIZE_BLOCKS size)]
  let msg := bytes "bs=" ++ intText tmp_blocksize ++ bytes ", sz="
    ++ decimal ((toU64 tmp_blocksize * size) % 2 ^ 64) ++ bytes " bytes\n"
  if tmp_blocksize ≠ blocksize then
    match kernel tr (.NBD_SET_BLKSIZE ((blocksize % 2 ^ ulong_bits : Int))) with
    | some _ =>
      some (.err "Ioctl/1.1c failed: %m\n",
        tr ++ [.ioctl (.NBD_SET_BLKSIZE ((blocksize % 2 ^ ulong_bits : Int))),
          .eprint (bytes "Failed to set blocksize " ++ intText blocksize ++ bytes "\n")])
    | none =>
      some (.ret (), tr ++ [.ioctl (.NBD_SET_BLKSIZE ((blocksize % 2 ^ ulong_bits : Int))),
        .eprint msg])
  else some (.ret (), tr ++ [.eprint msg])

/-- The function `setsizes`.  The result of `NBD_CLEAR_SOCK` and of
`NBD_SET_FLAGS` is not looked at. -/
def setsizes (ulong_bits : Nat) (kernel : Kernel) (tr : List Event) (size64 : Nat)
    (blocksize : Int) (flags : Nat) : Option (Res Unit × List Event) :=
  let read_only : Nat := if flags &&& NBD_FLAG_READ_ONLY ≠ 0 then 1 else 0
  if size64 >>> 12 > 2 ^ ulong_bits - 1 then some (.err "Device too large.\n", tr)
  else
    match setsizes_blocks ulong_bits kernel tr size64 blocksize with
    | none => none
    | some (.err msg, tr) => some (.err msg, tr)
    | some (.exit code, tr) => some (.exit code, tr)
    | some (.ret (), tr) =>
      let tr := tr ++ [.ioctl .NBD_CLEAR_SOCK, .ioctl (.NBD_SET_FLAGS flags)]
      match kernel tr (.BLKROSET read_only) with
      | some _ =>
        some (.err "Unable to set read-only attribute for device",
          tr ++ [.ioctl (.BLKROSET read_only)])
      | none => some (.ret (), tr ++ [.ioctl (.BLKROSET read_only)])

/-- The function `set_timeout`. -/
def set_timeout (ulong_bits : Nat) (kernel : Kernel) (tr : List Event) (timeout : Int) :
    Res Unit × List Event :=
  if timeout ≠ 0 then
    match kernel tr (.NBD_SET_TIMEOUT (timeout % 2 ^ ulong_bits).toNat) with
    | some _ =>
      (.err "Ioctl NBD_SET_TIMEOUT failed: %m\n",
        tr ++ [.ioctl (.NBD_SET_TIMEOUT (timeout % 2 ^ ulong_bits).toNat)])
    | none =>
      (.ret (), tr ++ [.ioctl (.NBD_SET_TIMEOUT (timeout % 2 ^ ulong_bits).toNat),
        .eprint (bytes "timeout=" ++ intText timeout ++ bytes "\n")])
  else (.ret (), tr)

/-- The function `finish_sock`. -/
def finish_sock (kernel : Kernel) (tr : List Event) (sock : Nat) (swap : Int) :
    Res Unit × List Event :=
  match kernel tr (.NBD_SET_SOCK sock) with
  | some errno =>
    if errno = EBUSY then
      (.err "Kernel doesn't support multiple connections\n", tr ++ [.ioctl (.NBD_SET_SOCK sock)])
    else (.err "Ioctl NBD_SET_SOCK failed: %m\n", tr ++ [.ioctl (.NBD_SET_SOCK sock)])
  | none =>
    if swap ≠ 0 then (.ret (), tr ++ [.ioctl (.NBD_SET_SOCK sock), .mlockall])
    else (.ret (), tr ++ [.ioctl (.NBD_SET_SOCK sock)])


/-! ## `mcast_callback` (lines 196-262) -/

/-- Modelled from the spec: the netlink command `NBD_CMD_RECONFIGURE` of
`linux/nbd-netlink.h`. -/
def NBD_CMD_RECONFIGURE : Nat := 3

/-- Modelled from the spec: the netlink command `NBD_CMD_LINK_DEAD` of
`linux/nbd-netlink.h`, the notification that the link of a device is dead. -/
def NBD_CMD_LINK_DEAD : Nat := 4

/-- The values a callback of libnl returns. -/
inductive NlAction where
  | NL_OK
  | NL_SKIP
deriving DecidableEq

/-- A netlink message as `mcast_callback` looks at it: the command of its
header, whether `nla_parse` returns 0 on it, and the attribute
`NBD_ATTR_INDEX` if it is there. -/
structure NlMsg where
  cmd : Nat
  parse_ok : Bool
  index : Option Nat
deriving DecidableEq

/-- The fields of `struct host_info` that `mcast_callback` reads itself.  The
fields `hostname`, `port`, `sdp` and `b_unix` only tell how to dial; `Dialer`
stands for them. -/
structure HostInfo where
  name : List Nat
  dead_timeout : Int

/-- The step at which the building of a netlink message fails. -/
inductive NlFail where
  /-- The call `nlmsg_alloc` returns no message. -/
  | alloc
  /-- One of the `NLA_PUT_U32` jumps to `nla_put_failure`. -/
  | put
  /-- One of the `nla_nest_start` returns no attribute. -/
  | nest
deriving DecidableEq

/-- What lies outside the process: the host, the kernel, the server. -/
structure Env where
  /-- The number of bits of `unsigned long`. -/
  ulong_bits : Nat
  /-- Whether the host is little-endian. -/
  le : Bool
  /-- What the buffers of `ask_list` hold before they are written. -/
  garbage : List Nat × List Nat
  kernel : Kernel
  dial : Dialer
  /-- Whether `open` of the device node succeeds. -/
  open_nbd : List Event → Bool
  /-- The bytes the server sends on the socket dialled after what happened. -/
  stream : List Event → List Nat
  /-- Whether, and where, the building of a netlink message fails. -/
  nl_fail : List Event → Option NlFail
  /-- Whether `nl_send_sync` succeeds. -/
  nl_send : List Event → Bool

/-- The loop `do { ... } while (retries++ < hinfo->dead_timeout)` of
`mcast_callback` (lines 226-234), entered with the value `retries`.  The result
is the socket, or `none` when the last dial has failed, and what has happened.
`fuel` bounds the number of passes. -/
def redial (dial : Dialer) (dead_timeout : Int) : Nat → Int → List Event →
    Option (Option Nat × List Event)
  | 0, _, _ => none
  | fuel + 1, retries, tr =>
    match dial tr with
    | some socket => some (some socket, tr ++ [.dial])
    | none =>
      if retries < dead_timeout then
        redial dial dead_timeout fuel (retries + 1) (tr ++ [.dial, .sleep 1])
      else some (none, tr ++ [.dial, .sleep 1])

/-- The function `mcast_callback`.  `fuel` bounds the passes of the dialling
loop. -/
def mcast_callback (env : Env) (fuel : Nat) (hinfo : HostInfo) (msg : NlMsg)
    (tr : List Event) : Option (Res NlAction × List Event) :=
  let cflags := NBD_FLAG_C_FIXED_NEWSTYLE
  if msg.cmd ≠ NBD_CMD_LINK_DEAD then some (.ret .NL_SKIP, tr)
  else if ¬ msg.parse_ok then
    some (.ret .NL_SKIP, tr ++ [.eprint (bytes "Invalid message from th kernel\n")])
  else
  match msg.index with
  | none => some (.ret .NL_SKIP, tr ++ [.eprint (bytes "Don't have the index set\n")])
  | some index =>
  let tr := tr ++ [.print (bytes "disconnect on index " ++ intText (toInt32 index)
    ++ bytes "\n")]
  match redial env.dial hinfo.dead_timeout fuel 0 tr with
  | none => none
  | some (none, tr) =>
    some (.ret .NL_OK, tr ++ [.err_nonfatal "Couldn't reconnect to the server"])
  | some (some socket, tr) =>
  match negotiate env.ulong_bits env.le env.garbage fuel hinfo.name 0 cflags 0
      ⟨env.stream tr, [], [], []⟩ with
  | none => none
  | some (.err m, _) => some (.err m, tr ++ [.negotiate])
  | some (.exit code, _) => some (.exit code, tr ++ [.negotiate])
  | some (.ret _, _) =>
  let tr := tr ++ [.negotiate]
  match env.nl_fail tr with
  | some .alloc => some (.err "Couldn't allocate netlink message\n", tr)
  | some .put => some (.err "Couldn't create the netlink message\n", tr)
  | some .nest => some (.err "Couldn't nest the sockets for our connection\n", tr)
  | none =>
  if env.nl_send tr then
    some (.ret .NL_OK, tr ++ [.reconfigure index socket, .close_sock])
  else some (.err "Couldn't reconnect device\n", tr ++ [.reconfigure index socket])

/-- What `n` dials that fail leave behind: each is followed by `sleep(1)`. -/
def failedDials : Nat → List Event
  | 0 => []
  | n + 1 => [.dial, .sleep 1] ++ failedDials n

/-- A world in which every dial is refused. -/
def refusingEnv : Env where
  ulong_bits := 64
  le := true
  garbage := ([], [])
  kernel := fun _ _ => none
  dial := fun _ => none
  open_nbd := fun _ => true
  stream := fun _ => []
  nl_fail := fun _ => none
  nl_send := fun _ => true

/-- A world in which the first two dials are refused and every later one gives
the socket 7, and the server offers an export of `1 << 30` bytes. -/
def flakyEnv : Env where
  ulong_bits := 64
  le := true
  garbage := ([], [])
  kernel := fun _ _ => none
  dial := fun tr => if tr.count .dial < 2 then none else some 7
  open_nbd := fun _ => true
  stream := fun _ => bytes "NBDMAGIC" ++ be 8 opts_magic ++ be 2 3 ++ be 8 (2 ^ 30) ++ be 2 0
  nl_fail := fun _ => none
  nl_send := fun _ => true

/-! ## The attach loop of `main` (lines 1106-1195) -/

/-- The variables of `main` the attach loop reads or writes.  `cont` holds
whether `persist` was asked for. -/
structure MainVars where
  sock : Nat
  cont : Int
  size64 : Nat
  blocksize : Int
  timeout : Int
  swap : Int
  name : List Nat
  needed_flags : Nat
  cflags : Nat
  opts : Nat
  main_pid : Int
deriving DecidableEq

/-- The loop `for (;;)` that dials until a socket is there (lines 1160-1169).
`fuel` bounds the number of passes. -/
def reconnect_dial (dial : Dialer) : Nat → List Event → Option (Nat × List Event)
  | 0, _ => none
  | fuel + 1, tr =>
    match dial (tr ++ [.eprint (bytes " Reconnecting\n")]) with
    | some sock => some (sock, tr ++ [.eprint (bytes " Reconnecting\n"), .dial])
    | none =>
      reconnect_dial dial fuel (tr ++ [.eprint (bytes " Reconnecting\n"), .dial, .sleep 1])

/-- The block that `if(cont)` guards (lines 1155-1182): both descriptors are
closed, the server is dialled and the device opened again, the negotiation is
done again, and when the size is the one of before, sizes, timeout and socket
are set as at the start. -/
def reconnect (env : Env) (fuel : Nat) (v : MainVars) (tr : List Event) :
    Option (Res MainVars × List Event) :=
  match reconnect_dial env.dial fuel (tr ++ [.close_sock, .close_nbd]) with
  | none => none
  | some (sock, tr) =>
  if ¬ env.open_nbd tr then some (.err "Cannot open NBD: %m", tr ++ [.open_nbd])
  else
  let tr := tr ++ [.open_nbd]
  match negotiate env.ulong_bits env.le env.garbage fuel v.name v.needed_flags v.cflags v.opts
      ⟨env.stream tr, [], [], []⟩ with
  | none => none
  | some (.err m, _) => some (.err m, tr ++ [.negotiate])
  | some (.exit code, _) => some (.exit code, tr ++ [.negotiate])
  | some (.ret (new_size, new_flags), _) =>
  let tr := tr ++ [.negotiate]
  if v.size64 ≠ new_size then some (.err "Size of the device changed. Bye", tr)
  else
  match setsizes env.ulong_bits env.kernel tr v.size64 v.blocksize new_flags with
  | none => none
  | some (.err m, tr) => some (.err m, tr)
  | some (.exit code, tr) => some (.exit code, tr)
  | some (.ret (), tr) =>
  match set_timeout env.ulong_bits env.kernel tr v.timeout with
  | (.err m, tr) => some (.err m, tr)
  | (.exit code, tr) => some (.exit code, tr)
  | (.ret (), tr) =>
  match finish_sock env.kernel tr sock v.swap with
  | (.err m, tr) => some (.err m, tr)
  | (.exit code, tr) => some (.exit code, tr)
  | (.ret (), tr) => some (.ret { v with sock := sock }, tr)

/-- What a failed `NBD_DO_IT` leaves behind: the request and the message on
standard error (lines 1147-1149). -/
def kernel_call_returned (main_pid : Int) (error : Nat) : List Event :=
  [.ioctl .NBD_DO_IT,
    .eprint (bytes "nbd," ++ intText main_pid ++ bytes ": Kernel call returned: "
      ++ decimal error)]

/-- One pass of the loop `do { ... } while(cont)` (lines 1107-1190): the helper
is forked, `NBD_DO_IT` is called, and what it returns is looked at. -/
def do_it_step (env : Env) (fuel : Nat) (v : MainVars) (tr : List Event) :
    Option (Res MainVars × List Event) :=
  let tr := tr ++ [.fork]
  match env.kernel tr .NBD_DO_IT with
  | some error =>
    let tr := tr ++ kernel_call_returned v.main_pid error
    if error = EBADR then some (.ret { v with cont := 0 }, tr)
    else if v.cont ≠ 0 then reconnect env fuel v tr
    else some (.ret v, tr)
  | none =>
    some (.ret { v with cont := 0 },
      tr ++ [.ioctl .NBD_DO_IT, .eprint (bytes "Kernel call returned.")])

/-- The loop `do { ... } while(cont)` and the end of `main` (lines 1107-1195).
`passes` bounds the number of passes, `fuel` the loops within one pass. -/
def attach_loop (env : Env) (fuel : Nat) : Nat → MainVars → List Event →
    Option (Res Int × List Event)
  | 0, _, _ => none
  | passes + 1, v, tr =>
    match do_it_step env fuel v tr with
    | none => none
    | some (.err m, tr) => some (.err m, tr)
    | some (.exit code, tr) => some (.exit code, tr)
    | some (.ret v, tr) =>
      if v.cont ≠ 0 then attach_loop env fuel passes v tr
      else
        some (.ret 0, tr ++ [.print (bytes "sock, "), .ioctl .NBD_CLEAR_SOCK,
          .print (bytes "done\n")])

/-- What `n` dials of the loop `for (;;)` that fail leave behind. -/
def failedReconnects : Nat → List Event
  | 0 => []
  | n + 1 => [.eprint (bytes " Reconnecting\n"), .dial, .sleep 1] ++ failedReconnects n

/-- A world in which the first `NBD_DO_IT` fails with `EIO` (5) and every later
one with `EBADR`, every other request is accepted, every dial gives the socket
4, and the server offers an export of `size` bytes. -/
def reconnectEnv (size : Nat) : Env where
  ulong_bits := 64
  le := true
  garbage := ([], [])
  kernel := fun tr req =>
    if req = .NBD_DO_IT then
      if tr.count (.ioctl .NBD_DO_IT) = 0 then some 5 else some EBADR
    else none
  dial := fun _ => some 4
  open_nbd := fun _ => true
  stream := fun _ => bytes "NBDMAGIC" ++ be 8 opts_magic ++ be 2 3 ++ be 8 size ++ be 2 0
  nl_fail := fun _ => none
  nl_send := fun _ => true

/-- The variables of `main` after an attach of an export `data` of `1 << 30`
bytes with block size 1024 on socket 3, with `cont` as given. -/
def attached (cont : Int) : MainVars where
  sock := 3
  cont := cont
  size64 := 2 ^ 30
  blocksize := 1024
  timeout := 0
  swap := 0
  name := bytes "data"
  needed_flags := 0
  cflags := NBD_FLAG_C_FIXED_NEWSTYLE
  opts := 0
  main_pid := 100

/-! # Theorems -/

theorem strcmp_cons_cons (a b : Nat) (as bs : List Nat) :
    strcmp (a :: as) (b :: bs) =
      if a ≠ b then (a : Int) - (b : Int) else if a = 0 then 0 else strcmp as bs := by
  rw [strcmp]

theorem strcmp_cons_nil (a : Nat) (as : List Nat) : strcmp (a :: as) [] = (a : Int) := by
  rw [strcmp]

theorem strcmp_step (a b : Nat) (as bs : List Nat) (hb : b ≠ 0) :
    strcmp (a :: as) (b :: bs) = 0 ↔ a = b ∧ strcmp as bs = 0 := by
  rw [strcmp_cons_cons]
  by_cases hab : a = b
  · subst hab
    simp [hb]
  · simp only [ne_eq, hab, not_false_eq_true, if_true, false_and, iff_false]
    omega

theorem strcmp_init (pw : List Nat) (h : pw.length = 8) :
    strcmp (pw ++ List.replicate 248 0) INIT_PASSWD = 0 ↔ pw = INIT_PASSWD := by
  have hI : INIT_PASSWD = [78, 66, 68, 77, 65, 71, 73, 67] := by decide
  have hz : List.replicate 248 0 = 0 :: List.replicate 247 0 := rfl
  rw [hI, hz]
  generalize List.replicate 247 0 = z
  match pw, h with
  | [a, b, c, d, e, f, g, i], _ =>
    simp only [List.cons_append, List.nil_append]
    rw [strcmp_step _ _ _ _ (by decide), strcmp_step _ _ _ _ (by decide),
      strcmp_step _ _ _ _ (by decide), strcmp_step _ _ _ _ (by decide),
      strcmp_step _ _ _ _ (by decide), strcmp_step _ _ _ _ (by decide),
      strcmp_step _ _ _ _ (by decide), strcmp_step _ _ _ _ (by decide), strcmp_cons_nil]
    simp only [List.cons.injEq, Nat.cast_zero, and_true]
theorem be_length (n v : Nat) : (be n v).length = n := by
  induction n with
  | zero => rfl
  | succ n ih => simp [be, ih]

theorem foldl_be_acc (bs : List Nat) (acc : Nat) :
    bs.foldl (fun acc b => acc * 256 + b) acc = acc * 256 ^ bs.length + ofBE bs := by
  unfold ofBE
  induction bs generalizing acc with
  | nil => simp
  | cons b bs ih =>
    simp only [List.foldl_cons, List.length_cons]
    rw [ih (acc * 256 + b), ih (0 * 256 + b), pow_succ]
    ring

theorem ofBE_cons (b : Nat) (bs : List Nat) : ofBE (b :: bs) = b * 256 ^ bs.length + ofBE bs := by
  have := foldl_be_acc bs (0 * 256 + b)
  simpa [ofBE] using this

theorem ofBE_be_mod (n v : Nat) : ofBE (be n v) = v % 256 ^ n := by
  induction n with
  | zero => simp [be, ofBE, Nat.mod_one]
  | succ n ih =>
    rw [be, ofBE_cons, ih, be_length, Nat.mod_pow_succ]
    ring

theorem ofBE_be (n v : Nat) (h : v < 256 ^ n) : ofBE (be n v) = v := by
  rw [ofBE_be_mod, Nat.mod_eq_of_lt h]

theorem readit_append (a rest o so se : List Nat) (n : Nat) (h : a.length = n) :
    readit ⟨a ++ rest, o, so, se⟩ n = some (a, ⟨rest, o, so, se⟩) := by
  subst h
  simp [readit]



theorem INIT_PASSWD_length : INIT_PASSWD.length = 8 := by decide

theorem strcmp_INIT_PASSWD : strcmp (INIT_PASSWD ++ List.replicate 248 0) INIT_PASSWD = 0 :=
  (strcmp_init INIT_PASSWD INIT_PASSWD_length).2 rfl

theorem cstr_of_no_nul (n : List Nat) (h : ∀ b ∈ n, b ≠ 0) : cstr n = n := by
  unfold cstr
  rw [List.takeWhile_eq_self_iff]
  intro b hb
  simpa using h b hb

theorem strlen_of_no_nul (n : List Nat) (h : ∀ b ∈ n, b ≠ 0) : strlen n = n.length := by
  rw [strlen, cstr_of_no_nul n h]

theorem readit_some {w w' : World} {n : Nat} {x : List Nat} (h : readit w n = some (x, w')) :
    w'.out = w.out ∧ w'.inp = w.inp.drop n ∧ x = w.inp.take n ∧ n ≤ w.inp.length ∧
      w'.stdout = w.stdout ∧ w'.stderr = w.stderr := by
  unfold readit at h
  split_ifs at h with hn
  simp only [Option.some.injEq, Prod.mk.injEq] at h
  obtain ⟨rfl, rfl⟩ := h
  exact ⟨rfl, rfl, rfl, hn, rfl, rfl⟩

/-- What a non-list `negotiate` has written once the server's first 18 bytes
have passed the three checks, whatever follows them. -/
theorem negotiate_written (ulong_bits : Nat) (le : Bool) (garbage : List Nat × List Nat)
    (fuel : Nat) (name : List Nat) (needed c opts m g : Nat) (rest o so se : List Nat)
    (hm : m < 256 ^ 8) (hg : g < 256 ^ 2) (hmagic : m ≠ cliserv_magic)
    (hneed : needed &&& g = needed) (hopts : opts &&& NBDC_DO_LIST = 0) :
    ∃ r w', negotiate ulong_bits le garbage fuel name needed c opts
        ⟨INIT_PASSWD ++ (be 8 m ++ (be 2 g ++ rest)), o, so, se⟩ = some (r, w') ∧
      w'.out = o ++ be 4 (if g &&& NBD_FLAG_NO_ZEROES ≠ 0 then c ||| NBD_FLAG_C_NO_ZEROES else c)
        ++ be 8 opts_magic ++ be 4 NBD_OPT_EXPORT_NAME ++ be 4 (strlen name) ++ cstr name := by
  simp only [negotiate, World.printf, World.write, readit_append _ _ _ _ _ _ INIT_PASSWD_length,
    readit_append _ _ _ _ _ _ (be_length _ _), strcmp_INIT_PASSWD, ofBE_be _ _ hm, ofBE_be _ _ hg,
    hmagic, hneed, hopts]
  simp only [ne_eq, not_true_eq_false, and_false, if_false, List.append_assoc]
  split
  · exact ⟨_, _, rfl, rfl⟩
  · rename_i sz w1 h1
    have ho1 := (readit_some h1).1
    split
    · exact ⟨_, _, rfl, ho1⟩
    · split
      · exact ⟨_, _, rfl, ho1⟩
      · rename_i tmp w2 h2
        have ho2 := (readit_some h2).1
        split
        · exact ⟨_, _, rfl, ho2.trans ho1⟩
        · rename_i pad w3 h3
          refine ⟨_, _, rfl, ?_⟩
          split_ifs at h3 with hz
          · exact ((readit_some h3).1.trans ho2).trans ho1
          · cases h3
            exact ho2.trans ho1

theorem and_two_ne_zero_iff (g : Nat) : g &&& 2 ≠ 0 ↔ g.testBit 1 = true := by
  constructor
  · intro h
    obtain ⟨i, hi⟩ := Nat.ne_zero_implies_bit_true h
    rw [Nat.testBit_and, Bool.and_eq_true] at hi
    have h2 : (2 : Nat).testBit i = decide (1 = i) := by
      have := @Nat.testBit_two_pow 1 i
      simpa using this
    rw [h2] at hi
    have : 1 = i := by simpa using hi.2
    subst this
    exact hi.1
  · intro h h0
    have : (g &&& 2).testBit 1 = true := by
      rw [Nat.testBit_and, h]
      decide
    rw [h0] at this
    simp at this

/-- C3: on a server stream that passes the three checks, a non-list `negotiate`
writes exactly the client flags (with the NO_ZEROES bit added when the server
has it), `opts_magic`, the option code 1, the length of the name and the name,
all big-endian, whatever the server sends afterwards. -/
theorem negotiate_export_request (ulong_bits : Nat) (le : Bool) (garbage : List Nat × List Nat)
    (fuel : Nat) (name : List Nat) (needed c opts g : Nat) (rest o so se : List Nat)
    (hname : ∀ b ∈ name, b ≠ 0) (hg : g < 2 ^ 16)
    (hneed : needed &&& g = needed) (hopts : opts &&& 1 = 0) :
    ∃ r w', negotiate ulong_bits le garbage fuel name needed c opts
        ⟨bytes "NBDMAGIC" ++ (be 8 0x49484156454F5054 ++ (be 2 g ++ rest)), o, so, se⟩
          = some (r, w') ∧
      w'.out = o ++ (be 4 (if g.testBit 1 then c ||| 2 else c) ++ be 8 0x49484156454F5054
        ++ be 4 1 ++ be 4 name.length ++ name) := by
  have h := negotiate_written ulong_bits le garbage fuel name needed c opts opts_magic g
    rest o so se (by decide) (by simpa using hg) (by decide) hneed hopts
  obtain ⟨r, w', h1, h2⟩ := h
  refine ⟨r, w', h1, ?_⟩
  rw [h2, strlen_of_no_nul name hname, cstr_of_no_nul name hname]
  have hb : (g &&& NBD_FLAG_NO_ZEROES ≠ 0) ↔ g.testBit 1 = true := and_two_ne_zero_iff g
  by_cases ht : g.testBit 1 = true
  · simp [ht, hb.2 ht, NBD_FLAG_C_NO_ZEROES, opts_magic, NBD_OPT_EXPORT_NAME]
  · have : ¬ (g &&& NBD_FLAG_NO_ZEROES ≠ 0) := fun h => ht (hb.1 h)
    simp [ht, this, opts_magic, NBD_OPT_EXPORT_NAME]

set_option maxRecDepth 100000 in
theorem negotiate_export_request_witness :
    ∃ r w', negotiate 64 true ([0, 0, 0, 0], [0, 0, 0, 0]) 0 (bytes "data") 0 1 0
        ⟨bytes "NBDMAGIC" ++ (be 8 0x49484156454F5054 ++ (be 2 3 ++ be 8 (2 ^ 30) ++ be 2 0)),
          [], [], []⟩ = some (r, w') ∧
      w'.out = [] ++ (be 4 (if (3 : Nat).testBit 1 then 1 ||| 2 else 1) ++ be 8 0x49484156454F5054
        ++ be 4 1 ++ be 4 (bytes "data").length ++ bytes "data") :=
  negotiate_export_request 64 true ([0, 0, 0, 0], [0, 0, 0, 0]) 0 (bytes "data") 0 1 0 3
    (be 8 (2 ^ 30) ++ be 2 0) [] [] [] (by decide) (by decide) (by decide) (by decide)

/-- C4: a `negotiate` that returns has consumed exactly 28 bytes of the server
stream when the server's global flags (bytes 16 and 17) have NO_ZEROES set, and
exactly 152 when they do not; what it leaves unread is the rest of the stream.
The 28 bytes are the init password, the magic, the global flags, the size and
the transport flags it returns. -/
theorem negotiate_consumes (ulong_bits : Nat) (le : Bool) (garbage : List Nat × List Nat)
    (fuel : Nat) (name : List Nat) (needed c opts : Nat) (w w' : World) (v : Nat × Nat)
    (h : negotiate ulong_bits le garbage fuel name needed c opts w = some (.ret v, w')) :
    w.inp.take 8 = bytes "NBDMAGIC" ∧
    v = (ofBE ((w.inp.drop 18).take 8), ofBE ((w.inp.drop 26).take 2)) ∧
    (ofBE ((w.inp.drop 16).take 2) &&& 2 ≠ 0 → 28 ≤ w.inp.length ∧ w'.inp = w.inp.drop 28) ∧
    (ofBE ((w.inp.drop 16).take 2) &&& 2 = 0 → 152 ≤ w.inp.length ∧ w'.inp = w.inp.drop 152) := by
  simp only [negotiate] at h
  split at h
  · simp at h
  rename_i pw w1 h1
  split at h
  · simp at h
  rename_i hpw
  split at h
  · simp at h
  rename_i mg w2 h2
  split at h
  · simp at h
  split at h
  · simp at h
  rename_i tmp w3 h3
  split at h
  · simp at h
  split at h
  · split at h <;> simp at h
  split at h
  · simp at h
  rename_i sz w4 h4
  split at h
  · simp at h
  split at h
  · simp at h
  rename_i tf w5 h5
  split at h
  · simp at h
  rename_i pad w6 h6
  obtain ⟨-, i1, p1, l1, -, -⟩ := readit_some h1
  obtain ⟨-, i2, p2, l2, -, -⟩ := readit_some h2
  obtain ⟨-, i3, p3, l3, -, -⟩ := readit_some h3
  obtain ⟨-, i4, p4, l4, -, -⟩ := readit_some h4
  obtain ⟨-, i5, p5, l5, -, -⟩ := readit_some h5
  simp only [World.printf, World.write] at i1 p1 l1 i2 p2 l2 i3 p3 l3 i4 p4 l4 i5 p5 l5
  rw [i1] at i2 p2 l2
  rw [List.drop_drop] at i2
  rw [i2] at i3 p3 l3
  rw [List.drop_drop] at i3
  rw [i3] at i4 p4 l4
  rw [List.drop_drop] at i4
  rw [i4] at i5 p5 l5
  rw [List.drop_drop] at i5
  simp only [List.length_drop, Nat.reduceAdd] at l2 l3 l4 l5 i2 i3 i4 i5
  simp only [Option.some.injEq, Prod.mk.injEq, Res.ret.injEq] at h
  obtain ⟨hv, hw⟩ := h
  have hlen : pw.length = 8 := by rw [p1, List.length_take]; omega
  have hpw2 : pw = INIT_PASSWD := (strcmp_init pw hlen).1 (not_not.1 hpw)
  refine ⟨?_, ?_, ?_, ?_⟩
  · rw [← p1]; exact hpw2
  · rw [← hv, p4, p5]
  · intro hz
    rw [← p3] at hz
    have hz2 : ¬ (ofBE tmp &&& NBD_FLAG_NO_ZEROES = 0) := hz
    rw [if_neg hz2] at h6
    simp only [Option.some.injEq, Prod.mk.injEq] at h6
    refine ⟨by omega, ?_⟩
    rw [← hw, World.printf, ← h6.2, i5]
  · intro hz
    rw [← p3] at hz
    have hz2 : ofBE tmp &&& NBD_FLAG_NO_ZEROES = 0 := hz
    rw [if_pos hz2] at h6
    obtain ⟨-, i6, -, l6, -, -⟩ := readit_some h6
    rw [i5, List.drop_drop] at i6
    rw [i5, List.length_drop] at l6
    refine ⟨by omega, ?_⟩
    rw [← hw, World.printf, i6]

set_option maxRecDepth 100000 in
theorem negotiate_consumes_witness :
    (bytes "NBDMAGIC" ++ be 8 opts_magic ++ be 2 1 ++ be 8 4096 ++ be 2 0
        ++ List.replicate 124 0 ++ [7, 7]).take 8 = bytes "NBDMAGIC" ∧
    ((4096, 0) : Nat × Nat) = (ofBE (((bytes "NBDMAGIC" ++ be 8 opts_magic ++ be 2 1 ++ be 8 4096
        ++ be 2 0 ++ List.replicate 124 0 ++ [7, 7]).drop 18).take 8),
      ofBE (((bytes "NBDMAGIC" ++ be 8 opts_magic ++ be 2 1 ++ be 8 4096 ++ be 2 0
        ++ List.replicate 124 0 ++ [7, 7]).drop 26).take 2)) ∧
    (ofBE (((bytes "NBDMAGIC" ++ be 8 opts_magic ++ be 2 1 ++ be 8 4096 ++ be 2 0
        ++ List.replicate 124 0 ++ [7, 7]).drop 16).take 2) &&& 2 ≠ 0 →
      28 ≤ (bytes "NBDMAGIC" ++ be 8 opts_magic ++ be 2 1 ++ be 8 4096 ++ be 2 0
        ++ List.replicate 124 0 ++ [7, 7]).length ∧
      [7, 7] = (bytes "NBDMAGIC" ++ be 8 opts_magic ++ be 2 1 ++ be 8 4096 ++ be 2 0
        ++ List.replicate 124 0 ++ [7, 7]).drop 28) ∧
    (ofBE (((bytes "NBDMAGIC" ++ be 8 opts_magic ++ be 2 1 ++ be 8 4096 ++ be 2 0
        ++ List.replicate 124 0 ++ [7, 7]).drop 16).take 2) &&& 2 = 0 →
      152 ≤ (bytes "NBDMAGIC" ++ be 8 opts_magic ++ be 2 1 ++ be 8 4096 ++ be 2 0
        ++ List.replicate 124 0 ++ [7, 7]).length ∧
      [7, 7] = (bytes "NBDMAGIC" ++ be 8 opts_magic ++ be 2 1 ++ be 8 4096 ++ be 2 0
        ++ List.replicate 124 0 ++ [7, 7]).drop 152) :=
  negotiate_consumes 64 true ([0, 0, 0, 0], [0, 0, 0, 0]) 0 (bytes "data") 0 1 0
    ⟨bytes "NBDMAGIC" ++ be 8 opts_magic ++ be 2 1 ++ be 8 4096 ++ be 2 0
        ++ List.replicate 124 0 ++ [7, 7], [], [], []⟩
    ⟨[7, 7], be 4 1 ++ be 8 opts_magic ++ be 4 1 ++ be 4 4 ++ bytes "data",
      bytes "Negotiation: ..size = 0MB\n", []⟩ (4096, 0) (by decide)


/-- At the magic check `negotiate` stops on `cliserv_magic`, before anything is
written to the socket. -/
theorem negotiate_oldstyle (ulong_bits : Nat) (le : Bool) (garbage : List Nat × List Nat)
    (fuel : Nat) (name : List Nat) (needed c opts : Nat) (rest o so se : List Nat) :
    negotiate ulong_bits le garbage fuel name needed c opts
        ⟨INIT_PASSWD ++ (be 8 cliserv_magic ++ rest), o, so, se⟩
      = some (.err ("It looks like you're trying to connect to an oldstyle server. " ++
          "This is no longer supported since nbd 3.10."),
        ⟨rest, o, so ++ bytes "Negotiation: " ++ bytes ".", se⟩) := by
  have hm : cliserv_magic < 256 ^ 8 := by decide
  have hne : cliserv_magic ≠ opts_magic := by decide
  simp only [negotiate, World.printf, readit_append _ _ _ _ _ _ INIT_PASSWD_length,
    readit_append _ _ _ _ _ _ (be_length _ _), strcmp_INIT_PASSWD, ofBE_be _ _ hm]
  simp only [ne_eq, not_true_eq_false, if_false, hne, not_false_eq_true, and_self, if_true]

set_option maxRecDepth 100000 in
/-- C1, where the code departs from it: after the init password the server
sends the 64-bit value `0x1122334455667788`, which is neither `opts_magic` nor
`cliserv_magic`; `negotiate` does not fail at the magic check but writes the
client flags and the export request, and returns the size and flags that
follow. -/
theorem negotiate_accepts_unknown_magic :
    negotiate 64 true ([0, 0, 0, 0], [0, 0, 0, 0]) 0 (bytes "data") 0 1 0
        ⟨bytes "NBDMAGIC" ++ be 8 0x1122334455667788 ++ be 2 1 ++ be 8 4096 ++ be 2 0
          ++ List.replicate 124 0, [], [], []⟩
      = some (.ret (4096, 0),
          ⟨[], be 4 1 ++ be 8 opts_magic ++ be 4 1 ++ be 4 4 ++ bytes "data",
            bytes "Negotiation: ..size = 0MB\n", []⟩) := by
  decide

/-- C5: with an `unsigned long` of `ulong_bits` bits, on a stream that is
otherwise complete, `negotiate` fails with the too-big error when
`s >> 12` exceeds `2 ^ ulong_bits - 1`, and otherwise returns the size `s`
itself together with the big-endian value of the two bytes after the size. -/
theorem negotiate_size_check (ulong_bits : Nat) (le : Bool) (garbage : List Nat × List Nat)
    (fuel : Nat) (name : List Nat) (needed c opts g s : Nat) (f tail o so se : List Nat)
    (hs : s < 2 ^ 64) (hg : g < 2 ^ 16) (hf : f.length = 2)
    (htail : g &&& 2 = 0 → 124 ≤ tail.length)
    (hneed : needed &&& g = needed) (hopts : opts &&& 1 = 0) :
    (s >>> 12 > 2 ^ ulong_bits - 1 →
      ∃ w', negotiate ulong_bits le garbage fuel name needed c opts
        ⟨bytes "NBDMAGIC" ++ (be 8 0x49484156454F5054 ++ (be 2 g ++ (be 8 s ++ (f ++ tail)))),
          o, so, se⟩
        = some (.err "Exported device is too big for me. Get 64-bit machine :-(\n", w')) ∧
    (¬ s >>> 12 > 2 ^ ulong_bits - 1 →
      ∃ w', negotiate ulong_bits le garbage fuel name needed c opts
        ⟨bytes "NBDMAGIC" ++ (be 8 0x49484156454F5054 ++ (be 2 g ++ (be 8 s ++ (f ++ tail)))),
          o, so, se⟩
        = some (.ret (s, ofBE f), w')) := by
  have hI : bytes "NBDMAGIC" = INIT_PASSWD := rfl
  have hO : (0x49484156454F5054 : Nat) = opts_magic := rfl
  have hm : opts_magic < 256 ^ 8 := by decide
  have hmagic : opts_magic ≠ cliserv_magic := by decide
  have hs' : s < 256 ^ 8 := by simpa using hs
  have hg' : g < 256 ^ 2 := by simpa using hg
  have hopts' : opts &&& NBDC_DO_LIST = 0 := hopts
  rw [hI, hO]
  constructor
  · intro hbig
    simp only [negotiate, World.printf, World.write,
      readit_append _ _ _ _ _ _ INIT_PASSWD_length,
      readit_append _ _ _ _ _ _ (be_length _ _), strcmp_INIT_PASSWD, ofBE_be _ _ hm,
      ofBE_be _ _ hg', ofBE_be _ _ hs', hmagic, hneed, hopts', hbig]
    simp
  · intro hsmall
    simp only [negotiate, World.printf, World.write,
      readit_append _ _ _ _ _ _ INIT_PASSWD_length,
      readit_append _ _ _ _ _ _ (be_length _ _), readit_append _ _ _ _ _ _ hf,
      strcmp_INIT_PASSWD, ofBE_be _ _ hm,
      ofBE_be _ _ hg', ofBE_be _ _ hs', hmagic, hneed, hopts', hsmall]
    by_cases hz : g &&& NBD_FLAG_NO_ZEROES = 0
    · have h124 : 124 ≤ tail.length := htail hz
      simp [hz, readit, h124]
    · simp [hz]

/-- With a 64-bit `unsigned long` the size check of `negotiate` never fires:
every 64-bit size is accepted. -/
theorem size_check_64 (s : Nat) (hs : s < 2 ^ 64) : ¬ s >>> 12 > 2 ^ 64 - 1 := by
  rw [Nat.shiftRight_eq_div_pow]
  have : s / 2 ^ 12 ≤ s := Nat.div_le_self _ _
  omega

set_option maxRecDepth 100000 in
theorem negotiate_size_check_witness :
    ((2 ^ 44 : Nat) >>> 12 > 2 ^ 32 - 1 →
      ∃ w', negotiate 32 true ([0, 0, 0, 0], [0, 0, 0, 0]) 0 (bytes "data") 0 1 0
        ⟨bytes "NBDMAGIC" ++ (be 8 0x49484156454F5054 ++ (be 2 3 ++ (be 8 (2 ^ 44)
          ++ ([0, 5] ++ [])))), [], [], []⟩
        = some (.err "Exported device is too big for me. Get 64-bit machine :-(\n", w')) ∧
    (¬ (2 ^ 44 : Nat) >>> 12 > 2 ^ 32 - 1 →
      ∃ w', negotiate 32 true ([0, 0, 0, 0], [0, 0, 0, 0]) 0 (bytes "data") 0 1 0
        ⟨bytes "NBDMAGIC" ++ (be 8 0x49484156454F5054 ++ (be 2 3 ++ (be 8 (2 ^ 44)
          ++ ([0, 5] ++ [])))), [], [], []⟩
        = some (.ret (2 ^ 44, ofBE [0, 5]), w')) :=
  negotiate_size_check 32 true ([0, 0, 0, 0], [0, 0, 0, 0]) 0 (bytes "data") 0 1 0 3 (2 ^ 44)
    [0, 5] [] [] [] [] (by decide) (by decide) (by decide) (by decide) (by decide) (by decide)

theorem ask_list_reply_err (le : Bool) (v : ListVars) (w w' : World) (m : String)
    (h : ask_list_reply le v w = (.err m, w')) :
    m = "Not enough magic from server" ∨ m = "Server sent us a reply we don't understand!" := by
  simp only [ask_list_reply] at h
  split at h
  · simp only [Prod.mk.injEq, Res.err.injEq] at h
    exact Or.inl h.1.symm
  split at h
  · split at h <;> simp at h
  split at h
  · split at h
    · simp only [Prod.mk.injEq, Res.err.injEq] at h
      exact Or.inr h.1.symm
    split at h <;> simp at h
  · simp at h

theorem ask_list_loop_err (le : Bool) (fuel : Nat) (v : ListVars) (w w' : World) (m : String)
    (h : ask_list_loop le fuel v w = some (.err m, w')) :
    m = "Not enough magic from server" ∨ m = "Server sent us a reply we don't understand!" := by
  induction fuel generalizing v w with
  | zero => simp [ask_list_loop] at h
  | succ fuel ih =>
    simp only [ask_list_loop] at h
    split at h
    · exact ih _ _ h
    · simp at h
    · rename_i msg w1 heq
      simp only [Option.some.injEq, Prod.mk.injEq, Res.err.injEq] at h
      obtain ⟨rfl, -⟩ := h
      exact ask_list_reply_err le v w w1 msg heq
    · simp at h

theorem ask_list_err (le : Bool) (garbage : List Nat × List Nat) (fuel : Nat) (w w' : World)
    (m : String) (h : ask_list le garbage fuel w = some (.err m, w')) :
    m = "Not enough magic from server" ∨ m = "Server sent us a reply we don't understand!" := by
  simp only [ask_list] at h
  split at h
  · simp at h
  · simp at h
  · rename_i r w1 hne heq
    simp only [Option.some.injEq, Prod.mk.injEq] at h
    obtain ⟨rfl, rfl⟩ := h
    exact ask_list_loop_err _ _ _ _ _ _ heq

/-- C2: `negotiate` fails with the bad-init error, having written nothing to
the socket, when the first 8 bytes of the stream are not the ASCII bytes
`NBDMAGIC`, and never fails with that error when they are. -/
theorem negotiate_init_passwd (ulong_bits : Nat) (le : Bool) (garbage : List Nat × List Nat)
    (fuel : Nat) (name : List Nat) (needed c opts : Nat) (pw rest o so se : List Nat)
    (hlen : pw.length = 8) :
    (pw ≠ bytes "NBDMAGIC" →
      negotiate ulong_bits le garbage fuel name needed c opts ⟨pw ++ rest, o, so, se⟩
        = some (.err "INIT_PASSWD bad", ⟨rest, o, so ++ bytes "Negotiation: ", se⟩)) ∧
    (pw = bytes "NBDMAGIC" →
      ∀ w', negotiate ulong_bits le garbage fuel name needed c opts ⟨pw ++ rest, o, so, se⟩
        ≠ some (.err "INIT_PASSWD bad", w')) := by
  constructor
  · intro hne
    have hs : strcmp (pw ++ List.replicate 248 0) INIT_PASSWD ≠ 0 :=
      fun h0 => hne ((strcmp_init pw hlen).1 h0)
    simp only [negotiate, World.printf, readit_append _ _ _ _ _ _ hlen]
    rw [if_pos hs]
  · intro heq w' h
    have hs : strcmp (pw ++ List.replicate 248 0) INIT_PASSWD = 0 :=
      (strcmp_init pw hlen).2 heq
    simp only [negotiate, World.printf, readit_append _ _ _ _ _ _ hlen, hs] at h
    simp only [ne_eq, not_true_eq_false, if_false] at h
    split at h
    · simp at h
    split at h
    · simp at h
    split at h
    · simp at h
    split at h
    · simp at h
    split at h
    · split at h
      · simp at h
      · simp at h
      · rename_i m w1 hl
        simp only [Option.some.injEq, Prod.mk.injEq, Res.err.injEq] at h
        rcases ask_list_err _ _ _ _ _ _ hl with h1 | h1
        · rw [h1] at h; exact absurd h.1 (by decide)
        · rw [h1] at h; exact absurd h.1 (by decide)
      · simp at h
    split at h
    · simp at h
    split at h
    · simp at h
    split at h
    · simp at h
    split at h
    · simp at h
    · simp at h

theorem negotiate_init_passwd_witness :
    ([78, 66, 68, 0, 65, 71, 73, 67] ≠ bytes "NBDMAGIC" →
      negotiate 64 true ([0, 0, 0, 0], [0, 0, 0, 0]) 0 (bytes "data") 0 1 0
          ⟨[78, 66, 68, 0, 65, 71, 73, 67] ++ [1, 2, 3], [], [], []⟩
        = some (.err "INIT_PASSWD bad", ⟨[1, 2, 3], [], [] ++ bytes "Negotiation: ", []⟩)) ∧
    ([78, 66, 68, 0, 65, 71, 73, 67] = bytes "NBDMAGIC" →
      ∀ w', negotiate 64 true ([0, 0, 0, 0], [0, 0, 0, 0]) 0 (bytes "data") 0 1 0
          ⟨[78, 66, 68, 0, 65, 71, 73, 67] ++ [1, 2, 3], [], [], []⟩
        ≠ some (.err "INIT_PASSWD bad", w')) :=
  negotiate_init_passwd 64 true ([0, 0, 0, 0], [0, 0, 0, 0]) 0 (bytes "data") 0 1 0
    [78, 66, 68, 0, 65, 71, 73, 67] [1, 2, 3] [] [] [] (by decide)

theorem readInto_append (old a rest o so se : List Nat) (n : Nat) (h : a.length = n) :
    readInto old n ⟨a ++ rest, o, so, se⟩ = (a, ⟨rest, o, so, se⟩) := by
  subst h
  simp [readInto]

theorem cstr_name_buf (name : List Nat) (k : Nat) (h : ∀ b ∈ name, b ≠ 0) :
    cstr ((name ++ List.replicate k 0).set name.length 0) = name := by
  rw [List.set_append_right _ _ (Nat.le_refl _), Nat.sub_self, cstr,
    List.takeWhile_append_of_pos (by intro b hb; simpa using h b hb)]
  cases k with
  | zero => simp
  | succ k => simp [List.replicate_succ]

theorem ask_list_reply_server (le : Bool) (v : ListVars) (name rest o so se : List Nat)
    (hlen : name.length < 1024) (hnul : ∀ b ∈ name, b ≠ 0) :
    ask_list_reply le v ⟨serverReply name ++ rest, o, so, se⟩ =
      (.ret (true, ⟨hostBytes le 8 rep_magic, be 4 NBD_OPT_LIST, hostBytes le 4 NBD_REP_SERVER,
        hostBytes le 4 name.length⟩), ⟨rest, o, so ++ (name ++ bytes "\n"), se⟩) := by
  have h1 : (4 + name.length) < 256 ^ 4 := by norm_num; omega
  have h2 : name.length < 256 ^ 4 := by norm_num; omega
  have hm : rep_magic < 256 ^ 8 := by decide
  have hs : NBD_REP_SERVER < 256 ^ 4 := by decide
  have hsf : NBD_REP_SERVER &&& NBD_REP_FLAG_ERROR = 0 := by decide
  have hne : 4 + name.length ≠ 0 := by omega
  have hB : ¬ name.length ≥ BUF_SIZE := by simp only [BUF_SIZE]; omega
  have hack : NBD_REP_SERVER ≠ NBD_REP_ACK := by decide
  simp only [ask_list_reply, serverReply, List.append_assoc,
    readInto_append _ _ _ _ _ _ _ (be_length _ _), ofBE_be _ _ h1, ofBE_be _ _ h2,
    ofBE_be _ _ hm, ofBE_be _ _ hs, hsf, hne, hB, hack, ne_eq, not_true_eq_false,
    not_false_eq_true, if_false, if_true, decide_True, List.take_left, List.drop_left,
    cstr_name_buf _ _ hnul, World.printf]

theorem ask_list_reply_ack (le : Bool) (v : ListVars) (rest o so se : List Nat) :
    ask_list_reply le v ⟨ackReply ++ rest, o, so, se⟩ =
      (.ret (false, ⟨hostBytes le 8 rep_magic, be 4 NBD_OPT_LIST, hostBytes le 4 NBD_REP_ACK,
        hostBytes le 4 0⟩), ⟨rest, o, so, se⟩) := by
  have hm : rep_magic < 256 ^ 8 := by decide
  have hs : NBD_REP_ACK < 256 ^ 4 := by decide
  have h0 : 0 < 256 ^ 4 := by decide
  have hsf : NBD_REP_ACK &&& NBD_REP_FLAG_ERROR = 0 := by decide
  simp only [ask_list_reply, ackReply, List.append_assoc,
    readInto_append _ _ _ _ _ _ _ (be_length _ _), ofBE_be _ _ h0,
    ofBE_be _ _ hm, ofBE_be _ _ hs, hsf, ne_eq, not_true_eq_false,
    not_false_eq_true, if_false, if_true, decide_False]


theorem ask_list_loop_continue (le : Bool) (f : Nat) (v v' : ListVars) (w w' : World)
    (h : ask_list_reply le v w = (.ret (true, v'), w')) :
    ask_list_loop le (f + 1) v w = ask_list_loop le f v' w' := by
  rw [ask_list_loop, h]

theorem ask_list_loop_stop (le : Bool) (f : Nat) (v v' : ListVars) (w w' : World)
    (h : ask_list_reply le v w = (.ret (false, v'), w')) :
    ask_list_loop le (f + 1) v w = some (.ret (), w') := by
  rw [ask_list_loop, h]

theorem ask_list_loop_names (le : Bool) (names : List (List Nat)) (fuel : Nat) (v : ListVars)
    (rest o so se : List Nat)
    (hlen : ∀ n ∈ names, n.length < 1024) (hnul : ∀ n ∈ names, ∀ b ∈ n, b ≠ 0)
    (hfuel : names.length < fuel) :
    ask_list_loop le fuel v ⟨serverReplies names ++ (ackReply ++ rest), o, so, se⟩ =
      some (.ret (), ⟨rest, o, so ++ nameLines names, se⟩) := by
  induction names generalizing fuel v so with
  | nil =>
    cases fuel with
    | zero => simp at hfuel
    | succ f =>
      rw [serverReplies, List.nil_append, nameLines, List.append_nil,
        ask_list_loop_stop le f v _ _ _ (ask_list_reply_ack le v rest o so se)]
  | cons n names ih =>
    cases fuel with
    | zero => simp at hfuel
    | succ f =>
      have hn1 := hlen n (List.mem_cons_self _ _)
      have hn2 := hnul n (List.mem_cons_self _ _)
      have hf : names.length < f := by
        rw [List.length_cons] at hfuel
        omega
      rw [serverReplies, List.append_assoc,
        ask_list_loop_continue le f v _ _ _ (ask_list_reply_server le v n _ o so se hn1 hn2),
        ih f _ _ (fun m hm => hlen m (List.mem_cons_of_mem _ hm))
          (fun m hm => hnul m (List.mem_cons_of_mem _ hm)) hf,
        nameLines, List.append_assoc, List.append_assoc]

theorem ask_list_of_loop (le : Bool) (garbage : List Nat × List Nat) (fuel : Nat)
    (w w' : World)
    (h : ask_list_loop le fuel ⟨be 8 opts_magic, garbage.1, garbage.2, be 4 0⟩
      ((((w.write (be 8 opts_magic)).write (be 4 NBD_OPT_LIST)).write (be 4 0)).printf
        (bytes "\n")) = some (.ret (), w')) :
    ask_list le garbage fuel w = some (.ret (),
      ((w'.write (be 8 opts_magic)).write (be 4 NBD_OPT_ABORT)).write (be 4 0)) := by
  unfold ask_list
  simp only []
  rw [h]

/-- C6: when the server answers the `LIST` option with one well-formed `SERVER`
reply per name (each name shorter than 1024 bytes and free of zero bytes) and
then an `ACK` of length 0, `ask_list` returns, having written the `LIST`
request and then the `ABORT` request and nothing else, having printed a
newline and then the names in the order received, one per line, and having
left unread whatever follows the `ACK`. -/
theorem ask_list_lists_names (le : Bool) (garbage : List Nat × List Nat)
    (names : List (List Nat)) (fuel : Nat) (rest o so se : List Nat)
    (hlen : ∀ n ∈ names, n.length < 1024) (hnul : ∀ n ∈ names, ∀ b ∈ n, b ≠ 0)
    (hfuel : names.length < fuel) :
    ask_list le garbage fuel ⟨serverReplies names ++ (ackReply ++ rest), o, so, se⟩ =
      some (.ret (), ⟨rest,
        o ++ (be 8 0x49484156454F5054 ++ be 4 3 ++ be 4 0)
          ++ (be 8 0x49484156454F5054 ++ be 4 2 ++ be 4 0),
        so ++ bytes "\n" ++ nameLines names, se⟩) := by
  rw [ask_list_of_loop le garbage fuel _ _
    (ask_list_loop_names le names fuel _ rest _ _ se hlen hnul hfuel)]
  simp only [World.write, List.append_assoc]
  rfl

set_option maxRecDepth 100000 in
theorem ask_list_lists_names_witness :
    ask_list true ([0, 0, 0, 0], [0, 0, 0, 0]) 3
        ⟨serverReplies [bytes "gold", bytes "silver"] ++ (ackReply ++ [9]), [], [], []⟩ =
      some (.ret (), ⟨[9],
        [] ++ (be 8 0x49484156454F5054 ++ be 4 3 ++ be 4 0)
          ++ (be 8 0x49484156454F5054 ++ be 4 2 ++ be 4 0),
        [] ++ bytes "\n" ++ nameLines [bytes "gold", bytes "silver"], []⟩) :=
  ask_list_lists_names true ([0, 0, 0, 0], [0, 0, 0, 0]) [bytes "gold", bytes "silver"] 3
    [9] [] [] [] (by decide) (by decide) (by decide)

theorem nameLines_gold_silver :
    nameLines [bytes "gold", bytes "silver"] = bytes "gold\nsilver\n" := by decide

/-- C7, where the code departs from it: a `SERVER` reply whose length field is
10 (inner name length 2, the name `ab`, then the 4 bytes `desc`) is processed
without failing, but only 6 payload bytes are read after the 20-byte header,
so the next header is not read at the offset the length field gives. -/
theorem ask_list_reply_ignores_length :
    (ask_list_reply true ⟨be 8 opts_magic, [0, 0, 0, 0], [0, 0, 0, 0], be 4 0⟩
        ⟨be 8 rep_magic ++ be 4 3 ++ be 4 2 ++ be 4 10 ++ (be 4 2 ++ bytes "ab" ++ bytes "desc")
          ++ ackReply, [], [], []⟩).1
      = .ret (true, ⟨hostBytes true 8 rep_magic, be 4 3, hostBytes true 4 2,
          hostBytes true 4 2⟩) ∧
    (ask_list_reply true ⟨be 8 opts_magic, [0, 0, 0, 0], [0, 0, 0, 0], be 4 0⟩
        ⟨be 8 rep_magic ++ be 4 3 ++ be 4 2 ++ be 4 10 ++ (be 4 2 ++ bytes "ab" ++ bytes "desc")
          ++ ackReply, [], [], []⟩).2.inp
      = (be 8 rep_magic ++ be 4 3 ++ be 4 2 ++ be 4 10 ++ (be 4 2 ++ bytes "ab" ++ bytes "desc")
          ++ ackReply).drop (20 + 6) ∧
    (ask_list_reply true ⟨be 8 opts_magic, [0, 0, 0, 0], [0, 0, 0, 0], be 4 0⟩
        ⟨be 8 rep_magic ++ be 4 3 ++ be 4 2 ++ be 4 10 ++ (be 4 2 ++ bytes "ab" ++ bytes "desc")
          ++ ackReply, [], [], []⟩).2.inp
      ≠ (be 8 rep_magic ++ be 4 3 ++ be 4 2 ++ be 4 10 ++ (be 4 2 ++ bytes "ab" ++ bytes "desc")
          ++ ackReply).drop (20 + 10) := by
  decide

/-- On that stream `ask_list` as a whole fails: the four bytes it left unread
are taken for the start of the next reply. -/
theorem ask_list_desc_fails :
    ask_list true ([0, 0, 0, 0], [0, 0, 0, 0]) 5
        ⟨be 8 rep_magic ++ be 4 3 ++ be 4 2 ++ be 4 10 ++ (be 4 2 ++ bytes "ab" ++ bytes "desc")
          ++ ackReply, [], [], []⟩
      = some (.err "Not enough magic from server",
          ⟨[0, 0, 0, 0], be 8 opts_magic ++ be 4 3 ++ be 4 0, bytes "\nab\n", []⟩) := by
  decide

/-- What one pass of the loop of `ask_list` reads when it handles a reply
without failing: it leaves the loop exactly when the reply type is `ACK`; after
the 20-byte header it reads nothing when the length field is 0 and otherwise
the 4-byte inner name length and that many bytes of name (whatever the length
field says); and after an `ACK` it has read nothing past the header and the
loop ends there. -/
theorem ask_list_reply_consumes (le : Bool) (v v' : ListVars) (c : Bool)
    (mg os rt ln rest o so se : List Nat) (w' : World)
    (hmg : mg.length = 8) (hos : os.length = 4) (hrt : rt.length = 4) (hln : ln.length = 4)
    (h : ask_list_reply le v ⟨mg ++ (os ++ (rt ++ (ln ++ rest))), o, so, se⟩
      = (.ret (c, v'), w')) :
    c = decide (ofBE rt ≠ NBD_REP_ACK) ∧
    (ofBE ln = 0 → w'.inp = rest) ∧
    (ofBE ln ≠ 0 → ∀ il tail, rest = il ++ tail → il.length = 4 →
      w'.inp = tail.drop (ofBE il)) ∧
    (ofBE rt = NBD_REP_ACK → w'.inp = rest ∧
      ∀ f, ask_list_loop le (f + 1) v ⟨mg ++ (os ++ (rt ++ (ln ++ rest))), o, so, se⟩
        = some (.ret (), w')) := by
  have h0 := h
  simp only [ask_list_reply, readInto_append _ _ _ _ _ _ _ hmg,
    readInto_append _ _ _ _ _ _ _ hos, readInto_append _ _ _ _ _ _ _ hrt,
    readInto_append _ _ _ _ _ _ _ hln] at h
  split at h
  · simp at h
  split at h
  · split at h <;> simp at h
  split at h
  · rename_i hlen0
    split at h
    · simp at h
    rename_i hsrv
    have hsrv' : ofBE rt = NBD_REP_SERVER := not_not.1 hsrv
    split at h
    · simp at h
    simp only [Prod.mk.injEq, Res.ret.injEq] at h
    obtain ⟨⟨hc, -⟩, hw⟩ := h
    refine ⟨hc.symm, fun hz => absurd hz hlen0, ?_, ?_⟩
    · intro _ il tail hrest hil
      subst hrest
      rw [← hw]
      simp only [readInto_append _ _ _ _ _ _ _ hil, World.printf]
    · intro hack
      rw [hsrv'] at hack
      exact absurd hack (by decide)
  · rename_i hlen0
    have hz : ofBE ln = 0 := not_not.1 hlen0
    simp only [Prod.mk.injEq, Res.ret.injEq] at h
    obtain ⟨⟨hc, -⟩, hw⟩ := h
    refine ⟨hc.symm, fun _ => by rw [← hw], fun hnz => absurd hz hnz, ?_⟩
    intro hack
    refine ⟨by rw [← hw], fun f => ?_⟩
    have hcf : c = false := by rw [← hc, hack]; decide
    rw [hcf] at h0
    exact ask_list_loop_stop le f v v' _ w' h0

theorem ask_list_reply_consumes_witness :
    true = decide (ofBE (be 4 2) ≠ NBD_REP_ACK) ∧
    (ofBE (be 4 10) = 0 → (⟨bytes "desc", [], bytes "ab\n", []⟩ : World).inp
      = be 4 2 ++ (bytes "ab" ++ bytes "desc")) ∧
    (ofBE (be 4 10) ≠ 0 → ∀ il tail, be 4 2 ++ (bytes "ab" ++ bytes "desc") = il ++ tail →
      il.length = 4 →
      (⟨bytes "desc", [], bytes "ab\n", []⟩ : World).inp = tail.drop (ofBE il)) ∧
    (ofBE (be 4 2) = NBD_REP_ACK →
      (⟨bytes "desc", [], bytes "ab\n", []⟩ : World).inp
        = be 4 2 ++ (bytes "ab" ++ bytes "desc") ∧
      ∀ f, ask_list_loop true (f + 1) ⟨be 8 opts_magic, [0, 0, 0, 0], [0, 0, 0, 0], be 4 0⟩
          ⟨be 8 rep_magic ++ (be 4 3 ++ (be 4 2 ++ (be 4 10 ++
            (be 4 2 ++ (bytes "ab" ++ bytes "desc"))))), [], [], []⟩
        = some (.ret (), ⟨bytes "desc", [], bytes "ab\n", []⟩)) :=
  ask_list_reply_consumes true ⟨be 8 opts_magic, [0, 0, 0, 0], [0, 0, 0, 0], be 4 0⟩
    ⟨hostBytes true 8 rep_magic, be 4 3, hostBytes true 4 2, hostBytes true 4 2⟩ true
    (be 8 rep_magic) (be 4 3) (be 4 2) (be 4 10) (be 4 2 ++ (bytes "ab" ++ bytes "desc"))
    [] [] [] ⟨bytes "desc", [], bytes "ab\n", []⟩ (by decide) (by decide) (by decide)
    (by decide) (by decide)


/-- C8, where the code departs from it: in the table
`nbd10 hostA expA` / `nbd1 hostB expB` the identifier `nbd1` is found by
`strstr` inside the first field `nbd10` of the first line, and the record
returned has the host and the export of that line, not of the line whose
first field is `nbd1`. -/
theorem get_from_config_substring_match :
    get_from_config 64 8 (some (bytes "nbd10 hostA expA\nnbd1 hostB expB\n")) (bytes "nbd1")
        (defaults (bytes "nbd1"))
      = some (true, { defaults (bytes "nbd1") with
          dev := bytes "/dev/nbd1", hostn := bytes "hostA", name := bytes "expA" }) := by
  decide

/-- The same happens when the identifier occurs in a comment before the record:
host and export are taken from the words of the comment. -/
theorem get_from_config_comment_match :
    get_from_config 64 8 (some (bytes "# nbd1 is great\nnbd1 hostB expB\n")) (bytes "nbd1")
        (defaults (bytes "nbd1"))
      = some (true, { defaults (bytes "nbd1") with
          dev := bytes "/dev/nbd1", hostn := bytes "is", name := bytes "great" }) := by
  decide

/-- When the identifier is the first field of the first line in which it
occurs, that line is the one the record is taken from. -/
theorem get_from_config_first_line :
    get_from_config 64 8 (some (bytes "nbd0 hostA expA\nnbd1 hostB expB\n")) (bytes "/dev/nbd1")
        (defaults (bytes "/dev/nbd1"))
      = some (true, { defaults (bytes "/dev/nbd1") with
          dev := bytes "/dev/nbd1", hostn := bytes "hostB", name := bytes "expB" }) := by
  decide

/-! ## Decimal text and `strtol` -/

theorem decimalAux_eq (n : Nat) : ∀ fuel acc, n < fuel →
    decimalAux fuel n acc =
      (if n < 10 then [] else decimalAux (n / 10 + 1) (n / 10) []) ++ (48 + n % 10) :: acc := by
  induction n using Nat.strong_induction_on with
  | _ n ih =>
    intro fuel acc hf
    cases fuel with
    | zero => omega
    | succ f =>
      rw [decimalAux]
      by_cases h10 : n < 10
      · have : n / 10 = 0 := by omega
        simp [this, h10]
      · have hd : ¬ n / 10 = 0 := by omega
        have hlt : n / 10 < n := by omega
        rw [if_neg hd, if_neg h10, ih (n / 10) hlt f _ (by omega),
          ih (n / 10) hlt (n / 10 + 1) [] (by omega)]
        simp

theorem decimal_eq (n : Nat) :
    decimal n = (if n < 10 then [] else decimal (n / 10)) ++ [48 + n % 10] := by
  rw [decimal, decimalAux_eq n (n + 1) [] (by omega)]
  rfl

/-- The digits of `decimal n` are decimal digits. -/
theorem decimal_digits (n : Nat) : ∀ c ∈ decimal n, 48 ≤ c ∧ c ≤ 57 := by
  induction n using Nat.strong_induction_on with
  | _ n ih =>
    intro c hc
    rw [decimal_eq] at hc
    by_cases h10 : n < 10
    · simp only [h10, if_true, List.nil_append, List.mem_singleton] at hc
      omega
    · simp only [h10, if_false, List.mem_append, List.mem_singleton] at hc
      rcases hc with hc | hc
      · exact ih (n / 10) (by omega) c hc
      · omega

theorem decimal_ne_nil (n : Nat) : decimal n ≠ [] := by
  rw [decimal_eq]
  simp

/-- A positive number does not start with the digit `0`. -/
theorem decimal_head (n : Nat) (hn : 0 < n) : 49 ≤ (decimal n).headD 0 ∧ (decimal n).headD 0 ≤ 57 := by
  induction n using Nat.strong_induction_on with
  | _ n ih =>
    rw [decimal_eq]
    by_cases h10 : n < 10
    · simp only [h10, if_true, List.nil_append, List.headD_cons]
      omega
    · simp only [h10, if_false]
      have hne := decimal_ne_nil (n / 10)
      have := ih (n / 10) (by omega) (by omega)
      cases hd : decimal (n / 10) with
      | nil => exact absurd hd hne
      | cons a as =>
        rw [hd] at this
        simpa using this

/-- Reading the digits of `decimal n` in base 10 gives `n` back. -/
theorem decimal_value (n : Nat) :
    (decimal n).foldl (fun acc c => acc * 10 + digitVal c) 0 = n := by
  induction n using Nat.strong_induction_on with
  | _ n ih =>
    rw [decimal_eq]
    have hdv : digitVal (48 + n % 10) = n % 10 := by
      have h1 : 48 ≤ 48 + n % 10 ∧ 48 + n % 10 ≤ 57 := by omega
      rw [digitVal, if_pos h1]
      omega
    by_cases h10 : n < 10
    · simp only [h10, if_true, List.nil_append, List.foldl_cons, List.foldl_nil, hdv]
      omega
    · simp only [h10, if_false, List.foldl_append, List.foldl_cons, List.foldl_nil, hdv]
      rw [ih (n / 10) (by omega)]
      omega
theorem digitVal_stop (x : Nat) (hx : x = 44 ∨ x = 10) : digitVal x = 36 := by
  rcases hx with rfl | rfl <;> decide

theorem digitVal_digit (c : Nat) (h : 48 ≤ c ∧ c ≤ 57) : digitVal c = c - 48 := by
  rw [digitVal, if_pos h]

theorem takeWhile_decimal (m x : Nat) (t : List Nat) (hx : x = 44 ∨ x = 10) :
    (decimal m ++ x :: t).takeWhile (fun c => decide (digitVal c < 10)) = decimal m := by
  rw [List.takeWhile_append_of_pos, List.takeWhile_cons_of_neg, List.append_nil]
  · rw [digitVal_stop x hx]; decide
  · intro c hc
    have := decimal_digits m c hc
    rw [digitVal_digit c this]
    simp only [decide_eq_true_eq]
    omega

theorem strtol_pos (lb m x : Nat) (t : List Nat) (hm : 0 < m) (hx : x = 44 ∨ x = 10)
    (hr : (m : Int) ≤ 2 ^ (lb - 1) - 1) :
    strtol lb (decimal m ++ x :: t) = ((m : Int), x :: t) := by
  have hh := decimal_head m hm
  have htw := takeWhile_decimal m x t hx
  have hval := decimal_value m
  have hne := decimal_ne_nil m
  cases hd : decimal m with
  | nil => exact absurd hd hne
  | cons a as =>
    rw [hd] at hh htw hval
    simp only [List.headD_cons] at hh
    have hsp : isspace a = false := by
      simp only [isspace, Bool.or_eq_false_iff, beq_eq_false_iff_ne, Bool.and_eq_false_iff,
        decide_eq_false_iff_not]
      omega
    have h45 : a ≠ 45 := by omega
    have h43 : a ≠ 43 := by omega
    have h48 : a ≠ 48 := by omega
    simp only [strtol, List.cons_append, List.dropWhile_cons, hsp, List.headD_cons, h45, h43,
      h48, false_or, false_and, if_false, beq_iff_eq, Bool.false_eq_true]
    rw [List.cons_append] at htw
    rw [htw, hval, if_neg (List.cons_ne_nil _ _), if_neg (not_lt.2 hr)]
    have hp : (0 : Int) < 2 ^ (lb - 1) := by positivity
    rw [if_neg (by omega), ← List.cons_append, List.drop_left]

theorem strtol_zero (lb x : Nat) (t : List Nat) (hx : x = 44 ∨ x = 10) :
    strtol lb (48 :: x :: t) = (0, x :: t) := by
  have hp : (0 : Int) < 2 ^ (lb - 1) := by positivity
  rcases hx with rfl | rfl
  · simp [strtol, isspace, digitVal]
    omega
  · simp [strtol, isspace, digitVal]
    omega

theorem strtol_neg (lb m x : Nat) (t : List Nat) (hm : 0 < m) (hx : x = 44 ∨ x = 10)
    (hr : - 2 ^ (lb - 1) ≤ - (m : Int)) :
    strtol lb (45 :: (decimal m ++ x :: t)) = (- (m : Int), x :: t) := by
  have hh := decimal_head m hm
  have htw := takeWhile_decimal m x t hx
  have hval := decimal_value m
  have hne := decimal_ne_nil m
  cases hd : decimal m with
  | nil => exact absurd hd hne
  | cons a as =>
    rw [hd] at hh htw hval
    simp only [List.headD_cons] at hh
    have h48 : a ≠ 48 := by omega
    have hsp : isspace 45 = false := by decide
    simp only [strtol, List.cons_append, List.dropWhile_cons, hsp, List.headD_cons,
      h48, true_or, false_and, if_false, if_true, beq_self_eq_true, List.tail_cons,
      Bool.false_eq_true]
    rw [List.cons_append] at htw
    rw [htw, hval, if_neg (List.cons_ne_nil _ _)]
    have hp : (0 : Int) < 2 ^ (lb - 1) := by positivity
    rw [if_neg (by omega), if_neg (by omega), ← List.cons_append, List.drop_left]

theorem toInt32_id (n : Int) (h : - 2 ^ 31 ≤ n ∧ n < 2 ^ 31) : toInt32 n = n := by
  unfold toInt32
  omega

theorem two_pow_le_long (lb : Nat) (hlb : 32 ≤ lb) : (2 : Int) ^ 31 ≤ 2 ^ (lb - 1) := by
  have : (2 : Int) ^ 31 ≤ 2 ^ (lb - 1) :=
    pow_le_pow_right₀ (by norm_num) (by omega)
  exact this

/-- An integer of type `int` written in decimal is read back by `strtol` and the
conversion to `int`, when a comma or a newline follows it. -/
theorem strtol_intText (lb : Nat) (n : Int) (x : Nat) (t : List Nat) (hlb : 32 ≤ lb)
    (hx : x = 44 ∨ x = 10) (hn : - 2 ^ 31 ≤ n ∧ n < 2 ^ 31) :
    strtol lb (intText n ++ x :: t) = (n, x :: t) := by
  have h2 := two_pow_le_long lb hlb
  unfold intText
  by_cases hneg : n < 0
  · rw [if_pos hneg, List.cons_append, strtol_neg lb n.natAbs x t (by omega) hx (by omega)]
    congr 1
    omega
  · rw [if_neg hneg]
    by_cases h0 : n = 0
    · subst h0
      exact strtol_zero lb x t hx
    · rw [strtol_pos lb n.natAbs x t (by omega) hx (by omega)]
      congr 1
      omega
/-! ## The loop over the options -/

theorem strncmp_cons (a b n : Nat) (as bs : List Nat) :
    strncmp (a :: as) (b :: bs) (n + 1) =
      if a ≠ b then (a : Int) - (b : Int) else if a = 0 then 0 else strncmp as bs n := by
  rw [strncmp]
  rfl

theorem strncmp_zero (a b : List Nat) : strncmp a b 0 = 0 := by
  rw [strncmp]

theorem option_step_text (lb : Nat) (o : Opt) (x : Nat) (t : List Nat) (c : Config)
    (hlb : 32 ≤ lb) (hx : x = 44 ∨ x = 10) (ho : o.inRange) :
    option_step lb (o.text ++ x :: t) c = (if x = 44 then t else x :: t, o.apply c) := by
  have kbs : bytes "bs=" = [98, 115, 61] := by decide
  have kto : bytes "timeout=" = [116, 105, 109, 101, 111, 117, 116, 61] := by decide
  have kpo : bytes "port=" = [112, 111, 114, 116, 61] := by decide
  have kpe : bytes "persist" = [112, 101, 114, 115, 105, 115, 116] := by decide
  have ksw : bytes "swap" = [115, 119, 97, 112] := by decide
  have ksd : bytes "sdp" = [115, 100, 112] := by decide
  have kun : bytes "unix" = [117, 110, 105, 120] := by decide
  cases o with
  | bs n =>
    have hst := strtol_intText lb n x t hlb hx ho
    simp only [option_step, Opt.text, Opt.apply, kbs, List.cons_append, List.nil_append,
      strncmp_cons, strncmp_zero, List.drop_succ_cons, List.drop_zero, hst,
      toInt32_id n ho]
    simp
  | timeout n =>
    have hst := strtol_intText lb n x t hlb hx ho
    simp only [option_step, Opt.text, Opt.apply, kbs, kto, List.cons_append, List.nil_append,
      strncmp_cons, strncmp_zero, List.drop_succ_cons, List.drop_zero, hst,
      toInt32_id n ho]
    simp
  | persist =>
    simp only [option_step, Opt.text, Opt.apply, kbs, kto, kpo, kpe, List.cons_append,
      List.nil_append, strncmp_cons, strncmp_zero, List.drop_succ_cons, List.drop_zero]
    simp
  | swap =>
    simp only [option_step, Opt.text, Opt.apply, kbs, kto, kpo, kpe, ksw, List.cons_append,
      List.nil_append, strncmp_cons, strncmp_zero, List.drop_succ_cons, List.drop_zero]
    simp
  | sdp =>
    simp only [option_step, Opt.text, Opt.apply, kbs, kto, kpo, kpe, ksw, ksd, List.cons_append,
      List.nil_append, strncmp_cons, strncmp_zero, List.drop_succ_cons, List.drop_zero]
    simp
  | unix =>
    simp only [option_step, Opt.text, Opt.apply, kbs, kto, kpo, kpe, ksw, ksd, kun,
      List.cons_append, List.nil_append, strncmp_cons, strncmp_zero, List.drop_succ_cons,
      List.drop_zero]
    simp
theorem optsText_cons_cons (o o' : Opt) (os : List Opt) :
    optsText (o :: o' :: os) = o.text ++ 44 :: optsText (o' :: os) := by
  rfl

theorem Opt.text_shape (o : Opt) :
    ∃ a as, o.text = a :: as ∧ (a = 98 ∨ a = 116 ∨ a = 112 ∨ a = 115 ∨ a = 117) := by
  have kbs : bytes "bs=" = [98, 115, 61] := by decide
  have kto : bytes "timeout=" = [116, 105, 109, 101, 111, 117, 116, 61] := by decide
  cases o with
  | bs n => exact ⟨98, [115, 61] ++ intText n, by rw [Opt.text, kbs]; rfl, by simp⟩
  | timeout n =>
    exact ⟨116, [105, 109, 101, 111, 117, 116, 61] ++ intText n, by rw [Opt.text, kto]; rfl,
      by simp⟩
  | persist => exact ⟨112, [101, 114, 115, 105, 115, 116], rfl, by simp⟩
  | swap => exact ⟨115, [119, 97, 112], rfl, by simp⟩
  | sdp => exact ⟨115, [100, 112], rfl, by simp⟩
  | unix => exact ⟨117, [110, 105, 120], rfl, by simp⟩

/-- A non-empty options field starts with a letter. -/
theorem optsText_shape (os : List Opt) (h : os ≠ []) :
    ∃ a as, optsText os = a :: as ∧ (a = 98 ∨ a = 116 ∨ a = 112 ∨ a = 115 ∨ a = 117) := by
  match os, h with
  | [o], _ =>
    obtain ⟨a, as, h1, h2⟩ := o.text_shape
    exact ⟨a, as, by rw [optsText, h1], h2⟩
  | o :: o' :: os, _ =>
    obtain ⟨a, as, h1, h2⟩ := o.text_shape
    exact ⟨a, as ++ 44 :: optsText (o' :: os), by rw [optsText_cons_cons, h1]; rfl, h2⟩

theorem strcspn_pos_of_head (a : Nat) (as reject : List Nat) (h0 : a ≠ 0)
    (hr : a ∉ reject) : strcspn (a :: as) reject > 0 := by
  unfold strcspn
  rw [List.takeWhile_cons_of_pos (by simp [h0, hr])]
  simp

theorem strcspn_zero_of_head (a : Nat) (as reject : List Nat)
    (hr : a ∈ reject) : strcspn (a :: as) reject = 0 := by
  unfold strcspn
  rw [List.takeWhile_cons_of_neg (by simp [hr])]
  rfl

theorem parse_options_text (lb : Nat) (opts : List Opt) (fuel : Nat) (rest : List Nat)
    (c : Config) (hlb : 32 ≤ lb) (hne : opts ≠ []) (hr : ∀ o ∈ opts, o.inRange)
    (hfuel : opts.length ≤ fuel) :
    parse_options lb fuel (optsText opts ++ 10 :: rest) c = some (applyOpts opts c) := by
  induction opts generalizing fuel c with
  | nil => exact absurd rfl hne
  | cons o os ih =>
    cases fuel with
    | zero => simp at hfuel
    | succ f =>
      have ho := hr o (List.mem_cons_self _ _)
      cases os with
      | nil =>
        have hstep := option_step_text lb o 10 rest c hlb (Or.inr rfl) ho
        rw [if_neg (by decide)] at hstep
        have hz : ¬ strcspn (10 :: rest) lsep > 0 := by
          rw [strcspn_zero_of_head 10 rest lsep (by decide)]
          decide
        rw [optsText, parse_options, hstep, if_neg hz]
        rfl
      | cons o' os' =>
        have hstep := option_step_text lb o 44 (optsText (o' :: os') ++ 10 :: rest) c hlb
          (Or.inl rfl) ho
        rw [if_pos rfl] at hstep
        obtain ⟨a, as, hsh, ha⟩ := optsText_shape (o' :: os') (List.cons_ne_nil _ _)
        have hp : strcspn (optsText (o' :: os') ++ 10 :: rest) lsep > 0 := by
          rw [hsh, List.cons_append]
          apply strcspn_pos_of_head
          · omega
          · rcases ha with rfl | rfl | rfl | rfl | rfl <;> decide
        rw [optsText_cons_cons, List.append_assoc, List.cons_append, parse_options, hstep,
          if_pos hp]
        rw [ih f (o.apply c) (List.cons_ne_nil _ _)
          (fun p hp => hr p (List.mem_cons_of_mem _ hp))
          (by simp only [List.length_cons] at hfuel ⊢; omega)]
        rfl
/-! ## The fields of a record -/

theorem size_sub_eq (lb a b : Nat) (hb : b ≤ a) (ha : a < 2 ^ lb) :
    size_sub lb a b = a - b := by
  unfold size_sub
  have h1 : b % 2 ^ lb = b := Nat.mod_eq_of_lt (by omega)
  have h2 : a + 2 ^ lb - b = (a - b) + 2 ^ lb := by omega
  rw [h1, h2, Nat.add_mod_right, Nat.mod_eq_of_lt (by omega)]

/-- The way through `locate_fields` when the identifier is found at `loc0` and
the three fields and the options field have the lengths `D`, `H`, `E`, `O`,
with separators of the lengths `W1`, `W2`, `W3` after the three. -/
theorem locate_fields_of_facts (lb : Nat) (data id dev host exp loc0 loc1 loc2 loc3 : List Nat)
    (c : Config) (D W1 H W2 E W3 O : Nat)
    (hid : (if strncmp id (bytes "/dev/") 5 = 0 then id.drop 5 else id) = dev)
    (hfind : strstr data dev = some loc0) (hdev : cstr dev = dev)
    (hL : strcspn loc0 lsep = D + W1 + H + W2 + E + W3 + O)
    (hsz : D + W1 + H + W2 + E + W3 + O < 2 ^ lb) (hO : 0 < O)
    (hF1 : strcspn loc0 fsep = D) (hW1 : strspn (loc0.drop D) fsep = W1)
    (hD1 : loc0.drop (D + W1) = loc1)
    (hF2 : strcspn loc1 fsep = H) (hW2 : strspn (loc1.drop H) fsep = W2)
    (hN2 : strndup loc1 H = host) (hD2 : loc1.drop (H + W2) = loc2)
    (hF3 : strcspn loc2 fsep = E) (hW3 : strspn (loc2.drop E) fsep = W3)
    (hN3 : strndup loc2 E = exp) (hD3 : loc2.drop (E + W3) = loc3)
    (hF4 : strcspn loc3 fsep = O) :
    locate_fields lb (some data) id c
      = .inr (loc3, { c with dev := bytes "/dev/" ++ dev, hostn := host, name := exp }) := by
  have s1 : size_sub lb (D + W1 + H + W2 + E + W3 + O) (D + W1) = H + W2 + E + W3 + O := by
    rw [size_sub_eq lb _ _ (by omega) hsz]; omega
  have s2 : size_sub lb (H + W2 + E + W3 + O) (H + W2) = E + W3 + O := by
    rw [size_sub_eq lb _ _ (by omega) (by omega)]; omega
  have s3 : size_sub lb (E + W3 + O) (E + W3) = O := by
    rw [size_sub_eq lb _ _ (by omega) (by omega)]; omega
  have c1 : ¬ (D > D + W1 + H + W2 + E + W3 + O ∨ D + W1 + H + W2 + E + W3 + O ≤ 0) := by
    omega
  have c2 : ¬ (H > H + W2 + E + W3 + O ∨ H + W2 + E + W3 + O ≤ 0) := by omega
  have c3 : ¬ (E > E + W3 + O ∨ E + W3 + O ≤ 0) := by omega
  have c3' : ¬ (W3 + E > E + W3 + O) := by omega
  have c4 : ¬ (O > O ∨ O ≤ 0) := by omega
  simp only [locate_fields, hid, hfind, hdev, hL, hF1, hW1, hD1, s1, c1, if_false, hF2, hW2,
    hN2, hD2, s2, c2, hF3, hW3, hN3, hD3, s3, c3, c3', hF4, c4]

theorem fsep_eq : fsep = [10, 9, 35, 32] := by decide

theorem lsep_eq : lsep = [10, 35] := by decide

theorem plain_fsep {b : Nat} (h : plain b) : b ≠ 0 ∧ b ∉ fsep := by
  obtain ⟨h0, h1, h2, h3, h4⟩ := h
  rw [fsep_eq]
  simp [h0, h1, h2, h3, h4]

theorem plain_lsep {b : Nat} (h : plain b) : b ≠ 0 ∧ b ∉ lsep := by
  obtain ⟨h0, h1, h2, h3, h4⟩ := h
  rw [lsep_eq]
  simp [h0, h1, h3]

theorem strcspn_append (a : List Nat) (x : Nat) (t reject : List Nat)
    (ha : ∀ b ∈ a, b ≠ 0 ∧ b ∉ reject) (hx : x ∈ reject) :
    strcspn (a ++ x :: t) reject = a.length := by
  unfold strcspn
  rw [List.takeWhile_append_of_pos, List.takeWhile_cons_of_neg, List.append_nil]
  · simp [hx]
  · intro b hb
    simp [(ha b hb).1, (ha b hb).2]

theorem blank_fsep {b : Nat} (h : blank b) : b ≠ 0 ∧ b ∈ fsep := by
  rcases h with rfl | rfl <;> decide

theorem blank_lsep {b : Nat} (h : blank b) : b ≠ 0 ∧ b ∉ lsep := by
  rcases h with rfl | rfl <;> decide

theorem strspn_sep (s : List Nat) (y : Nat) (t : List Nat) (hs : ∀ b ∈ s, blank b)
    (hy : y ∉ fsep) : strspn (s ++ y :: t) fsep = s.length := by
  unfold strspn
  rw [List.takeWhile_append_of_pos, List.takeWhile_cons_of_neg, List.append_nil]
  · simp [hy]
  · intro b hb
    simp [(blank_fsep (hs b hb)).1, (blank_fsep (hs b hb)).2]

theorem strndup_field (f : List Nat) (x : Nat) (t : List Nat) (hf : ∀ b ∈ f, b ≠ 0) :
    strndup (f ++ x :: t) f.length = f := by
  rw [strndup, List.take_left, cstr_of_no_nul f hf]

theorem intText_plain (n : Int) : ∀ b ∈ intText n, plain b := by
  intro b hb
  have hd : ∀ b ∈ decimal n.natAbs, plain b := by
    intro b hb
    have := decimal_digits _ b hb
    unfold plain
    omega
  unfold intText at hb
  split_ifs at hb
  · rcases List.mem_cons.1 hb with rfl | hb
    · unfold plain; omega
    · exact hd b hb
  · exact hd b hb

theorem Opt.text_plain (o : Opt) : ∀ b ∈ o.text, plain b := by
  have hlit : ∀ s : List Nat, (∀ b ∈ s, 61 ≤ b ∧ b ≤ 122) → ∀ b ∈ s, plain b := by
    intro s hs b hb
    have := hs b hb
    unfold plain
    omega
  cases o with
  | bs n =>
    intro b hb
    rcases List.mem_append.1 hb with hb | hb
    · exact hlit _ (by decide) b hb
    · exact intText_plain n b hb
  | timeout n =>
    intro b hb
    rcases List.mem_append.1 hb with hb | hb
    · exact hlit _ (by decide) b hb
    · exact intText_plain n b hb
  | persist => exact hlit _ (by decide)
  | swap => exact hlit _ (by decide)
  | sdp => exact hlit _ (by decide)
  | unix => exact hlit _ (by decide)

theorem optsText_plain (os : List Opt) : ∀ b ∈ optsText os, plain b := by
  induction os with
  | nil => intro b hb; simp [optsText] at hb
  | cons o os ih =>
    cases os with
    | nil => exact o.text_plain
    | cons o' os' =>
      intro b hb
      rw [optsText_cons_cons] at hb
      rcases List.mem_append.1 hb with hb | hb
      · exact o.text_plain b hb
      · rcases List.mem_cons.1 hb with rfl | hb
        · unfold plain; omega
        · exact ih b hb


theorem recordLine_plain (dev s1 host s2 exp s3 : List Nat) (opts : List Opt)
    (hdev : ∀ b ∈ dev, plain b) (hhost : ∀ b ∈ host, plain b) (hexp : ∀ b ∈ exp, plain b)
    (h1 : ∀ b ∈ s1, blank b) (h2 : ∀ b ∈ s2, blank b) (h3 : ∀ b ∈ s3, blank b) :
    ∀ b ∈ recordLine dev s1 host s2 exp s3 opts, b ≠ 0 ∧ b ∉ lsep := by
  intro b hb
  simp only [recordLine, List.mem_append] at hb
  rcases hb with hb | hb | hb | hb | hb | hb | hb
  · exact plain_lsep (hdev b hb)
  · exact blank_lsep (h1 b hb)
  · exact plain_lsep (hhost b hb)
  · exact blank_lsep (h2 b hb)
  · exact plain_lsep (hexp b hb)
  · exact blank_lsep (h3 b hb)
  · exact plain_lsep (optsText_plain opts b hb)

/-- C9: when the lookup of the identifier lands on a newline-terminated record
`dev host export opts`, whose fields are non-empty and free of separators, are
separated by spaces or tabs, and whose options are a comma-separated list of
`bs=<int>`, `timeout=<int>`, `persist`, `swap`, `sdp` and `unix` (the integers
in decimal, within `int`), `get_from_config` returns true; the device is
`/dev/` followed by `dev`, host and export are the second and third field, and
block size, timeout and the four flags are what the options say, the others
keeping the value they had. -/
theorem get_from_config_record (lb fuel : Nat)
    (data id dev s1 host s2 exp s3 rest : List Nat) (opts : List Opt) (c : Config)
    (hlb : 32 ≤ lb)
    (hid : id = dev ∧ strncmp dev (bytes "/dev/") 5 ≠ 0 ∨ id = bytes "/dev/" ++ dev)
    (hdev : dev ≠ [] ∧ ∀ b ∈ dev, plain b) (hhost : host ≠ [] ∧ ∀ b ∈ host, plain b)
    (hexp : exp ≠ [] ∧ ∀ b ∈ exp, plain b)
    (hs1 : s1 ≠ [] ∧ ∀ b ∈ s1, blank b) (hs2 : s2 ≠ [] ∧ ∀ b ∈ s2, blank b)
    (hs3 : s3 ≠ [] ∧ ∀ b ∈ s3, blank b)
    (hopts : opts ≠ [] ∧ ∀ o ∈ opts, o.inRange)
    (hfind : strstr data dev = some (recordLine dev s1 host s2 exp s3 opts ++ 10 :: rest))
    (hsize : (recordLine dev s1 host s2 exp s3 opts).length < 2 ^ lb)
    (hfuel : opts.length ≤ fuel) :
    get_from_config lb fuel (some data) id c
      = some (true, applyOpts opts
          { c with dev := bytes "/dev/" ++ dev, hostn := host, name := exp }) := by
  obtain ⟨h, hs, rfl⟩ := List.exists_cons_of_ne_nil hhost.1
  obtain ⟨e, es, rfl⟩ := List.exists_cons_of_ne_nil hexp.1
  obtain ⟨x1, t1, rfl⟩ := List.exists_cons_of_ne_nil hs1.1
  obtain ⟨x2, t2, rfl⟩ := List.exists_cons_of_ne_nil hs2.1
  obtain ⟨x3, t3, rfl⟩ := List.exists_cons_of_ne_nil hs3.1
  obtain ⟨p, ps, hp, hpl⟩ := optsText_shape opts hopts.1
  have hpp : ∀ b ∈ p :: ps, plain b := by
    rw [← hp]; exact optsText_plain opts
  have hnz : ∀ (f : List Nat), (∀ b ∈ f, plain b) → ∀ b ∈ f, b ≠ 0 ∧ b ∉ fsep :=
    fun f hf b hb => plain_fsep (hf b hb)
  have hx1 : x1 ∈ fsep := (blank_fsep (hs1.2 x1 (List.mem_cons_self _ _))).2
  have hx2 : x2 ∈ fsep := (blank_fsep (hs2.2 x2 (List.mem_cons_self _ _))).2
  have hx3 : x3 ∈ fsep := (blank_fsep (hs3.2 x3 (List.mem_cons_self _ _))).2
  have h10 : (10 : Nat) ∈ fsep := by decide
  have hloc : recordLine dev (x1 :: t1) (h :: hs) (x2 :: t2) (e :: es) (x3 :: t3) opts
        ++ 10 :: rest
      = dev ++ (x1 :: t1 ++ (h :: hs ++ (x2 :: t2 ++ (e :: es ++ (x3 :: t3
          ++ (p :: ps ++ 10 :: rest)))))) := by
    simp only [recordLine, hp, List.append_assoc, List.cons_append]
  have hlen : (recordLine dev (x1 :: t1) (h :: hs) (x2 :: t2) (e :: es) (x3 :: t3) opts).length
      = dev.length + (x1 :: t1).length + (h :: hs).length + (x2 :: t2).length
        + (e :: es).length + (x3 :: t3).length + (p :: ps).length := by
    simp only [recordLine, hp, List.length_append, List.length_cons]
    omega
  have hidd : (if strncmp id (bytes "/dev/") 5 = 0 then id.drop 5 else id) = dev := by
    rcases hid with ⟨rfl, hne⟩ | rfl
    · rw [if_neg hne]
    · have hk : bytes "/dev/" = [47, 100, 101, 118, 47] := by decide
      rw [hk]
      simp [strncmp_cons, strncmp_zero]
  have hloc' := locate_fields_of_facts lb data id dev (h :: hs) (e :: es)
    (recordLine dev (x1 :: t1) (h :: hs) (x2 :: t2) (e :: es) (x3 :: t3) opts ++ 10 :: rest)
    (h :: hs ++ (x2 :: t2 ++ (e :: es ++ (x3 :: t3 ++ (p :: ps ++ 10 :: rest)))))
    (e :: es ++ (x3 :: t3 ++ (p :: ps ++ 10 :: rest))) (p :: ps ++ 10 :: rest) c
    dev.length (x1 :: t1).length (h :: hs).length (x2 :: t2).length (e :: es).length
    (x3 :: t3).length (p :: ps).length
    hidd hfind (cstr_of_no_nul dev (fun b hb => (hdev.2 b hb).1))
    (by rw [strcspn_append _ 10 rest lsep
          (recordLine_plain dev _ _ _ _ _ opts hdev.2 hhost.2 hexp.2 hs1.2 hs2.2 hs3.2)
          (by decide), hlen])
    (by rw [← hlen]; exact hsize) (by simp)
    (by rw [hloc]; exact strcspn_append dev x1 _ fsep (hnz dev hdev.2) hx1)
    (by rw [hloc, List.drop_left]
        exact strspn_sep (x1 :: t1) h _ hs1.2
          (plain_fsep (hhost.2 h (List.mem_cons_self _ _))).2)
    (by rw [hloc, ← List.drop_drop, List.drop_left, List.drop_left])
    (strcspn_append (h :: hs) x2 _ fsep (hnz _ hhost.2) hx2)
    (by rw [List.drop_left]
        exact strspn_sep (x2 :: t2) e _ hs2.2
          (plain_fsep (hexp.2 e (List.mem_cons_self _ _))).2)
    (strndup_field (h :: hs) x2 _ (fun b hb => (hhost.2 b hb).1))
    (by rw [← List.drop_drop, List.drop_left, List.drop_left])
    (strcspn_append (e :: es) x3 _ fsep (hnz _ hexp.2) hx3)
    (by rw [List.drop_left]
        exact strspn_sep (x3 :: t3) p _ hs3.2
          (plain_fsep (hpp p (List.mem_cons_self _ _))).2)
    (strndup_field (e :: es) x3 _ (fun b hb => (hexp.2 b hb).1))
    (by rw [← List.drop_drop, List.drop_left, List.drop_left])
    (strcspn_append (p :: ps) 10 _ fsep (hnz _ hpp) h10)
  rw [get_from_config, hloc', ← hp]
  simp only []
  rw [parse_options_text lb opts fuel rest _ hlb hopts.1 hopts.2 hfuel]

set_option maxRecDepth 100000 in
theorem get_from_config_record_witness :
    get_from_config 64 3
        (some (bytes "# table\nnbd0 server.example\tdata  bs=512,timeout=-1,persist\nnbd1 h e\n"))
        (bytes "/dev/nbd0") (defaults (bytes "/dev/nbd0"))
      = some (true, applyOpts [.bs 512, .timeout (-1), .persist]
          { defaults (bytes "/dev/nbd0") with
            dev := bytes "/dev/" ++ bytes "nbd0",
            hostn := bytes "server.example",
            name := bytes "data" }) :=
  get_from_config_record 64 3
    (bytes "# table\nnbd0 server.example\tdata  bs=512,timeout=-1,persist\nnbd1 h e\n")
    (bytes "/dev/nbd0") (bytes "nbd0") (bytes " ") (bytes "server.example") (bytes "\t")
    (bytes "data") (bytes "  ") (bytes "nbd1 h e\n") [.bs 512, .timeout (-1), .persist]
    (defaults (bytes "/dev/nbd0"))
    (by decide) (Or.inr (by decide)) ⟨by decide, by decide⟩ ⟨by decide, by decide⟩
    ⟨by decide, by decide⟩ ⟨by decide, by decide⟩ ⟨by decide, by decide⟩
    ⟨by decide, by decide⟩ ⟨by decide, by decide⟩ (by decide) (by decide) (by decide)

/-- With the values `main` starts from, the record of the witness gives block
size 512, timeout -1, `persist` set and the other flags clear. -/
theorem applyOpts_example :
    applyOpts [.bs 512, .timeout (-1), .persist]
        { defaults (bytes "/dev/nbd0") with
          dev := bytes "/dev/" ++ bytes "nbd0",
          hostn := bytes "server.example",
          name := bytes "data" }
      = ⟨bytes "data", bytes "/dev/nbd0", bytes "server.example", 512, -1, 1, 0, 0, 0,
          bytes "10809", []⟩ := by
  decide


theorem option_step_port (long_bits : Nat) (c : Config) :
    option_step long_bits (bytes "port=10809\n") c
      = (bytes "port=10809\n", { c with port := bytes "10809\n" }) := by
  rfl

theorem parse_options_port_diverges (long_bits fuel : Nat) (c : Config) :
    parse_options long_bits fuel (bytes "port=10809\n") c = none := by
  induction fuel generalizing c with
  | zero => rfl
  | succ fuel ih =>
    have hpos : strcspn (bytes "port=10809\n") lsep > 0 := by decide
    rw [parse_options, option_step_port, if_pos hpos]
    exact ih _

/-- C10, where the code departs from it: on the record
`nbd0 host exp port=10809` the `port=` branch stores the port and leaves `loc`
where it is, so the loop over the options sees the same option again, for
ever: no amount of fuel lets `get_from_config` return. -/
theorem get_from_config_port_diverges (fuel : Nat) :
    get_from_config 64 fuel (some (bytes "nbd0 host exp port=10809\n")) (bytes "nbd0")
      (defaults (bytes "nbd0")) = none := by
  have h : locate_fields 64 (some (bytes "nbd0 host exp port=10809\n")) (bytes "nbd0")
      (defaults (bytes "nbd0"))
      = .inr (bytes "port=10809\n", { defaults (bytes "nbd0") with
          dev := bytes "/dev/nbd0", hostn := bytes "host", name := bytes "exp" }) := by
    decide
  rw [get_from_config, h]
  simp only [parse_options_port_diverges]


/-! ## Short lines and unknown options in the device table -/

/-- C11, where the code departs from it: the line matched for `nbd0` has a
device name and a host only.  The newline after the host is counted as white
space, `line_len` wraps around below zero, and `get_from_config` returns true
with the export `nbd1` taken from the first field of the following line. -/
theorem get_from_config_short_line :
    get_from_config 64 8 (some (bytes "nbd0 host\nnbd1 h2 e2\n")) (bytes "nbd0")
        (defaults (bytes "nbd0"))
      = some (true, { defaults (bytes "nbd0") with
          dev := bytes "/dev/nbd0",
          hostn := bytes "host",
          name := bytes "nbd1",
          stderr := bytes "Warning: unknown option 'h2 e2\n' found in nbdtab file" }) := by
  decide

/-- A line with the device name alone gives host and export from the following
line. -/
theorem get_from_config_name_only :
    get_from_config 64 8 (some (bytes "nbd0\nnbd1 h2 e2\n")) (bytes "nbd0")
        (defaults (bytes "nbd0"))
      = some (true, { defaults (bytes "nbd0") with
          dev := bytes "/dev/nbd0",
          hostn := bytes "nbd1",
          name := bytes "h2",
          stderr := bytes "Warning: unknown option 'e2\n' found in nbdtab file" }) := by
  decide

/-- A two-field line that is the last of the table gives an empty export. -/
theorem get_from_config_empty_export :
    get_from_config 64 8 (some (bytes "nbd0 host\n")) (bytes "nbd0") (defaults (bytes "nbd0"))
      = some (true, { defaults (bytes "nbd0") with
          dev := bytes "/dev/nbd0",
          hostn := bytes "host",
          name := [],
          stderr := bytes "Warning: unknown option '' found in nbdtab file" }) := by
  decide

/-- The same two fields without the newline are refused: the length check works
when the line ends with the file. -/
theorem get_from_config_short_line_at_end :
    get_from_config 64 8 (some (bytes "nbd0 host")) (bytes "nbd0") (defaults (bytes "nbd0"))
      = some (false, { defaults (bytes "nbd0") with
          dev := bytes "/dev/nbd0",
          hostn := bytes "host" }) := by
  decide

/-- C12, where the code departs from it: the record selected for `nbd0` has the
unknown option `foo` only.  The option is skipped up to the next comma, which
stands on the following line, and the `persist` after that comma is applied:
`persist` is 1 after the call although the record does not have it. -/
theorem get_from_config_foreign_option :
    get_from_config 64 8 (some (bytes "nbd0 h e foo\nnbd1 h2 e2 bs=512,persist\n"))
        (bytes "nbd0") (defaults (bytes "nbd0"))
      = some (true, { defaults (bytes "nbd0") with
          dev := bytes "/dev/nbd0",
          hostn := bytes "h",
          name := bytes "e",
          persist := 1,
          stderr := bytes
            "Warning: unknown option 'foo\nnbd1 h2 e2 bs=512' found in nbdtab file" }) := by
  decide

/-- The same with a silently ignored option: block size and `swap` of the record
of `nbd1` end up in the record of `nbd0`. -/
theorem get_from_config_foreign_option_silent :
    get_from_config 64 8 (some (bytes "nbd0 h e _x\nnbd1 h2 e2 timeout=5,bs=4096,swap\n"))
        (bytes "nbd0") (defaults (bytes "nbd0"))
      = some (true, { defaults (bytes "nbd0") with
          dev := bytes "/dev/nbd0",
          hostn := bytes "h",
          name := bytes "e",
          bs := 4096,
          swap := 1 }) := by
  decide

/-- A record without options field leaves block size, timeout, flags and port as
they were, whatever the following lines hold. -/
theorem get_from_config_no_options :
    get_from_config 64 8 (some (bytes "nbd0 h e\nnbd1 h2 e2 timeout=5,bs=4096,swap\n"))
        (bytes "nbd0") (defaults (bytes "nbd0"))
      = some (true, { defaults (bytes "nbd0") with
          dev := bytes "/dev/nbd0",
          hostn := bytes "h",
          name := bytes "e" }) := by
  decide

/-- The options of a record change nothing but what they name: the port and the
text on standard error stay, and block size, timeout and each flag stay unless
the list has an item for them. -/
theorem applyOpts_frame (opts : List Opt) (c : Config) :
    (applyOpts opts c).port = c.port ∧ (applyOpts opts c).stderr = c.stderr ∧
    (applyOpts opts c).name = c.name ∧ (applyOpts opts c).dev = c.dev ∧
    (applyOpts opts c).hostn = c.hostn ∧
    ((∀ n, Opt.bs n ∉ opts) → (applyOpts opts c).bs = c.bs) ∧
    ((∀ n, Opt.timeout n ∉ opts) → (applyOpts opts c).timeout = c.timeout) ∧
    (Opt.persist ∉ opts → (applyOpts opts c).persist = c.persist) ∧
    (Opt.swap ∉ opts → (applyOpts opts c).swap = c.swap) ∧
    (Opt.sdp ∉ opts → (applyOpts opts c).sdp = c.sdp) ∧
    (Opt.unix ∉ opts → (applyOpts opts c).b_unix = c.b_unix) := by
  induction opts generalizing c with
  | nil => simp [applyOpts]
  | cons o os ih =>
    obtain ⟨h1, h2, h3, h4, h5, h6, h7, h8, h9, h10, h11⟩ := ih (o.apply c)
    simp only [applyOpts, List.mem_cons, not_or]
    refine ⟨?_, ?_, ?_, ?_, ?_, ?_, ?_, ?_, ?_, ?_, ?_⟩
    · rw [h1]; cases o <;> rfl
    · rw [h2]; cases o <;> rfl
    · rw [h3]; cases o <;> rfl
    · rw [h4]; cases o <;> rfl
    · rw [h5]; cases o <;> rfl
    · intro h
      rw [h6 (fun n => (h n).2)]
      cases o with
      | bs m => exact absurd rfl (h m).1
      | _ => rfl
    · intro h
      rw [h7 (fun n => (h n).2)]
      cases o with
      | timeout m => exact absurd rfl (h m).1
      | _ => rfl
    · intro h
      rw [h8 h.2]
      cases o with
      | persist => exact absurd rfl h.1
      | _ => rfl
    · intro h
      rw [h9 h.2]
      cases o with
      | swap => exact absurd rfl h.1
      | _ => rfl
    · intro h
      rw [h10 h.2]
      cases o with
      | sdp => exact absurd rfl h.1
      | _ => rfl
    · intro h
      rw [h11 h.2]
      cases o with
      | unix => exact absurd rfl h.1
      | _ => rfl


/-! ## `openunix` -/

theorem strncpy_sun_path (n : Nat) (path : List Nat) (h : strlen path < n) :
    strncpy (List.replicate n 0) path (n - 1)
      = cstr path ++ List.replicate (n - strlen path) 0 := by
  unfold strlen at h
  have h1 : (cstr path).take (n - 1) = cstr path := List.take_of_length_le (by omega)
  have h2 : (List.replicate n 0).drop (n - 1) = List.replicate 1 (0 : Nat) := by
    rw [List.drop_replicate]
    congr 1
    omega
  rw [strncpy, h1, h2, List.append_assoc, ← List.replicate_add, strlen]
  congr 2
  omega

/-- C16: `openunix` refuses a path with the path-too-long diagnostic, before any
socket is created, exactly when the path is at least as long as the path field
of the address (`sun_path_size` bytes, 108 on Linux); a shorter path is copied
into the path field unmodified and filled up with zero bytes, so a path one
byte shorter than the field is followed by exactly one zero byte. -/
theorem openunix_path_length (sun_path_size : Nat) (sock : Option Nat) (fd : Nat) (conn : Bool)
    (path : List Nat) :
    (sun_path_size ≤ strlen path ↔
      openunix sun_path_size sock conn path = (-1, [.err_nonfatal "UNIX socket path too long"])) ∧
    (strlen path < sun_path_size →
      openunix sun_path_size (some fd) true path =
        ((fd : Int), [.socket,
          .connect (cstr path ++ List.replicate (sun_path_size - strlen path) 0)])) ∧
    (strlen path + 1 = sun_path_size →
      openunix sun_path_size (some fd) true path =
        ((fd : Int), [.socket, .connect (cstr path ++ [0])])) := by
  have hacc : strlen path < sun_path_size →
      openunix sun_path_size (some fd) true path =
        ((fd : Int), [.socket,
          .connect (cstr path ++ List.replicate (sun_path_size - strlen path) 0)]) := by
    intro hlt
    have hc : ¬ strnlen path sun_path_size = sun_path_size := by
      unfold strnlen; omega
    rw [openunix, if_neg hc]
    simp only [strncpy_sun_path sun_path_size path hlt]
    rfl
  refine ⟨⟨?_, ?_⟩, hacc, ?_⟩
  · intro h
    have hc : strnlen path sun_path_size = sun_path_size := by
      unfold strnlen; omega
    rw [openunix, if_pos hc]
  · intro h
    by_contra hlt
    have hc : ¬ strnlen path sun_path_size = sun_path_size := by
      unfold strnlen; omega
    rw [openunix, if_neg hc] at h
    simp only [] at h
    split at h
    · simp at h
    · split at h <;> simp at h
  · intro h
    rw [hacc (by omega)]
    have : sun_path_size - strlen path = 1 := by omega
    rw [this]
    rfl

set_option maxRecDepth 100000 in
theorem openunix_path_length_witness :
    openunix 108 (some 3) true (List.replicate 107 97)
      = (((3 : Nat) : Int), [.socket, .connect (cstr (List.replicate 107 97) ++ [0])]) :=
  (openunix_path_length 108 (some 3) 3 true (List.replicate 107 97)).2.2 (by decide)

set_option maxRecDepth 100000 in
/-- On Linux a path of 108 bytes is refused and a path of 107 bytes is used as it
is. -/
theorem openunix_limit_108 :
    openunix 108 (some 3) true (List.replicate 108 97)
      = (-1, [.err_nonfatal "UNIX socket path too long"]) ∧
    openunix 108 (some 3) true (List.replicate 107 97)
      = (3, [.socket, .connect (List.replicate 107 97 ++ [0])]) := by
  decide


/-! ## `setsizes` -/

theorem toU64_natCast (b : Nat) (hb : b < 2 ^ 64) : toU64 (b : Int) = b := by
  unfold toU64
  have h : ((b : Int) % 2 ^ 64) = (b : Int) := Int.emod_eq_of_lt (by omega) (by exact_mod_cast hb)
  rw [h]
  simp

theorem shiftRight_12 (s : Nat) : s >>> 12 = s / 4096 := by
  rw [Nat.shiftRight_eq_div_pow]

/-- The block size of the first `NBD_SET_BLKSIZE`: the one asked for when the
block count fits in `unsigned long`, 4096 otherwise. -/
theorem tmp_blocksize_fits (w size64 b : Nat) (hacc : ¬ size64 >>> 12 > 2 ^ w - 1) :
    size64 / (if size64 / b ≤ 2 ^ w - 1 then b else 4096) ≤ 2 ^ w - 1 := by
  rw [shiftRight_12] at hacc
  split_ifs with h
  · exact h
  · omega

/-- What `setsizes_blocks` has done when it returns: the first two requests are
`NBD_SET_BLKSIZE` with the block size chosen and `NBD_SET_SIZE_BLOCKS` with the
quotient of the size by it, cut to an `unsigned long`. -/
theorem setsizes_blocks_ret (w : Nat) (kernel : Kernel) (tr tr' : List Event) (size64 : Nat)
    (blocksize : Int)
    (h : setsizes_blocks w kernel tr size64 blocksize = some (.ret (), tr')) :
    ∃ rest, tr' = tr ++ .ioctl (.NBD_SET_BLKSIZE
        (if size64 / toU64 blocksize ≤ 2 ^ w - 1 then blocksize else 4096))
      :: .ioctl (.NBD_SET_SIZE_BLOCKS
        ((size64 / toU64 (if size64 / toU64 blocksize ≤ 2 ^ w - 1 then blocksize else 4096))
          % 2 ^ w)) :: rest := by
  unfold setsizes_blocks at h
  by_cases h0 : toU64 blocksize = 0
  · rw [if_pos h0] at h
    simp at h
  rw [if_neg h0] at h
  simp only [] at h
  generalize (if size64 / toU64 blocksize ≤ 2 ^ w - 1 then blocksize else 4096) = tmp at h ⊢
  split at h
  · simp at h
  split at h
  · simp at h
  split at h
  · split at h
    · simp at h
    · simp only [Option.some.injEq, Prod.mk.injEq, true_and] at h
      exact ⟨_, by rw [← h, List.append_assoc, List.append_assoc]; rfl⟩
  · simp only [Option.some.injEq, Prod.mk.injEq, true_and] at h
    exact ⟨_, by rw [← h, List.append_assoc, List.append_assoc]; rfl⟩

theorem setsizes_ret (w : Nat) (kernel : Kernel) (tr tr' : List Event) (size64 : Nat)
    (blocksize : Int) (flags : Nat)
    (h : setsizes w kernel tr size64 blocksize flags = some (.ret (), tr')) :
    ¬ size64 >>> 12 > 2 ^ w - 1 ∧
    ∃ tr1, setsizes_blocks w kernel tr size64 blocksize = some (.ret (), tr1) ∧
      tr' = tr1 ++ [.ioctl .NBD_CLEAR_SOCK, .ioctl (.NBD_SET_FLAGS flags),
        .ioctl (.BLKROSET (if flags &&& NBD_FLAG_READ_ONLY ≠ 0 then 1 else 0))] := by
  unfold setsizes at h
  simp only [] at h
  split at h
  · simp at h
  rename_i hacc
  refine ⟨hacc, ?_⟩
  split at h
  · simp at h
  · simp at h
  · simp at h
  · rename_i tr1 heq
    split at h
    · simp at h
    · simp only [Option.some.injEq, Prod.mk.injEq, true_and] at h
      exact ⟨tr1, heq, by rw [← h]; simp⟩


/-- C13, as stated, fails: for a size of 1536 bytes and a block size of 1024
`setsizes` is content, and the block count it passes to `NBD_SET_SIZE_BLOCKS`
is 1 while the block size set is 1024: the product is 1024, not 1536. -/
theorem setsizes_rounds_down :
    setsizes 64 (fun _ _ => none) [] 1536 1024 0
      = some (.ret (), [.ioctl (.NBD_SET_BLKSIZE 1024), .ioctl (.NBD_SET_SIZE_BLOCKS 1),
          .eprint (bytes "bs=1024, sz=1024 bytes\n"), .ioctl .NBD_CLEAR_SOCK,
          .ioctl (.NBD_SET_FLAGS 0), .ioctl (.BLKROSET 0)]) ∧
    1 * 1024 ≠ 1536 := by
  decide

/-- C13, amended: whenever `setsizes` returns, for a positive block size, the
first two requests it has made are `NBD_SET_BLKSIZE` with a block size `tmp`
(the one asked for, or 4096) and `NBD_SET_SIZE_BLOCKS` with a count `cnt` such
that `cnt * tmp` is the size rounded down to a multiple of `tmp`; it is the
size itself exactly when the size is a multiple of `tmp`. -/
theorem setsizes_block_count (w : Nat) (kernel : Kernel) (tr tr' : List Event)
    (size64 b flags : Nat) (hb : 0 < b) (hb2 : b < 2 ^ 31)
    (h : setsizes w kernel tr size64 (b : Int) flags = some (.ret (), tr')) :
    ∃ (tmp cnt : Nat) (rest : List Event),
      tr' = tr ++ .ioctl (.NBD_SET_BLKSIZE (tmp : Int)) :: .ioctl (.NBD_SET_SIZE_BLOCKS cnt)
        :: rest ∧
      (tmp = b ∨ tmp = 4096) ∧
      cnt * tmp = size64 - size64 % tmp ∧
      (cnt * tmp = size64 ↔ size64 % tmp = 0) := by
  obtain ⟨hacc, tr1, hblocks, rfl⟩ := setsizes_ret w kernel tr tr' size64 b flags h
  obtain ⟨rest, rfl⟩ := setsizes_blocks_ret w kernel tr tr1 size64 b hblocks
  have hbu : toU64 (b : Int) = b := toU64_natCast b (by omega)
  have hfit := tmp_blocksize_fits w size64 b hacc
  have hcast : (if size64 / toU64 (b : Int) ≤ 2 ^ w - 1 then (b : Int) else 4096)
      = ((if size64 / b ≤ 2 ^ w - 1 then b else 4096 : Nat) : Int) := by
    rw [hbu]
    split_ifs <;> simp
  rw [hcast]
  generalize htmp : (if size64 / b ≤ 2 ^ w - 1 then b else 4096) = tmp at hfit ⊢
  have htmp2 : tmp = b ∨ tmp = 4096 := by
    rw [← htmp]
    split_ifs
    · exact Or.inl rfl
    · exact Or.inr rfl
  have htu : toU64 (tmp : Int) = tmp := toU64_natCast tmp (by rcases htmp2 with h | h <;> omega)
  have hpos : 0 < 2 ^ w := Nat.two_pow_pos w
  have hmod : size64 / tmp % 2 ^ w = size64 / tmp := Nat.mod_eq_of_lt (by omega)
  have hdm := Nat.div_add_mod size64 tmp
  have hmul : size64 / tmp * tmp = size64 - size64 % tmp := by
    rw [Nat.mul_comm]
    omega
  have hle := Nat.mod_le size64 tmp
  refine ⟨tmp, size64 / tmp, rest ++ [.ioctl .NBD_CLEAR_SOCK, .ioctl (.NBD_SET_FLAGS flags),
    .ioctl (.BLKROSET (if flags &&& NBD_FLAG_READ_ONLY ≠ 0 then 1 else 0))], ?_, htmp2, hmul, ?_⟩
  · rw [htu, hmod]
    simp
  · rw [hmul]
    omega

theorem setsizes_block_count_witness :
    ∃ (tmp cnt : Nat) (rest : List Event),
      [.ioctl (.NBD_SET_BLKSIZE 1024), .ioctl (.NBD_SET_SIZE_BLOCKS 1),
          .eprint (bytes "bs=1024, sz=1024 bytes\n"), .ioctl .NBD_CLEAR_SOCK,
          .ioctl (.NBD_SET_FLAGS 0), .ioctl (.BLKROSET 0)]
        = [] ++ .ioctl (.NBD_SET_BLKSIZE (tmp : Int)) :: .ioctl (.NBD_SET_SIZE_BLOCKS cnt)
          :: rest ∧
      (tmp = 1024 ∨ tmp = 4096) ∧
      cnt * tmp = 1536 - 1536 % tmp ∧
      (cnt * tmp = 1536 ↔ 1536 % tmp = 0) :=
  setsizes_block_count 64 (fun _ _ => none) [] _ 1536 1024 0 (by decide) (by decide)
    (by decide)


/-- C17: for a size with `size64 >> 12` within `unsigned long`, a block size
among 512, 1024, 2048 and 4096 and a kernel that accepts every request,
`setsizes` returns, and what it has done is: `NBD_SET_BLKSIZE` with the block
size asked for when `size64 / b` fits in `unsigned long` and with 4096
otherwise, `NBD_SET_SIZE_BLOCKS` with the quotient of the size by that block
size, which fits in `unsigned long` (the cast loses nothing), a second
`NBD_SET_BLKSIZE` with the block size asked for exactly when 4096 was put in
its place, then the message, `NBD_CLEAR_SOCK`, `NBD_SET_FLAGS` and `BLKROSET`. -/
theorem setsizes_requests (w : Nat) (kernel : Kernel) (tr : List Event) (size64 b flags : Nat)
    (hw : 32 ≤ w) (hb : b = 512 ∨ b = 1024 ∨ b = 2048 ∨ b = 4096)
    (hacc : size64 >>> 12 ≤ 2 ^ w - 1) (hk : ∀ t r, kernel t r = none) :
    size64 / (if size64 / b ≤ 2 ^ w - 1 then b else 4096) ≤ 2 ^ w - 1 ∧
    ((if size64 / b ≤ 2 ^ w - 1 then b else 4096) ≠ b ↔ ¬ size64 / b ≤ 2 ^ w - 1) ∧
    setsizes w kernel tr size64 (b : Int) flags = some (.ret (),
      tr ++ [.ioctl (.NBD_SET_BLKSIZE ((if size64 / b ≤ 2 ^ w - 1 then b else 4096 : Nat) : Int)),
          .ioctl (.NBD_SET_SIZE_BLOCKS (size64 / (if size64 / b ≤ 2 ^ w - 1 then b else 4096)))]
        ++ (if size64 / b ≤ 2 ^ w - 1 then [] else [.ioctl (.NBD_SET_BLKSIZE (b : Int))])
        ++ [.eprint (bytes "bs="
              ++ intText ((if size64 / b ≤ 2 ^ w - 1 then b else 4096 : Nat) : Int)
              ++ bytes ", sz="
              ++ decimal (((if size64 / b ≤ 2 ^ w - 1 then b else 4096)
                  * (size64 / (if size64 / b ≤ 2 ^ w - 1 then b else 4096))) % 2 ^ 64)
              ++ bytes " bytes\n"),
            .ioctl .NBD_CLEAR_SOCK, .ioctl (.NBD_SET_FLAGS flags),
            .ioctl (.BLKROSET (if flags &&& NBD_FLAG_READ_ONLY ≠ 0 then 1 else 0))]) := by
  have hacc' : ¬ size64 >>> 12 > 2 ^ w - 1 := by omega
  have hfit := tmp_blocksize_fits w size64 b hacc'
  have hb64 : b < 2 ^ 64 := by rcases hb with h | h | h | h <;> rw [h] <;> norm_num
  have hbpos : b ≠ 0 := by rcases hb with h | h | h | h <;> rw [h] <;> norm_num
  have hbu : toU64 (b : Int) = b := toU64_natCast b hb64
  have h4 : toU64 4096 = 4096 := toU64_natCast 4096 (by norm_num)
  have hpw : 2 ^ 32 ≤ 2 ^ w := Nat.pow_le_pow_right (by norm_num) hw
  have hbw : b < 2 ^ w := by rcases hb with h | h | h | h <;> rw [h] <;> omega
  have hbmod : (b : Int) % 2 ^ w = (b : Int) :=
    Int.emod_eq_of_lt (by omega) (by exact_mod_cast hbw)
  have h4096 : size64 / 4096 ≤ 2 ^ w - 1 := by
    rw [shiftRight_12] at hacc
    exact hacc
  refine ⟨hfit, ?_, ?_⟩
  · by_cases hf : size64 / b ≤ 2 ^ w - 1
    · simp [hf]
    · have hne : b ≠ 4096 := fun h => hf (h ▸ h4096)
      simp only [if_neg hf, hf, not_false_eq_true, iff_true]
      exact fun h => hne h.symm
  · unfold setsizes
    simp only [if_neg hacc']
    by_cases hf : size64 / b ≤ 2 ^ w - 1
    · have hm : size64 / b % 2 ^ w = size64 / b := Nat.mod_eq_of_lt (by omega)
      have hblocks : setsizes_blocks w kernel tr size64 (b : Int)
          = some (.ret (), tr ++ [.ioctl (.NBD_SET_BLKSIZE (b : Int))]
              ++ [.ioctl (.NBD_SET_SIZE_BLOCKS (size64 / b))]
              ++ [.eprint (bytes "bs=" ++ intText (b : Int) ++ bytes ", sz="
                  ++ decimal ((b * (size64 / b)) % 2 ^ 64) ++ bytes " bytes\n")]) := by
        unfold setsizes_blocks
        simp only [hbu, hk, if_neg hbpos, if_pos hf, hm, ne_eq, not_true_eq_false, if_false]
      rw [hblocks]
      simp only [hk, if_pos hf]
      simp
    · have hne : b ≠ 4096 := fun h => hf (h ▸ h4096)
      have hneI : ¬ ((4096 : Int) = (b : Int)) := by
        intro h
        exact hne (by exact_mod_cast h.symm)
      have hm : size64 / 4096 % 2 ^ w = size64 / 4096 := Nat.mod_eq_of_lt (by omega)
      have hblocks : setsizes_blocks w kernel tr size64 (b : Int)
          = some (.ret (), tr ++ [.ioctl (.NBD_SET_BLKSIZE 4096)]
              ++ [.ioctl (.NBD_SET_SIZE_BLOCKS (size64 / 4096))]
              ++ [.ioctl (.NBD_SET_BLKSIZE (b : Int)),
                .eprint (bytes "bs=" ++ intText 4096 ++ bytes ", sz="
                  ++ decimal ((4096 * (size64 / 4096)) % 2 ^ 64) ++ bytes " bytes\n")]) := by
        unfold setsizes_blocks
        simp only [hbu, hk, if_neg hbpos, if_neg hf, h4, hm, ne_eq, hneI, not_false_eq_true,
          if_true, hbmod]
      rw [hblocks]
      simp only [hk, if_neg hf]
      simp

/-- C17, the example: for a size of `1 << 30`, a block size of 1024 and flags 0
on a host with 64-bit `unsigned long`, the device is sized to 1,048,576 blocks
of 1024, with no second `NBD_SET_BLKSIZE`, and `BLKROSET` is given 0. -/
theorem setsizes_requests_witness :
    2 ^ 30 / (if 2 ^ 30 / 1024 ≤ 2 ^ 64 - 1 then 1024 else 4096) ≤ 2 ^ 64 - 1 ∧
    ((if 2 ^ 30 / 1024 ≤ 2 ^ 64 - 1 then 1024 else 4096) ≠ 1024 ↔ ¬ 2 ^ 30 / 1024 ≤ 2 ^ 64 - 1) ∧
    setsizes 64 (fun _ _ => none) [] (2 ^ 30) ((1024 : Nat) : Int) 0 = some (.ret (),
      [] ++ [.ioctl (.NBD_SET_BLKSIZE ((if 2 ^ 30 / 1024 ≤ 2 ^ 64 - 1 then 1024 else 4096 : Nat) : Int)),
          .ioctl (.NBD_SET_SIZE_BLOCKS (2 ^ 30 / (if 2 ^ 30 / 1024 ≤ 2 ^ 64 - 1 then 1024 else 4096)))]
        ++ (if 2 ^ 30 / 1024 ≤ 2 ^ 64 - 1 then [] else [.ioctl (.NBD_SET_BLKSIZE ((1024 : Nat) : Int))])
        ++ [.eprint (bytes "bs="
              ++ intText ((if 2 ^ 30 / 1024 ≤ 2 ^ 64 - 1 then 1024 else 4096 : Nat) : Int)
              ++ bytes ", sz="
              ++ decimal (((if 2 ^ 30 / 1024 ≤ 2 ^ 64 - 1 then 1024 else 4096)
                  * (2 ^ 30 / (if 2 ^ 30 / 1024 ≤ 2 ^ 64 - 1 then 1024 else 4096))) % 2 ^ 64)
              ++ bytes " bytes\n"),
            .ioctl .NBD_CLEAR_SOCK, .ioctl (.NBD_SET_FLAGS 0),
            .ioctl (.BLKROSET (if 0 &&& NBD_FLAG_READ_ONLY ≠ 0 then 1 else 0))]) :=
  setsizes_requests 64 (fun _ _ => none) [] (2 ^ 30) 1024 0 (by decide) (by decide) (by decide)
    (fun _ _ => rfl)

/-- For a size of `1 << 30` and a block size of 1024 the device is sized to
1,048,576 blocks of 1024. -/
theorem setsizes_one_gigabyte :
    setsizes 64 (fun _ _ => none) [] (2 ^ 30) 1024 0
      = some (.ret (), [.ioctl (.NBD_SET_BLKSIZE 1024), .ioctl (.NBD_SET_SIZE_BLOCKS 1048576),
          .eprint (bytes "bs=1024, sz=1073741824 bytes\n"), .ioctl .NBD_CLEAR_SOCK,
          .ioctl (.NBD_SET_FLAGS 0), .ioctl (.BLKROSET 0)]) := by
  decide

/-- On a host with 32-bit `unsigned long`, for a size of `1 << 43` and a block
size of 1024, the block count `1 << 33` does not fit: 4096 is set first, then
`1 << 31` blocks, then the block size 1024 again. -/
theorem setsizes_large_device :
    setsizes 32 (fun _ _ => none) [] (2 ^ 43) 1024 2
      = some (.ret (), [.ioctl (.NBD_SET_BLKSIZE 4096), .ioctl (.NBD_SET_SIZE_BLOCKS (2 ^ 31)),
          .ioctl (.NBD_SET_BLKSIZE 1024),
          .eprint (bytes "bs=4096, sz=8796093022208 bytes\n"), .ioctl .NBD_CLEAR_SOCK,
          .ioctl (.NBD_SET_FLAGS 2), .ioctl (.BLKROSET 1)]) := by
  decide


/-! ## `mcast_callback` -/

theorem failedDials_succ (tr : List Event) (n : Nat) :
    tr ++ [.dial, .sleep 1] ++ failedDials n = tr ++ failedDials (n + 1) := by
  rw [List.append_assoc]
  rfl

theorem failedDials_count (n : Nat) : (failedDials n).count .dial = n := by
  induction n with
  | zero => rfl
  | succ n ih =>
    show ([Event.dial, Event.sleep 1] ++ failedDials n).count .dial = n + 1
    rw [List.count_append, ih]
    have : List.count Event.dial [Event.dial, Event.sleep 1] = 1 := by decide
    omega

/-- When every dial fails, the loop makes one attempt and then one more for each
value of `retries` below `dead_timeout`. -/
theorem redial_all_fail (dial : Dialer) (d : Int) (hdial : ∀ t, dial t = none) :
    ∀ (fuel : Nat) (retries : Int) (tr : List Event), (d - retries).toNat < fuel →
      redial dial d fuel retries tr
        = some (none, tr ++ failedDials ((d - retries).toNat + 1)) := by
  intro fuel
  induction fuel with
  | zero =>
    intro retries tr h
    omega
  | succ fuel ih =>
    intro retries tr h
    unfold redial
    rw [hdial tr]
    by_cases hr : retries < d
    · simp only [if_pos hr]
      rw [ih (retries + 1) _ (by omega), failedDials_succ]
      have : (d - (retries + 1)).toNat + 1 = (d - retries).toNat := by omega
      rw [this]
    · simp only [if_neg hr]
      have : (d - retries).toNat = 0 := by omega
      rw [this]
      rfl

/-- When the first `k` dials fail and the next one gives a socket, with
`retries + k` not above `dead_timeout`, the loop ends at that dial. -/
theorem redial_success (dial : Dialer) (d : Int) (s : Nat) :
    ∀ (k fuel : Nat) (retries : Int) (tr : List Event),
      (∀ j, j < k → dial (tr ++ failedDials j) = none) →
      dial (tr ++ failedDials k) = some s → retries + k ≤ d → k < fuel →
      redial dial d fuel retries tr = some (some s, tr ++ failedDials k ++ [.dial]) := by
  intro k
  induction k with
  | zero =>
    intro fuel retries tr _ hs _ hfuel
    cases fuel with
    | zero => omega
    | succ fuel =>
      unfold redial
      have hs' : dial tr = some s := by
        have h := hs
        simp only [failedDials, List.append_nil] at h
        exact h
      rw [hs']
      simp [failedDials]
  | succ k ih =>
    intro fuel retries tr hfail hs hle hfuel
    cases fuel with
    | zero => omega
    | succ fuel =>
      unfold redial
      have h0 : dial tr = none := by
        have h := hfail 0 (by omega)
        simp only [failedDials, List.append_nil] at h
        exact h
      rw [h0]
      have hr : retries < d := by omega
      simp only [if_pos hr]
      rw [ih fuel (retries + 1) (tr ++ [Event.dial, Event.sleep 1])
        (fun j hj => by rw [failedDials_succ]; exact hfail (j + 1) (by omega))
        (by rw [failedDials_succ]; exact hs) (by push_cast at hle ⊢; omega) (by omega),
        failedDials_succ]

/-- C15, as stated, fails: with `dead_timeout` 1 and every dial refused,
`mcast_callback` dials twice before it gives up. -/
theorem mcast_callback_dials_twice :
    mcast_callback refusingEnv 2 ⟨bytes "export", 1⟩ ⟨NBD_CMD_LINK_DEAD, true, some 4⟩ []
      = some (.ret .NL_OK, [.print (bytes "disconnect on index 4\n"), .dial, .sleep 1, .dial,
          .sleep 1, .err_nonfatal "Couldn't reconnect to the server"]) ∧
    List.count Event.dial [.print (bytes "disconnect on index 4\n"), .dial, .sleep 1, .dial,
          .sleep 1, .err_nonfatal "Couldn't reconnect to the server"] = 2 ∧
    ¬ 2 ≤ 1 := by
  decide

/-- C15, amended: on a `LINK_DEAD` notification with an index, when every dial
fails, `mcast_callback` makes exactly `dead_timeout + 1` attempts (one attempt
for a `dead_timeout` of 0 or below), each followed by `sleep(1)`, then reports
that it could not reconnect and returns `NL_OK`: it does not negotiate and it
sends no `RECONFIGURE`.  When the first `k` dials fail and the next one
succeeds, with `k` not above `dead_timeout`, the loop stops at that dial. -/
theorem mcast_callback_dial_attempts (env : Env) (fuel : Nat) (hinfo : HostInfo) (msg : NlMsg)
    (tr : List Event) (index : Nat)
    (hcmd : msg.cmd = NBD_CMD_LINK_DEAD) (hparse : msg.parse_ok = true)
    (hidx : msg.index = some index) (hfuel : hinfo.dead_timeout.toNat < fuel) :
    ((∀ t, env.dial t = none) →
      mcast_callback env fuel hinfo msg tr = some (.ret .NL_OK,
        tr ++ [.print (bytes "disconnect on index " ++ intText (toInt32 index) ++ bytes "\n")]
          ++ failedDials (hinfo.dead_timeout.toNat + 1)
          ++ [.err_nonfatal "Couldn't reconnect to the server"])) ∧
    (∀ n, (failedDials n).count .dial = n ∧ Event.negotiate ∉ failedDials n ∧
      ∀ i s, Event.reconfigure i s ∉ failedDials n) ∧
    (∀ (k s : Nat) (tr0 : List Event), (k : Int) ≤ hinfo.dead_timeout →
      (∀ j, j < k → env.dial (tr0 ++ failedDials j) = none) →
      env.dial (tr0 ++ failedDials k) = some s →
      redial env.dial hinfo.dead_timeout fuel 0 tr0
        = some (some s, tr0 ++ failedDials k ++ [.dial])) := by
  refine ⟨?_, ?_, ?_⟩
  · intro hdial
    unfold mcast_callback
    simp only [hcmd, ne_eq, not_true_eq_false, if_false, hparse, hidx]
    rw [redial_all_fail env.dial hinfo.dead_timeout hdial fuel 0 _ (by simpa using hfuel)]
    simp
  · intro n
    refine ⟨failedDials_count n, ?_, ?_⟩
    · induction n with
      | zero => simp [failedDials]
      | succ n ih => simp [failedDials, ih]
    · intro i s
      induction n with
      | zero => simp [failedDials]
      | succ n ih => simp [failedDials, ih]
  · intro k s tr0 hk hfail hs
    exact redial_success env.dial hinfo.dead_timeout s k fuel 0 tr0 hfail hs (by omega) (by omega)

theorem mcast_callback_dial_attempts_witness :
    ((∀ t, refusingEnv.dial t = none) →
      mcast_callback refusingEnv 5 ⟨bytes "export", 3⟩ ⟨NBD_CMD_LINK_DEAD, true, some 4⟩ []
        = some (.ret .NL_OK,
        [] ++ [.print (bytes "disconnect on index " ++ intText (toInt32 4) ++ bytes "\n")]
          ++ failedDials ((3 : Int).toNat + 1)
          ++ [.err_nonfatal "Couldn't reconnect to the server"])) ∧
    (∀ n, (failedDials n).count .dial = n ∧ Event.negotiate ∉ failedDials n ∧
      ∀ i s, Event.reconfigure i s ∉ failedDials n) ∧
    (∀ (k s : Nat) (tr0 : List Event), (k : Int) ≤ 3 →
      (∀ j, j < k → refusingEnv.dial (tr0 ++ failedDials j) = none) →
      refusingEnv.dial (tr0 ++ failedDials k) = some s →
      redial refusingEnv.dial 3 5 0 tr0
        = some (some s, tr0 ++ failedDials k ++ [.dial])) :=
  mcast_callback_dial_attempts refusingEnv 5 ⟨bytes "export", 3⟩ ⟨NBD_CMD_LINK_DEAD, true, some 4⟩
    [] 4 rfl rfl rfl (by decide)

/-- With `dead_timeout` 0 and every dial refused, `mcast_callback` dials once. -/
theorem mcast_callback_dead_timeout_zero :
    mcast_callback refusingEnv 1 ⟨bytes "export", 0⟩ ⟨NBD_CMD_LINK_DEAD, true, some 4⟩ []
      = some (.ret .NL_OK, [.print (bytes "disconnect on index 4\n"), .dial, .sleep 1,
          .err_nonfatal "Couldn't reconnect to the server"]) := by
  decide

set_option maxRecDepth 100000 in
/-- The scenario of a dead link: with `dead_timeout` 3, on `LINK_DEAD` for the
index 4, the first two dials fail and the third gives a socket; the client
negotiates on it and sends `RECONFIGURE` for the index 4 with that one socket. -/
theorem mcast_callback_third_dial :
    mcast_callback flakyEnv 4 ⟨bytes "export", 3⟩ ⟨NBD_CMD_LINK_DEAD, true, some 4⟩ []
      = some (.ret .NL_OK, [.print (bytes "disconnect on index 4\n"), .dial, .sleep 1, .dial,
          .sleep 1, .dial, .negotiate, .reconfigure 4 7, .close_sock]) := by
  decide

/-- A notification that is not `LINK_DEAD` is skipped: nothing is done. -/
theorem mcast_callback_other_command (env : Env) (fuel : Nat) (hinfo : HostInfo) (msg : NlMsg)
    (tr : List Event) (h : msg.cmd ≠ NBD_CMD_LINK_DEAD) :
    mcast_callback env fuel hinfo msg tr = some (.ret .NL_SKIP, tr) := by
  unfold mcast_callback
  simp [h]


/-! ## The attach loop of `main` -/

/-- A size `negotiate` returns has passed its check against `unsigned long`. -/
theorem negotiate_ret_fits (ulong_bits : Nat) (le : Bool) (garbage : List Nat × List Nat)
    (fuel : Nat) (name : List Nat) (needed c opts : Nat) (w w' : World) (v : Nat × Nat)
    (h : negotiate ulong_bits le garbage fuel name needed c opts w = some (.ret v, w')) :
    ¬ v.1 >>> 12 > 2 ^ ulong_bits - 1 := by
  simp only [negotiate] at h
  split at h
  · simp at h
  split at h
  · simp at h
  split at h
  · simp at h
  split at h
  · simp at h
  split at h
  · simp at h
  split at h
  · simp at h
  split at h
  · split at h <;> simp at h
  split at h
  · simp at h
  split at h
  · simp at h
  rename_i hfit
  split at h
  · simp at h
  split at h
  · simp at h
  simp only [Option.some.injEq, Prod.mk.injEq, Res.ret.injEq] at h
  rw [← h.1]
  exact hfit

/-- With a kernel that accepts the requests, `setsizes` returns for every size
that passes its check and every block size that is not 0. -/
theorem setsizes_accepted (w : Nat) (kernel : Kernel) (tr : List Event) (size64 : Nat)
    (blocksize : Int) (flags : Nat) (hk : ∀ t r, r ≠ .NBD_DO_IT → kernel t r = none)
    (hb : toU64 blocksize ≠ 0) (hfit : ¬ size64 >>> 12 > 2 ^ w - 1) :
    ∃ rest, setsizes w kernel tr size64 blocksize flags = some (.ret (), tr ++ rest) ∧
      Event.ioctl .NBD_DO_IT ∉ rest := by
  have hblocks : ∃ rest, setsizes_blocks w kernel tr size64 blocksize = some (.ret (), tr ++ rest)
      ∧ Event.ioctl .NBD_DO_IT ∉ rest := by
    unfold setsizes_blocks
    rw [if_neg hb]
    simp only []
    generalize (if size64 / toU64 blocksize ≤ 2 ^ w - 1 then blocksize else 4096) = tmp
    rw [hk _ _ (by simp), hk _ _ (by simp)]
    simp only []
    by_cases hne : tmp = blocksize
    · rw [if_neg (by simpa using hne)]
      refine ⟨[.ioctl (.NBD_SET_BLKSIZE tmp),
        .ioctl (.NBD_SET_SIZE_BLOCKS (size64 / toU64 tmp % 2 ^ w)),
        .eprint (bytes "bs=" ++ intText tmp ++ bytes ", sz="
          ++ decimal ((toU64 tmp * (size64 / toU64 tmp % 2 ^ w)) % 2 ^ 64)
          ++ bytes " bytes\n")], ?_, by simp⟩
      simp
    · rw [if_pos (by simpa using hne), hk _ _ (by simp)]
      refine ⟨[.ioctl (.NBD_SET_BLKSIZE tmp),
        .ioctl (.NBD_SET_SIZE_BLOCKS (size64 / toU64 tmp % 2 ^ w)),
        .ioctl (.NBD_SET_BLKSIZE (blocksize % 2 ^ w)),
        .eprint (bytes "bs=" ++ intText tmp ++ bytes ", sz="
          ++ decimal ((toU64 tmp * (size64 / toU64 tmp % 2 ^ w)) % 2 ^ 64)
          ++ bytes " bytes\n")], ?_, by simp⟩
      simp
  obtain ⟨rest, hrest, hno⟩ := hblocks
  unfold setsizes
  simp only []
  rw [if_neg hfit, hrest]
  simp only []
  rw [hk _ _ (by simp)]
  refine ⟨rest ++ [.ioctl .NBD_CLEAR_SOCK, .ioctl (.NBD_SET_FLAGS flags),
    .ioctl (.BLKROSET (if flags &&& NBD_FLAG_READ_ONLY ≠ 0 then 1 else 0))], ?_, by simp [hno]⟩
  simp

/-- With a kernel that accepts the requests, `set_timeout` returns. -/
theorem set_timeout_accepted (w : Nat) (kernel : Kernel) (tr : List Event) (timeout : Int)
    (hk : ∀ t r, r ≠ .NBD_DO_IT → kernel t r = none) :
    ∃ rest, set_timeout w kernel tr timeout = (.ret (), tr ++ rest) ∧
      Event.ioctl .NBD_DO_IT ∉ rest := by
  unfold set_timeout
  by_cases ht : timeout = 0
  · rw [if_neg (by simpa using ht)]
    exact ⟨[], by simp, by simp⟩
  · rw [if_pos (by simpa using ht), hk _ _ (by simp)]
    exact ⟨[.ioctl (.NBD_SET_TIMEOUT (timeout % 2 ^ w).toNat),
      .eprint (bytes "timeout=" ++ intText timeout ++ bytes "\n")], by simp, by simp⟩

/-- With a kernel that accepts the requests, `finish_sock` returns. -/
theorem finish_sock_accepted (kernel : Kernel) (tr : List Event) (sock : Nat) (swap : Int)
    (hk : ∀ t r, r ≠ .NBD_DO_IT → kernel t r = none) :
    ∃ rest, finish_sock kernel tr sock swap = (.ret (), tr ++ rest) ∧
      Event.ioctl .NBD_DO_IT ∉ rest := by
  unfold finish_sock
  rw [hk _ _ (by simp)]
  by_cases hs : swap = 0
  · simp only []
    rw [if_neg (by simpa using hs)]
    exact ⟨[.ioctl (.NBD_SET_SOCK sock)], by simp, by simp⟩
  · simp only []
    rw [if_pos (by simpa using hs)]
    exact ⟨[.ioctl (.NBD_SET_SOCK sock), .mlockall], by simp, by simp⟩

theorem failedReconnects_succ (tr : List Event) (n : Nat) :
    tr ++ [.eprint (bytes " Reconnecting\n"), .dial, .sleep 1] ++ failedReconnects n
      = tr ++ failedReconnects (n + 1) := by
  rw [List.append_assoc]
  rfl

/-- What the loop `for (;;)` has done when it ends: some dials that failed, and
one that gave the socket. -/
theorem reconnect_dial_trace (dial : Dialer) :
    ∀ (fuel : Nat) (tr tr1 : List Event) (sock : Nat),
      reconnect_dial dial fuel tr = some (sock, tr1) →
      ∃ k, k < fuel ∧ tr1 = tr ++ failedReconnects k
        ++ [.eprint (bytes " Reconnecting\n"), .dial] := by
  intro fuel
  induction fuel with
  | zero =>
    intro tr tr1 sock h
    simp [reconnect_dial] at h
  | succ fuel ih =>
    intro tr tr1 sock h
    unfold reconnect_dial at h
    split at h
    · simp only [Option.some.injEq, Prod.mk.injEq] at h
      exact ⟨0, by omega, by rw [← h.2]; simp [failedReconnects]⟩
    · obtain ⟨k, hk, hk2⟩ := ih _ _ _ h
      exact ⟨k + 1, by omega, by rw [hk2, failedReconnects_succ]⟩

/-- The loop `for (;;)` ends at the first dial that gives a socket, when the
fuel is enough for the dials before it. -/
theorem reconnect_dial_success (dial : Dialer) (sock : Nat) :
    ∀ (k fuel : Nat) (tr : List Event),
      (∀ j, j < k →
        dial (tr ++ failedReconnects j ++ [.eprint (bytes " Reconnecting\n")]) = none) →
      dial (tr ++ failedReconnects k ++ [.eprint (bytes " Reconnecting\n")]) = some sock →
      k < fuel →
      reconnect_dial dial fuel tr
        = some (sock, tr ++ failedReconnects k ++ [.eprint (bytes " Reconnecting\n"), .dial]) := by
  intro k
  induction k with
  | zero =>
    intro fuel tr _ hs hfuel
    cases fuel with
    | zero => omega
    | succ fuel =>
      unfold reconnect_dial
      have hs' : dial (tr ++ [.eprint (bytes " Reconnecting\n")]) = some sock := by
        have h := hs
        simp only [failedReconnects, List.append_nil] at h
        exact h
      rw [hs']
      simp [failedReconnects]
  | succ k ih =>
    intro fuel tr hfail hs hfuel
    cases fuel with
    | zero => omega
    | succ fuel =>
      unfold reconnect_dial
      have h0 : dial (tr ++ [.eprint (bytes " Reconnecting\n")]) = none := by
        have h := hfail 0 (by omega)
        simp only [failedReconnects, List.append_nil] at h
        exact h
      rw [h0]
      simp only []
      rw [ih fuel (tr ++ [Event.eprint (bytes " Reconnecting\n"), Event.dial, Event.sleep 1])
        (fun j hj => by rw [failedReconnects_succ]; exact hfail (j + 1) (by omega))
        (by rw [failedReconnects_succ]; exact hs) (by omega),
        failedReconnects_succ]


/-- When the block that `if(cont)` guards returns, the negotiation has given the
size of before, and only `sock` has changed. -/
theorem reconnect_ret (env : Env) (fuel : Nat) (v v' : MainVars) (tr tr' : List Event)
    (h : reconnect env fuel v tr = some (.ret v', tr')) :
    ∃ sock tr1 new_flags w',
      reconnect_dial env.dial fuel (tr ++ [.close_sock, .close_nbd]) = some (sock, tr1) ∧
      env.open_nbd tr1 = true ∧
      negotiate env.ulong_bits env.le env.garbage fuel v.name v.needed_flags v.cflags v.opts
        ⟨env.stream (tr1 ++ [.open_nbd]), [], [], []⟩ = some (.ret (v.size64, new_flags), w') ∧
      v' = { v with sock := sock } := by
  unfold reconnect at h
  split at h
  · simp at h
  rename_i sock tr1 hdial
  split at h
  · simp at h
  rename_i hopen
  simp only [] at h
  split at h
  · simp at h
  · simp at h
  · simp at h
  rename_i new_size new_flags w' hneg
  split at h
  · simp at h
  rename_i hsize
  split at h
  · simp at h
  · simp at h
  · simp at h
  split at h
  · simp at h
  · simp at h
  split at h
  · simp at h
  · simp at h
  simp only [Option.some.injEq, Prod.mk.injEq, Res.ret.injEq] at h
  have hsz : v.size64 = new_size := not_not.1 hsize
  refine ⟨sock, tr1, new_flags, w', hdial, by simpa using hopen, ?_, h.1.symm⟩
  rw [hneg, hsz]

/-- When the dial, the opening of the device and the negotiation succeed, the
size is the one of before and the kernel accepts the requests, the block that
`if(cont)` guards returns with the new socket. -/
theorem reconnect_accepted (env : Env) (fuel : Nat) (v : MainVars) (tr tr1 : List Event)
    (sock new_flags : Nat) (w' : World)
    (hdial : reconnect_dial env.dial fuel (tr ++ [.close_sock, .close_nbd]) = some (sock, tr1))
    (hopen : env.open_nbd tr1 = true)
    (hneg : negotiate env.ulong_bits env.le env.garbage fuel v.name v.needed_flags v.cflags
      v.opts ⟨env.stream (tr1 ++ [.open_nbd]), [], [], []⟩
        = some (.ret (v.size64, new_flags), w'))
    (hb : toU64 v.blocksize ≠ 0) (hk : ∀ t r, r ≠ .NBD_DO_IT → env.kernel t r = none) :
    ∃ rest, Event.ioctl .NBD_DO_IT ∉ rest ∧
      reconnect env fuel v tr
        = some (.ret { v with sock := sock }, tr1 ++ [.open_nbd, .negotiate] ++ rest) := by
  have hfit := negotiate_ret_fits _ _ _ _ _ _ _ _ _ _ _ hneg
  obtain ⟨r1, h1, n1⟩ := setsizes_accepted env.ulong_bits env.kernel
    (tr1 ++ [.open_nbd] ++ [.negotiate]) v.size64 v.blocksize new_flags hk hb hfit
  obtain ⟨r2, h2, n2⟩ := set_timeout_accepted env.ulong_bits env.kernel
    (tr1 ++ [.open_nbd] ++ [.negotiate] ++ r1) v.timeout hk
  obtain ⟨r3, h3, n3⟩ := finish_sock_accepted env.kernel
    (tr1 ++ [.open_nbd] ++ [.negotiate] ++ r1 ++ r2) sock v.swap hk
  refine ⟨r1 ++ r2 ++ r3, by simp [n1, n2, n3], ?_⟩
  unfold reconnect
  rw [hdial]
  simp only [hopen, not_true_eq_false, if_false]
  rw [hneg]
  simp only [ne_eq, not_true_eq_false, if_false]
  rw [h1]
  simp only []
  rw [h2]
  simp only []
  rw [h3]
  simp

/-- When the negotiation gives another size, the block that `if(cont)` guards
ends with the diagnostic, right after the negotiation. -/
theorem reconnect_size_changed (env : Env) (fuel : Nat) (v : MainVars) (tr tr1 : List Event)
    (sock new_size new_flags : Nat) (w' : World)
    (hdial : reconnect_dial env.dial fuel (tr ++ [.close_sock, .close_nbd]) = some (sock, tr1))
    (hopen : env.open_nbd tr1 = true)
    (hneg : negotiate env.ulong_bits env.le env.garbage fuel v.name v.needed_flags v.cflags
      v.opts ⟨env.stream (tr1 ++ [.open_nbd]), [], [], []⟩
        = some (.ret (new_size, new_flags), w'))
    (hsize : new_size ≠ v.size64) :
    reconnect env fuel v tr
      = some (.err "Size of the device changed. Bye", tr1 ++ [.open_nbd, .negotiate]) := by
  unfold reconnect
  rw [hdial]
  simp only [hopen, not_true_eq_false, if_false]
  rw [hneg]
  simp only [ne_eq]
  rw [if_pos (fun h => hsize h.symm)]
  simp


/-- Whatever `setsizes_blocks` does is added to what happened before. -/
theorem setsizes_blocks_extends (w : Nat) (kernel : Kernel) (tr tr' : List Event) (size64 : Nat)
    (blocksize : Int) (r : Res Unit)
    (h : setsizes_blocks w kernel tr size64 blocksize = some (r, tr')) : tr <+: tr' := by
  unfold setsizes_blocks at h
  by_cases h0 : toU64 blocksize = 0
  · rw [if_pos h0] at h
    simp at h
  rw [if_neg h0] at h
  simp only [] at h
  generalize (if size64 / toU64 blocksize ≤ 2 ^ w - 1 then blocksize else 4096) = tmp at h
  split at h
  · simp only [Option.some.injEq, Prod.mk.injEq] at h
    rw [← h.2]
    exact List.prefix_append _ _
  split at h
  · simp only [Option.some.injEq, Prod.mk.injEq] at h
    rw [← h.2, List.append_assoc]
    exact List.prefix_append _ _
  split at h
  · split at h
    · simp only [Option.some.injEq, Prod.mk.injEq] at h
      rw [← h.2, List.append_assoc, List.append_assoc]
      exact List.prefix_append _ _
    · simp only [Option.some.injEq, Prod.mk.injEq] at h
      rw [← h.2, List.append_assoc, List.append_assoc]
      exact List.prefix_append _ _
  · simp only [Option.some.injEq, Prod.mk.injEq] at h
    rw [← h.2, List.append_assoc, List.append_assoc]
    exact List.prefix_append _ _

/-- Whatever `setsizes` does is added to what happened before. -/
theorem setsizes_extends (w : Nat) (kernel : Kernel) (tr tr' : List Event) (size64 : Nat)
    (blocksize : Int) (flags : Nat) (r : Res Unit)
    (h : setsizes w kernel tr size64 blocksize flags = some (r, tr')) : tr <+: tr' := by
  unfold setsizes at h
  simp only [] at h
  split at h
  · simp only [Option.some.injEq, Prod.mk.injEq] at h
    rw [← h.2]
  split at h
  · simp at h
  · rename_i heq
    simp only [Option.some.injEq, Prod.mk.injEq] at h
    rw [← h.2]
    exact setsizes_blocks_extends _ _ _ _ _ _ _ heq
  · rename_i heq
    simp only [Option.some.injEq, Prod.mk.injEq] at h
    rw [← h.2]
    exact setsizes_blocks_extends _ _ _ _ _ _ _ heq
  · rename_i tr1 heq
    have h1 := setsizes_blocks_extends _ _ _ _ _ _ _ heq
    split at h
    · simp only [Option.some.injEq, Prod.mk.injEq] at h
      rw [← h.2, List.append_assoc]
      exact h1.trans (List.prefix_append _ _)
    · simp only [Option.some.injEq, Prod.mk.injEq] at h
      rw [← h.2, List.append_assoc]
      exact h1.trans (List.prefix_append _ _)

/-- Whatever `set_timeout` does is added to what happened before. -/
theorem set_timeout_extends (w : Nat) (kernel : Kernel) (tr : List Event) (timeout : Int) :
    tr <+: (set_timeout w kernel tr timeout).2 := by
  unfold set_timeout
  split
  · split
    · exact List.prefix_append _ _
    · exact List.prefix_append _ _
  · exact List.prefix_refl _

/-- Whatever `finish_sock` does is added to what happened before. -/
theorem finish_sock_extends (kernel : Kernel) (tr : List Event) (sock : Nat) (swap : Int) :
    tr <+: (finish_sock kernel tr sock swap).2 := by
  unfold finish_sock
  split
  · split
    · exact List.prefix_append _ _
    · exact List.prefix_append _ _
  · split
    · exact List.prefix_append _ _
    · exact List.prefix_append _ _

/-- Whatever the block that `if(cont)` guards does is added to what happened
before. -/
theorem reconnect_extends (env : Env) (fuel : Nat) (v : MainVars) (tr tr' : List Event)
    (r : Res MainVars) (h : reconnect env fuel v tr = some (r, tr')) : tr <+: tr' := by
  unfold reconnect at h
  split at h
  · simp at h
  rename_i sock tr1 hdial
  obtain ⟨k, -, hk⟩ := reconnect_dial_trace env.dial fuel _ tr1 sock hdial
  have h1 : tr <+: tr1 := by
    rw [hk, List.append_assoc, List.append_assoc]
    exact List.prefix_append _ _
  split at h
  · simp only [Option.some.injEq, Prod.mk.injEq] at h
    rw [← h.2]
    exact h1.trans (List.prefix_append _ _)
  simp only [] at h
  have h2 : tr <+: tr1 ++ [Event.open_nbd] ++ [Event.negotiate] := by
    rw [List.append_assoc]
    exact h1.trans (List.prefix_append _ _)
  split at h
  · simp at h
  · simp only [Option.some.injEq, Prod.mk.injEq] at h
    rw [← h.2]
    exact h2
  · simp only [Option.some.injEq, Prod.mk.injEq] at h
    rw [← h.2]
    exact h2
  split at h
  · simp only [Option.some.injEq, Prod.mk.injEq] at h
    rw [← h.2]
    exact h2
  split at h
  · simp at h
  · rename_i heq
    simp only [Option.some.injEq, Prod.mk.injEq] at h
    rw [← h.2]
    exact h2.trans (setsizes_extends _ _ _ _ _ _ _ _ heq)
  · rename_i heq
    simp only [Option.some.injEq, Prod.mk.injEq] at h
    rw [← h.2]
    exact h2.trans (setsizes_extends _ _ _ _ _ _ _ _ heq)
  rename_i tr2 heq
  have h3 := h2.trans (setsizes_extends _ _ _ _ _ _ _ _ heq)
  have h4 := h3.trans (set_timeout_extends env.ulong_bits env.kernel tr2 v.timeout)
  split at h
  · rename_i heq2
    rw [heq2] at h4
    simp only [Option.some.injEq, Prod.mk.injEq] at h
    rw [← h.2]
    exact h4
  · rename_i heq2
    rw [heq2] at h4
    simp only [Option.some.injEq, Prod.mk.injEq] at h
    rw [← h.2]
    exact h4
  rename_i tr3 heq2
  rw [heq2] at h4
  have h4' : tr <+: tr3 := h4
  have h5 := h4'.trans (finish_sock_extends env.kernel tr3 sock v.swap)
  split at h
  · rename_i heq3
    rw [heq3] at h5
    simp only [Option.some.injEq, Prod.mk.injEq] at h
    rw [← h.2]
    exact h5
  · rename_i heq3
    rw [heq3] at h5
    simp only [Option.some.injEq, Prod.mk.injEq] at h
    rw [← h.2]
    exact h5
  · rename_i heq3
    rw [heq3] at h5
    simp only [Option.some.injEq, Prod.mk.injEq] at h
    rw [← h.2]
    exact h5

/-- Every pass of the attach loop starts with the fork of the helper and the
call of `NBD_DO_IT`. -/
theorem do_it_step_enters (env : Env) (fuel : Nat) (v : MainVars) (tr tr' : List Event)
    (r : Res MainVars) (h : do_it_step env fuel v tr = some (r, tr')) :
    tr ++ [.fork, .ioctl .NBD_DO_IT] <+: tr' := by
  unfold do_it_step at h
  simp only [] at h
  have hp : ∀ error, tr ++ [Event.fork, Event.ioctl .NBD_DO_IT]
      <+: tr ++ [Event.fork] ++ kernel_call_returned v.main_pid error := by
    intro error
    unfold kernel_call_returned
    exact ⟨[.eprint (bytes "nbd," ++ intText v.main_pid ++ bytes ": Kernel call returned: "
      ++ decimal error)], by simp⟩
  split at h
  · rename_i error herr
    split at h
    · simp only [Option.some.injEq, Prod.mk.injEq] at h
      rw [← h.2]
      exact hp error
    · split at h
      · exact (hp error).trans (reconnect_extends _ _ _ _ _ _ h)
      · simp only [Option.some.injEq, Prod.mk.injEq] at h
        rw [← h.2]
        exact hp error
  · simp only [Option.some.injEq, Prod.mk.injEq] at h
    rw [← h.2]
    exact ⟨[.eprint (bytes "Kernel call returned.")], by simp⟩

/-- Whatever the attach loop does, it has first forked the helper and called
`NBD_DO_IT`. -/
theorem attach_loop_enters (env : Env) (fuel : Nat) :
    ∀ (passes : Nat) (v : MainVars) (tr tr' : List Event) (r : Res Int),
      attach_loop env fuel passes v tr = some (r, tr') →
      tr ++ [.fork, .ioctl .NBD_DO_IT] <+: tr' := by
  intro passes
  induction passes with
  | zero =>
    intro v tr tr' r h
    simp [attach_loop] at h
  | succ passes ih =>
    intro v tr tr' r h
    rw [attach_loop] at h
    split at h
    · simp at h
    · rename_i heq
      simp only [Option.some.injEq, Prod.mk.injEq] at h
      rw [← h.2]
      exact do_it_step_enters _ _ _ _ _ _ heq
    · rename_i heq
      simp only [Option.some.injEq, Prod.mk.injEq] at h
      rw [← h.2]
      exact do_it_step_enters _ _ _ _ _ _ heq
    · rename_i v1 tr1 heq
      have h1 := do_it_step_enters _ _ _ _ _ _ heq
      split at h
      · have h2 := ih _ _ _ _ h
        exact h1.trans ((List.prefix_append _ _).trans h2)
      · simp only [Option.some.injEq, Prod.mk.injEq] at h
        rw [← h.2]
        exact h1.trans (List.prefix_append _ _)


/-- What `setsizes_blocks` has done when it returns, in full. -/
theorem setsizes_blocks_ret_eq (w : Nat) (kernel : Kernel) (tr tr' : List Event) (size64 : Nat)
    (blocksize tmp : Int)
    (htmp : tmp = if size64 / toU64 blocksize ≤ 2 ^ w - 1 then blocksize else 4096)
    (h : setsizes_blocks w kernel tr size64 blocksize = some (.ret (), tr')) :
    tr' = tr ++ ([.ioctl (.NBD_SET_BLKSIZE tmp),
        .ioctl (.NBD_SET_SIZE_BLOCKS (size64 / toU64 tmp % 2 ^ w))]
      ++ (if tmp ≠ blocksize then [.ioctl (.NBD_SET_BLKSIZE (blocksize % 2 ^ w))] else [])
      ++ [.eprint (bytes "bs=" ++ intText tmp ++ bytes ", sz="
          ++ decimal (toU64 tmp * (size64 / toU64 tmp % 2 ^ w) % 2 ^ 64) ++ bytes " bytes\n")])
      := by
  unfold setsizes_blocks at h
  by_cases h0 : toU64 blocksize = 0
  · rw [if_pos h0] at h
    simp at h
  rw [if_neg h0] at h
  simp only [] at h
  rw [← htmp] at h
  split at h
  · simp at h
  split at h
  · simp at h
  split at h
  · rename_i hne
    split at h
    · simp at h
    · simp only [Option.some.injEq, Prod.mk.injEq, true_and] at h
      rw [← h, if_pos hne]
      simp
  · rename_i hne
    simp only [Option.some.injEq, Prod.mk.injEq, true_and] at h
    rw [← h, if_neg hne]
    simp

/-- What `setsizes` has done when it returns, in full. -/
theorem setsizes_ret_eq (w : Nat) (kernel : Kernel) (tr tr' : List Event) (size64 : Nat)
    (blocksize tmp : Int) (flags : Nat)
    (htmp : tmp = if size64 / toU64 blocksize ≤ 2 ^ w - 1 then blocksize else 4096)
    (h : setsizes w kernel tr size64 blocksize flags = some (.ret (), tr')) :
    tr' = tr ++ ([.ioctl (.NBD_SET_BLKSIZE tmp),
        .ioctl (.NBD_SET_SIZE_BLOCKS (size64 / toU64 tmp % 2 ^ w))]
      ++ (if tmp ≠ blocksize then [.ioctl (.NBD_SET_BLKSIZE (blocksize % 2 ^ w))] else [])
      ++ [.eprint (bytes "bs=" ++ intText tmp ++ bytes ", sz="
          ++ decimal (toU64 tmp * (size64 / toU64 tmp % 2 ^ w) % 2 ^ 64) ++ bytes " bytes\n"),
        .ioctl .NBD_CLEAR_SOCK, .ioctl (.NBD_SET_FLAGS flags),
        .ioctl (.BLKROSET (if flags &&& NBD_FLAG_READ_ONLY ≠ 0 then 1 else 0))]) := by
  obtain ⟨-, tr1, hblocks, rfl⟩ := setsizes_ret w kernel tr tr' size64 blocksize flags h
  rw [setsizes_blocks_ret_eq w kernel tr tr1 size64 blocksize tmp htmp hblocks]
  simp

/-- What `set_timeout` has done when it returns, in full. -/
theorem set_timeout_ret_eq (w : Nat) (kernel : Kernel) (tr tr' : List Event) (timeout : Int)
    (h : set_timeout w kernel tr timeout = (.ret (), tr')) :
    tr' = tr ++ (if timeout ≠ 0 then
        [.ioctl (.NBD_SET_TIMEOUT (timeout % 2 ^ w).toNat),
          .eprint (bytes "timeout=" ++ intText timeout ++ bytes "\n")]
      else []) := by
  unfold set_timeout at h
  split at h
  · rename_i ht
    rw [if_pos ht]
    split at h
    · simp at h
    · simp only [Prod.mk.injEq, true_and] at h
      exact h.symm
  · rename_i ht
    rw [if_neg ht]
    simp only [Prod.mk.injEq, true_and] at h
    rw [← h]
    simp

/-- What `finish_sock` has done when it returns, in full. -/
theorem finish_sock_ret_eq (kernel : Kernel) (tr tr' : List Event) (sock : Nat) (swap : Int)
    (h : finish_sock kernel tr sock swap = (.ret (), tr')) :
    tr' = tr ++ ([.ioctl (.NBD_SET_SOCK sock)] ++ (if swap ≠ 0 then [.mlockall] else [])) := by
  unfold finish_sock at h
  split at h
  · split at h <;> simp at h
  · split at h
    · rename_i hs
      rw [if_pos hs]
      simp only [Prod.mk.injEq, true_and] at h
      rw [← h]
      simp
    · rename_i hs
      rw [if_neg hs]
      simp only [Prod.mk.injEq, true_and] at h
      rw [← h]
      simp

/-- What the loop `for (;;)` has done when it ends, and the dial that ended
it. -/
theorem reconnect_dial_ret (dial : Dialer) :
    ∀ (fuel : Nat) (tr tr1 : List Event) (sock : Nat),
      reconnect_dial dial fuel tr = some (sock, tr1) →
      ∃ k, k < fuel ∧
        (∀ j, j < k →
          dial (tr ++ failedReconnects j ++ [.eprint (bytes " Reconnecting\n")]) = none) ∧
        dial (tr ++ failedReconnects k ++ [.eprint (bytes " Reconnecting\n")]) = some sock ∧
        tr1 = tr ++ failedReconnects k ++ [.eprint (bytes " Reconnecting\n"), .dial] := by
  intro fuel
  induction fuel with
  | zero =>
    intro tr tr1 sock h
    simp [reconnect_dial] at h
  | succ fuel ih =>
    intro tr tr1 sock h
    unfold reconnect_dial at h
    split at h
    · rename_i s hs
      simp only [Option.some.injEq, Prod.mk.injEq] at h
      refine ⟨0, by omega, fun j hj => by omega, ?_, ?_⟩
      · rw [← h.1]
        simpa [failedReconnects] using hs
      · rw [← h.2]
        simp [failedReconnects]
    · rename_i hn
      obtain ⟨k, hk, hfail, hs, hk2⟩ := ih _ _ _ h
      refine ⟨k + 1, by omega, ?_, ?_, ?_⟩
      · intro j hj
        cases j with
        | zero => simpa [failedReconnects] using hn
        | succ j =>
          rw [← failedReconnects_succ]
          exact hfail j (by omega)
      · rw [← failedReconnects_succ]
        exact hs
      · rw [hk2, failedReconnects_succ]

/-- When the block that `if(cont)` guards returns, after a dial loop that gave
`sock` and left `tr1`: the device was opened, the negotiation gave the size of
before, and sizes, flags, timeout and socket have been set again, in this
order. -/
theorem reconnect_ret_eq (env : Env) (fuel : Nat) (v v' : MainVars) (tr tr1 tr' : List Event)
    (sock : Nat) (tmp : Int)
    (htmp : tmp = if v.size64 / toU64 v.blocksize ≤ 2 ^ env.ulong_bits - 1 then v.blocksize
      else 4096)
    (hdial : reconnect_dial env.dial fuel (tr ++ [.close_sock, .close_nbd]) = some (sock, tr1))
    (h : reconnect env fuel v tr = some (.ret v', tr')) :
    env.open_nbd tr1 = true ∧
    ∃ new_flags w',
      negotiate env.ulong_bits env.le env.garbage fuel v.name v.needed_flags v.cflags v.opts
        ⟨env.stream (tr1 ++ [.open_nbd]), [], [], []⟩ = some (.ret (v.size64, new_flags), w') ∧
      v' = { v with sock := sock } ∧
      tr' = tr1 ++ [.open_nbd, .negotiate, .ioctl (.NBD_SET_BLKSIZE tmp),
          .ioctl (.NBD_SET_SIZE_BLOCKS (v.size64 / toU64 tmp % 2 ^ env.ulong_bits))]
        ++ (if tmp ≠ v.blocksize then
            [.ioctl (.NBD_SET_BLKSIZE (v.blocksize % 2 ^ env.ulong_bits))] else [])
        ++ [.eprint (bytes "bs=" ++ intText tmp ++ bytes ", sz="
            ++ decimal (toU64 tmp * (v.size64 / toU64 tmp % 2 ^ env.ulong_bits) % 2 ^ 64)
            ++ bytes " bytes\n"),
          .ioctl .NBD_CLEAR_SOCK, .ioctl (.NBD_SET_FLAGS new_flags),
          .ioctl (.BLKROSET (if new_flags &&& NBD_FLAG_READ_ONLY ≠ 0 then 1 else 0))]
        ++ (if v.timeout ≠ 0 then
            [.ioctl (.NBD_SET_TIMEOUT (v.timeout % 2 ^ env.ulong_bits).toNat),
              .eprint (bytes "timeout=" ++ intText v.timeout ++ bytes "\n")]
          else [])
        ++ [.ioctl (.NBD_SET_SOCK sock)]
        ++ (if v.swap ≠ 0 then [.mlockall] else []) := by
  unfold reconnect at h
  rw [hdial] at h
  simp only [] at h
  split at h
  · simp at h
  rename_i hopen
  split at h
  · simp at h
  · simp at h
  · simp at h
  rename_i new_size new_flags w' hneg
  split at h
  · simp at h
  rename_i hsize
  split at h
  · simp at h
  · simp at h
  · simp at h
  rename_i tr2 h2
  split at h
  · simp at h
  · simp at h
  rename_i tr3 h3
  split at h
  · simp at h
  · simp at h
  rename_i tr4 h4
  simp only [Option.some.injEq, Prod.mk.injEq, Res.ret.injEq] at h
  have hsz : v.size64 = new_size := not_not.1 hsize
  refine ⟨by simpa using hopen, new_flags, w', by rw [hneg, hsz], h.1.symm, ?_⟩
  rw [← h.2, finish_sock_ret_eq _ _ _ _ _ h4, set_timeout_ret_eq _ _ _ _ _ h3,
    setsizes_ret_eq _ _ _ _ _ _ tmp _ htmp h2]
  simp


/-- C14: one pass of the attach loop of `main`, after `NBD_DO_IT` has returned.
The loop goes on to another pass only if the call returned an error that is not
`EBADR`, `cont` (persist) is set and the negotiation done again gave the size
of before; what the pass has then done is, in this order: both descriptors
closed, the dials, the device opened, the negotiation, `NBD_SET_BLKSIZE` and
`NBD_SET_SIZE_BLOCKS` (and the second `NBD_SET_BLKSIZE` when 4096 was put in),
`NBD_CLEAR_SOCK`, `NBD_SET_FLAGS`, `BLKROSET`, `NBD_SET_TIMEOUT` when the
timeout is not 0, `NBD_SET_SOCK` with the new socket, `mlockall` when `swap` is
set.  And it does go on, having done exactly that, when the `k + 1`-th dial
gives a socket, the device opens, the negotiation returns the size of before
and the kernel accepts the requests: whatever the loop then ends with, it has
next forked the helper and called `NBD_DO_IT` again.  A return without error, an
`EBADR` error (whatever `cont` is) and any error without `cont` end the loop:
`main` clears the socket and returns 0.  A size that differs ends the process
with the diagnostic of the changed size right after the negotiation, before any
request on the device. -/
theorem attach_loop_reconnects (env : Env) (fuel passes : Nat) (v : MainVars)
    (tr : List Event) :
    (∀ v' tr', do_it_step env fuel v tr = some (.ret v', tr') → v'.cont ≠ 0 →
      ∃ (error sock k : Nat) (tr1 : List Event) (new_flags : Nat) (w' : World) (tmp : Int),
        env.kernel (tr ++ [.fork]) .NBD_DO_IT = some error ∧ error ≠ EBADR ∧ v.cont ≠ 0 ∧
        tr1 = tr ++ [.fork, .ioctl .NBD_DO_IT,
            .eprint (bytes "nbd," ++ intText v.main_pid ++ bytes ": Kernel call returned: "
              ++ decimal error), .close_sock, .close_nbd]
          ++ failedReconnects k ++ [.eprint (bytes " Reconnecting\n"), .dial] ∧
        env.dial (tr ++ [.fork, .ioctl .NBD_DO_IT,
            .eprint (bytes "nbd," ++ intText v.main_pid ++ bytes ": Kernel call returned: "
              ++ decimal error), .close_sock, .close_nbd]
          ++ failedReconnects k ++ [.eprint (bytes " Reconnecting\n")]) = some sock ∧
        env.open_nbd tr1 = true ∧
        negotiate env.ulong_bits env.le env.garbage fuel v.name v.needed_flags v.cflags v.opts
          ⟨env.stream (tr1 ++ [.open_nbd]), [], [], []⟩
          = some (.ret (v.size64, new_flags), w') ∧
        tmp = (if v.size64 / toU64 v.blocksize ≤ 2 ^ env.ulong_bits - 1 then v.blocksize
          else 4096) ∧
        v' = { v with sock := sock } ∧
        tr' = tr1 ++ [.open_nbd, .negotiate, .ioctl (.NBD_SET_BLKSIZE tmp),
            .ioctl (.NBD_SET_SIZE_BLOCKS (v.size64 / toU64 tmp % 2 ^ env.ulong_bits))]
          ++ (if tmp ≠ v.blocksize then
              [.ioctl (.NBD_SET_BLKSIZE (v.blocksize % 2 ^ env.ulong_bits))] else [])
          ++ [.eprint (bytes "bs=" ++ intText tmp ++ bytes ", sz="
              ++ decimal (toU64 tmp * (v.size64 / toU64 tmp % 2 ^ env.ulong_bits) % 2 ^ 64)
              ++ bytes " bytes\n"),
            .ioctl .NBD_CLEAR_SOCK, .ioctl (.NBD_SET_FLAGS new_flags),
            .ioctl (.BLKROSET (if new_flags &&& NBD_FLAG_READ_ONLY ≠ 0 then 1 else 0))]
          ++ (if v.timeout ≠ 0 then
              [.ioctl (.NBD_SET_TIMEOUT (v.timeout % 2 ^ env.ulong_bits).toNat),
                .eprint (bytes "timeout=" ++ intText v.timeout ++ bytes "\n")]
            else [])
          ++ [.ioctl (.NBD_SET_SOCK sock)]
          ++ (if v.swap ≠ 0 then [.mlockall] else []) ∧
        attach_loop env fuel (passes + 1) v tr = attach_loop env fuel passes v' tr') ∧
    (∀ (error sock k : Nat) (tr1 : List Event) (new_flags : Nat) (w' : World) (tmp : Int),
      env.kernel (tr ++ [.fork]) .NBD_DO_IT = some error → error ≠ EBADR → v.cont ≠ 0 →
      tr1 = tr ++ [.fork, .ioctl .NBD_DO_IT,
          .eprint (bytes "nbd," ++ intText v.main_pid ++ bytes ": Kernel call returned: "
            ++ decimal error), .close_sock, .close_nbd]
        ++ failedReconnects k ++ [.eprint (bytes " Reconnecting\n"), .dial] →
      (∀ j, j < k → env.dial (tr ++ [.fork, .ioctl .NBD_DO_IT,
          .eprint (bytes "nbd," ++ intText v.main_pid ++ bytes ": Kernel call returned: "
            ++ decimal error), .close_sock, .close_nbd]
        ++ failedReconnects j ++ [.eprint (bytes " Reconnecting\n")]) = none) →
      env.dial (tr ++ [.fork, .ioctl .NBD_DO_IT,
          .eprint (bytes "nbd," ++ intText v.main_pid ++ bytes ": Kernel call returned: "
            ++ decimal error), .close_sock, .close_nbd]
        ++ failedReconnects k ++ [.eprint (bytes " Reconnecting\n")]) = some sock →
      k < fuel →
      env.open_nbd tr1 = true →
      negotiate env.ulong_bits env.le env.garbage fuel v.name v.needed_flags v.cflags v.opts
        ⟨env.stream (tr1 ++ [.open_nbd]), [], [], []⟩
        = some (.ret (v.size64, new_flags), w') →
      toU64 v.blocksize ≠ 0 → (∀ t r, r ≠ .NBD_DO_IT → env.kernel t r = none) →
      tmp = (if v.size64 / toU64 v.blocksize ≤ 2 ^ env.ulong_bits - 1 then v.blocksize
        else 4096) →
      ∃ tr',
        tr' = tr1 ++ [.open_nbd, .negotiate, .ioctl (.NBD_SET_BLKSIZE tmp),
            .ioctl (.NBD_SET_SIZE_BLOCKS (v.size64 / toU64 tmp % 2 ^ env.ulong_bits))]
          ++ (if tmp ≠ v.blocksize then
              [.ioctl (.NBD_SET_BLKSIZE (v.blocksize % 2 ^ env.ulong_bits))] else [])
          ++ [.eprint (bytes "bs=" ++ intText tmp ++ bytes ", sz="
              ++ decimal (toU64 tmp * (v.size64 / toU64 tmp % 2 ^ env.ulong_bits) % 2 ^ 64)
              ++ bytes " bytes\n"),
            .ioctl .NBD_CLEAR_SOCK, .ioctl (.NBD_SET_FLAGS new_flags),
            .ioctl (.BLKROSET (if new_flags &&& NBD_FLAG_READ_ONLY ≠ 0 then 1 else 0))]
          ++ (if v.timeout ≠ 0 then
              [.ioctl (.NBD_SET_TIMEOUT (v.timeout % 2 ^ env.ulong_bits).toNat),
                .eprint (bytes "timeout=" ++ intText v.timeout ++ bytes "\n")]
            else [])
          ++ [.ioctl (.NBD_SET_SOCK sock)]
          ++ (if v.swap ≠ 0 then [.mlockall] else []) ∧
        do_it_step env fuel v tr = some (.ret { v with sock := sock }, tr') ∧
        attach_loop env fuel (passes + 1) v tr
          = attach_loop env fuel passes { v with sock := sock } tr' ∧
        ∀ r tr2, attach_loop env fuel (passes + 1) v tr = some (r, tr2) →
          tr' ++ [.fork, .ioctl .NBD_DO_IT] <+: tr2) ∧
    (env.kernel (tr ++ [.fork]) .NBD_DO_IT = none →
      attach_loop env fuel (passes + 1) v tr
        = some (.ret 0, tr ++ [.fork, .ioctl .NBD_DO_IT,
            .eprint (bytes "Kernel call returned."),
            .print (bytes "sock, "), .ioctl .NBD_CLEAR_SOCK, .print (bytes "done\n")])) ∧
    (env.kernel (tr ++ [.fork]) .NBD_DO_IT = some EBADR →
      attach_loop env fuel (passes + 1) v tr
        = some (.ret 0, tr ++ [.fork, .ioctl .NBD_DO_IT,
            .eprint (bytes "nbd," ++ intText v.main_pid ++ bytes ": Kernel call returned: "
              ++ decimal EBADR),
            .print (bytes "sock, "), .ioctl .NBD_CLEAR_SOCK, .print (bytes "done\n")])) ∧
    (∀ error, env.kernel (tr ++ [.fork]) .NBD_DO_IT = some error → v.cont = 0 →
      attach_loop env fuel (passes + 1) v tr
        = some (.ret 0, tr ++ [.fork, .ioctl .NBD_DO_IT,
            .eprint (bytes "nbd," ++ intText v.main_pid ++ bytes ": Kernel call returned: "
              ++ decimal error),
            .print (bytes "sock, "), .ioctl .NBD_CLEAR_SOCK, .print (bytes "done\n")])) ∧
    (∀ (error sock k : Nat) (tr1 : List Event) (new_size new_flags : Nat) (w' : World),
      env.kernel (tr ++ [.fork]) .NBD_DO_IT = some error → error ≠ EBADR → v.cont ≠ 0 →
      tr1 = tr ++ [.fork, .ioctl .NBD_DO_IT,
          .eprint (bytes "nbd," ++ intText v.main_pid ++ bytes ": Kernel call returned: "
            ++ decimal error), .close_sock, .close_nbd]
        ++ failedReconnects k ++ [.eprint (bytes " Reconnecting\n"), .dial] →
      (∀ j, j < k → env.dial (tr ++ [.fork, .ioctl .NBD_DO_IT,
          .eprint (bytes "nbd," ++ intText v.main_pid ++ bytes ": Kernel call returned: "
            ++ decimal error), .close_sock, .close_nbd]
        ++ failedReconnects j ++ [.eprint (bytes " Reconnecting\n")]) = none) →
      env.dial (tr ++ [.fork, .ioctl .NBD_DO_IT,
          .eprint (bytes "nbd," ++ intText v.main_pid ++ bytes ": Kernel call returned: "
            ++ decimal error), .close_sock, .close_nbd]
        ++ failedReconnects k ++ [.eprint (bytes " Reconnecting\n")]) = some sock →
      k < fuel →
      env.open_nbd tr1 = true →
      negotiate env.ulong_bits env.le env.garbage fuel v.name v.needed_flags v.cflags v.opts
        ⟨env.stream (tr1 ++ [.open_nbd]), [], [], []⟩
        = some (.ret (new_size, new_flags), w') →
      new_size ≠ v.size64 →
      attach_loop env fuel (passes + 1) v tr
        = some (.err "Size of the device changed. Bye", tr1 ++ [.open_nbd, .negotiate])) := by
  have hloop : ∀ r, do_it_step env fuel v tr = some r →
      attach_loop env fuel (passes + 1) v tr =
        match r with
        | (.err m, tr) => some (.err m, tr)
        | (.exit code, tr) => some (.exit code, tr)
        | (.ret v, tr) =>
          if v.cont ≠ 0 then attach_loop env fuel passes v tr
          else
            some (.ret 0, tr ++ [.print (bytes "sock, "), .ioctl .NBD_CLEAR_SOCK,
              .print (bytes "done\n")]) := by
    intro r hr
    rw [attach_loop, hr]
    rcases r with ⟨_ | _ | _, _⟩ <;> rfl
  have hT0 : ∀ error, tr ++ [Event.fork] ++ kernel_call_returned v.main_pid error
        ++ [Event.close_sock, Event.close_nbd]
      = tr ++ [Event.fork, Event.ioctl .NBD_DO_IT,
          Event.eprint (bytes "nbd," ++ intText v.main_pid ++ bytes ": Kernel call returned: "
            ++ decimal error), Event.close_sock, Event.close_nbd] := by
    intro error
    simp [kernel_call_returned]
  have hdialed : ∀ (error sock k : Nat) (tr1 : List Event),
      tr1 = tr ++ [Event.fork, Event.ioctl .NBD_DO_IT,
          Event.eprint (bytes "nbd," ++ intText v.main_pid ++ bytes ": Kernel call returned: "
            ++ decimal error), Event.close_sock, Event.close_nbd]
        ++ failedReconnects k ++ [Event.eprint (bytes " Reconnecting\n"), Event.dial] →
      (∀ j, j < k → env.dial (tr ++ [Event.fork, Event.ioctl .NBD_DO_IT,
          Event.eprint (bytes "nbd," ++ intText v.main_pid ++ bytes ": Kernel call returned: "
            ++ decimal error), Event.close_sock, Event.close_nbd]
        ++ failedReconnects j ++ [Event.eprint (bytes " Reconnecting\n")]) = none) →
      env.dial (tr ++ [Event.fork, Event.ioctl .NBD_DO_IT,
          Event.eprint (bytes "nbd," ++ intText v.main_pid ++ bytes ": Kernel call returned: "
            ++ decimal error), Event.close_sock, Event.close_nbd]
        ++ failedReconnects k ++ [Event.eprint (bytes " Reconnecting\n")]) = some sock →
      k < fuel →
      reconnect_dial env.dial fuel (tr ++ [Event.fork] ++ kernel_call_returned v.main_pid error
        ++ [Event.close_sock, Event.close_nbd]) = some (sock, tr1) := by
    intro error sock k tr1 htr1 hfail hs hk
    rw [hT0 error, htr1]
    exact reconnect_dial_success env.dial sock k fuel _ hfail hs hk
  have hstep_rec : ∀ error, env.kernel (tr ++ [.fork]) .NBD_DO_IT = some error →
      error ≠ EBADR → v.cont ≠ 0 →
      do_it_step env fuel v tr
        = reconnect env fuel v (tr ++ [Event.fork] ++ kernel_call_returned v.main_pid error) := by
    intro error herr hne hc
    unfold do_it_step
    simp only []
    rw [herr]
    simp only [if_neg hne, hc, ne_eq, not_false_eq_true, if_true]
  refine ⟨?_, ?_, ?_, ?_, ?_, ?_⟩
  · intro v' tr' h hcont
    have hl := hloop _ h
    simp only [hcont, ne_eq, not_false_eq_true, if_true] at hl
    have h' := h
    unfold do_it_step at h
    simp only [] at h
    split at h
    · rename_i error herr
      split at h
      · simp only [Option.some.injEq, Prod.mk.injEq, Res.ret.injEq] at h
        exact absurd (by rw [← h.1]) hcont
      · rename_i hne
        split at h
        · rename_i hc
          obtain ⟨sock, tr1, -, -, hd, -, -, -⟩ := reconnect_ret env fuel v v' _ tr' h
          obtain ⟨k, -, -, hs, htr1⟩ := reconnect_dial_ret env.dial fuel _ tr1 sock hd
          obtain ⟨ho, new_flags, w', hn, hv, htr'⟩ :=
            reconnect_ret_eq env fuel v v' _ tr1 tr' sock _ rfl hd h
          rw [hT0 error] at hs htr1
          exact ⟨error, sock, k, tr1, new_flags, w', _, herr, hne, hc, htr1, hs, ho, hn, rfl,
            hv, htr', hl⟩
        · rename_i hc
          simp only [Option.some.injEq, Prod.mk.injEq, Res.ret.injEq] at h
          exact absurd (by rw [← h.1]; exact not_not.1 hc) hcont
    · simp only [Option.some.injEq, Prod.mk.injEq, Res.ret.injEq] at h
      exact absurd (by rw [← h.1]) hcont
  · intro error sock k tr1 new_flags w' tmp herr hne hc htr1 hfail hs hk ho hn hb hkern htmp
    have hd := hdialed error sock k tr1 htr1 hfail hs hk
    obtain ⟨rest, -, hrec⟩ :=
      reconnect_accepted env fuel v _ tr1 sock new_flags w' hd ho hn hb hkern
    obtain ⟨-, new_flags', w'', hn', -, htr'⟩ :=
      reconnect_ret_eq env fuel v _ _ tr1 _ sock tmp htmp hd hrec
    have hflags : new_flags' = new_flags := by
      rw [hn] at hn'
      simp only [Option.some.injEq, Prod.mk.injEq, Res.ret.injEq] at hn'
      exact hn'.1.2.symm
    rw [hflags] at htr'
    rw [htr'] at hrec
    have hstep := (hstep_rec error herr hne hc).trans hrec
    have hl := hloop _ hstep
    simp only [hc, ne_eq, not_false_eq_true, if_true] at hl
    refine ⟨_, rfl, hstep, hl, ?_⟩
    intro r tr2 h2
    rw [hl] at h2
    exact attach_loop_enters env fuel passes _ _ tr2 r h2
  · intro hnone
    have hstep : do_it_step env fuel v tr = some (.ret { v with cont := 0 },
        tr ++ [.fork] ++ [.ioctl .NBD_DO_IT, .eprint (bytes "Kernel call returned.")]) := by
      unfold do_it_step
      simp only []
      rw [hnone]
    have hl := hloop _ hstep
    simp only [ne_eq, not_true_eq_false, if_false] at hl
    rw [hl]
    simp
  · intro herr
    have hstep : do_it_step env fuel v tr = some (.ret { v with cont := 0 },
        tr ++ [.fork] ++ kernel_call_returned v.main_pid EBADR) := by
      unfold do_it_step
      simp only []
      rw [herr]
      simp
    have hl := hloop _ hstep
    simp only [ne_eq, not_true_eq_false, if_false] at hl
    rw [hl]
    simp [kernel_call_returned]
  · intro error herr hc
    by_cases hb : error = EBADR
    · have hstep : do_it_step env fuel v tr = some (.ret { v with cont := 0 },
          tr ++ [.fork] ++ kernel_call_returned v.main_pid error) := by
        unfold do_it_step
        simp only []
        rw [herr]
        simp [hb]
      have hl := hloop _ hstep
      simp only [ne_eq, not_true_eq_false, if_false] at hl
      rw [hl]
      simp [kernel_call_returned]
    · have hstep : do_it_step env fuel v tr = some (.ret v,
          tr ++ [.fork] ++ kernel_call_returned v.main_pid error) := by
        unfold do_it_step
        simp only []
        rw [herr]
        simp [hb, hc]
      have hl := hloop _ hstep
      simp only [hc, ne_eq, not_true_eq_false, if_false] at hl
      rw [hl]
      simp [kernel_call_returned]
  · intro error sock k tr1 new_size new_flags w' herr hne hc htr1 hfail hs hk ho hn hsize
    have hd := hdialed error sock k tr1 htr1 hfail hs hk
    have hrec := reconnect_size_changed env fuel v _ tr1 sock new_size new_flags w' hd ho hn hsize
    have hstep := (hstep_rec error herr hne hc).trans hrec
    exact hloop _ hstep


set_option maxRecDepth 100000 in
theorem attach_loop_reconnects_witness :
    ∃ tr',
      tr' = [.fork, .ioctl .NBD_DO_IT, .eprint (bytes "nbd,100: Kernel call returned: 5"),
        .close_sock, .close_nbd, .eprint (bytes " Reconnecting\n"), .dial, .open_nbd,
        .negotiate, .ioctl (.NBD_SET_BLKSIZE 1024), .ioctl (.NBD_SET_SIZE_BLOCKS 1048576),
        .eprint (bytes "bs=1024, sz=1073741824 bytes\n"), .ioctl .NBD_CLEAR_SOCK,
        .ioctl (.NBD_SET_FLAGS 0), .ioctl (.BLKROSET 0), .ioctl (.NBD_SET_SOCK 4)] ∧
      do_it_step (reconnectEnv (2 ^ 30)) 1 (attached 1) []
        = some (.ret { attached 1 with sock := 4 }, tr') ∧
      attach_loop (reconnectEnv (2 ^ 30)) 1 (1 + 1) (attached 1) []
        = attach_loop (reconnectEnv (2 ^ 30)) 1 1 { attached 1 with sock := 4 } tr' ∧
      ∀ r tr2, attach_loop (reconnectEnv (2 ^ 30)) 1 (1 + 1) (attached 1) [] = some (r, tr2) →
        tr' ++ [.fork, .ioctl .NBD_DO_IT] <+: tr2 := by
  obtain ⟨tr', h1, h2⟩ :=
    (attach_loop_reconnects (reconnectEnv (2 ^ 30)) 1 1 (attached 1) []).2.1 5 4 0
      [.fork, .ioctl .NBD_DO_IT, .eprint (bytes "nbd,100: Kernel call returned: 5"),
        .close_sock, .close_nbd, .eprint (bytes " Reconnecting\n"), .dial] 0
      ⟨[], be 4 3 ++ be 8 opts_magic ++ be 4 1 ++ be 4 4 ++ bytes "data",
        bytes "Negotiation: ..size = 1024MB\n", []⟩ 1024
      (by decide) (by decide) (by decide) (by decide) (fun j hj => absurd hj (by omega))
      (by decide) (by decide) (by decide) (by decide) (by decide)
      (fun t r h => by simp [reconnectEnv, h]) (by decide)
  exact ⟨tr', h1.trans (by decide), h2⟩


set_option maxRecDepth 100000 in
/-- The scenario of a reconnection: the first `NBD_DO_IT` fails with an error
that is not `EBADR`; with `cont` set the client dials, negotiates, finds the
size of before, sets sizes, flags and socket again and calls `NBD_DO_IT` again;
this one fails with `EBADR`, and `main` clears the socket and returns 0. -/
theorem attach_loop_reconnect_then_disconnect :
    attach_loop (reconnectEnv (2 ^ 30)) 1 2 (attached 1) []
      = some (.ret 0, [.fork, .ioctl .NBD_DO_IT,
          .eprint (bytes "nbd,100: Kernel call returned: 5"),
          .close_sock, .close_nbd, .eprint (bytes " Reconnecting\n"), .dial, .open_nbd,
          .negotiate, .ioctl (.NBD_SET_BLKSIZE 1024), .ioctl (.NBD_SET_SIZE_BLOCKS 1048576),
          .eprint (bytes "bs=1024, sz=1073741824 bytes\n"), .ioctl .NBD_CLEAR_SOCK,
          .ioctl (.NBD_SET_FLAGS 0), .ioctl (.BLKROSET 0), .ioctl (.NBD_SET_SOCK 4),
          .fork, .ioctl .NBD_DO_IT, .eprint (bytes "nbd,100: Kernel call returned: 53"),
          .print (bytes "sock, "), .ioctl .NBD_CLEAR_SOCK, .print (bytes "done\n")]) := by
  decide

set_option maxRecDepth 100000 in
/-- Without `cont` the first error of `NBD_DO_IT` ends the loop: nothing is
dialled. -/
theorem attach_loop_without_persist :
    attach_loop (reconnectEnv (2 ^ 30)) 1 1 (attached 0) []
      = some (.ret 0, [.fork, .ioctl .NBD_DO_IT,
          .eprint (bytes "nbd,100: Kernel call returned: 5"),
          .print (bytes "sock, "), .ioctl .NBD_CLEAR_SOCK, .print (bytes "done\n")]) := by
  decide

set_option maxRecDepth 100000 in
/-- When the server offers `1 << 31` bytes for a device attached with `1 << 30`,
the process ends with the diagnostic of the changed size; no request has been
made on the device since the failed `NBD_DO_IT`. -/
theorem attach_loop_size_changed :
    attach_loop (reconnectEnv (2 ^ 31)) 1 2 (attached 1) []
      = some (.err "Size of the device changed. Bye", [.fork, .ioctl .NBD_DO_IT,
          .eprint (bytes "nbd,100: Kernel call returned: 5"),
          .close_sock, .close_nbd, .eprint (bytes " Reconnecting\n"), .dial, .open_nbd,
          .negotiate]) := by
  decide

end NbdClient
